import Mathlib

/-! # SMTP relay: ingress session, queue adapter and delivery worker

A shallow embedding of the mail pipeline of the relay:

* `internal/smtp/server.go`   : the SMTP session (`AuthPlain`, `Mail`, `Rcpt`, `Data`, `Reset`),
* `internal/queue/service.go` : `EnqueueMail`, the consume loop body, retry count and backoff,
* `internal/worker/processor.go` : header synthesis and the bytes written to the upstream.

Conventions of the embedding.

* A Go `[]byte` is a list of bytes (`Fin 256`). A Go `string` is a sequence of bytes too; it is
  held as a Lean `String` with one character per byte, so that `len`, slicing and `strings.Split`
  are the list operations on `String.data`, and `[]byte(s)` / `string(b)` map characters to
  bytes and back by their code.
* Go `int` / `int64` are `Int`; no arithmetic in the modelled code can overflow
  (only comparisons and `+ 1` on small counters occur).
* A Go method returning `error` becomes a function returning an `Outcome`
  (`ok` for `nil`, `error msg`, or `panicked msg` for a runtime panic) together
  with the receiver after the call.
* Calls into the store and the broker are recorded, in program order, as a list of
  `Effect`s; the answer of the store or broker to a call is an argument of the model.
* Log statements are not modelled.
-/

namespace SmtpRelay

/-! ## Basic data -/

/-- One octet. -/
abbrev Byte := Fin 256

/-- A Go byte slice. -/
abbrev Bytes := List Byte

/-- Instants, in nanoseconds since the Go zero time (January 1, year 1, 00:00 UTC). -/
abbrev Time := Int

/-- A duration in nanoseconds, as Go's `time.Duration`. -/
abbrev Duration := Int

def Nanosecond : Duration := 1
def Millisecond : Duration := 1000000
def Second : Duration := 1000 * Millisecond
def Minute : Duration := 60 * Second
def Hour : Duration := 60 * Minute

/-- Go `Duration.Milliseconds`. -/
def Duration.Milliseconds (d : Duration) : Int := Int.tdiv d 1000000

/-- Go `Time.Truncate(d)` for `d > 0`: round down to a multiple of `d` since the zero time. -/
def Time.Truncate (t : Time) (d : Duration) : Time := t - t % d

/-- Seconds between the Go zero time and the Unix epoch. -/
def unixToInternal : Int := 62135596800

/-- Go `Time.Unix`. -/
def Time.Unix (t : Time) : Int := t / 1000000000 - unixToInternal

/-- A store object id, carried by its 24-character hexadecimal rendering. -/
structure ObjectID where
  hex : String
deriving DecidableEq, Repr

/-- Go `ObjectID.Hex`. -/
def ObjectID.Hex (i : ObjectID) : String := i.hex

/-- The zero object id. -/
def NilObjectID : ObjectID := ⟨"000000000000000000000000"⟩

/-- The result of a Go call that returns `error`, or that may panic. -/
inductive Outcome where
  | ok
  | error (msg : String)
  | panicked (msg : String)
deriving DecidableEq, Repr

/-- Whether the call returned `nil`. -/
def Outcome.isOk : Outcome → Bool
  | .ok => true
  | _ => false

/-- A Go expression that yields a value or panics. -/
inductive Go (α : Type) where
  | ret (a : α)
  | panic (msg : String)
deriving DecidableEq, Repr

/-! ## models -/

structure SMTPCredentialSettings where
  DailyQuota : Int
  HourlyQuota : Int
  AllowedDomains : List String
  MaxRecipients : Int
deriving DecidableEq, Repr

structure SMTPCredential where
  ID : ObjectID
  UserID : ObjectID
  Name : String
  Username : String
  Status : String
  Settings : SMTPCredentialSettings
deriving DecidableEq, Repr

structure User where
  ID : ObjectID
  Username : String
  Email : String
  Status : String
deriving DecidableEq, Repr

structure MailLog where
  ID : ObjectID
  UserID : ObjectID
  CredentialID : Option ObjectID
  MessageID : String
  From : String
  To : List String
  Subject : String
  Size : Int
  Status : String
  Attempts : Int
  LastAttempt : Time
  ErrorMessage : String
  CreatedAt : Time
  CompletedAt : Option Time
  RelayIP : String
deriving DecidableEq, Repr

/-! ## Go string helpers -/

/-- Go `strings.Split(s, sep)` for a one-character separator, on character lists. -/
def splitChars (sep : Char) : List Char → List (List Char)
  | [] => [[]]
  | c :: cs =>
    if c = sep then [] :: splitChars sep cs
    else
      match splitChars sep cs with
      | [] => [[c]]
      | h :: t => (c :: h) :: t

/-- Go `strings.Split(s, sep)` for a one-character separator. -/
def Split (s : String) (sep : Char) : List String :=
  (splitChars sep s.data).map String.mk

/-- Go `strings.Join`. -/
def Join : List String → String → String
  | [], _ => ""
  | [a], _ => a
  | a :: b :: rest, sep => a ++ sep ++ Join (b :: rest) sep

/-- Go `[]byte(s)`. -/
def toBytes (s : String) : Bytes := s.data.map (fun c => Fin.ofNat c.toNat)

/-- Go `string(b)`. -/
def ofBytes (b : Bytes) : String := String.mk (b.map (fun x => Char.ofNat x.val))

/-- Go `strings.HasPrefix`. -/
def HasPrefix (s p : String) : Bool := p.data.isPrefixOf s.data

/-! ### UTF-8

Strings are byte strings: one `Char` stands for one byte. The library functions below read
them as UTF-8, as Go does. -/

/-- Whether a byte is a UTF-8 continuation byte. -/
def isCont (b : Nat) : Bool := 128 ≤ b && b ≤ 191

/-- Whether two bytes are a valid two-byte UTF-8 encoding. -/
def valid2 (b0 b1 : Nat) : Bool := 194 ≤ b0 && b0 ≤ 223 && isCont b1

/-- Whether three bytes are a valid three-byte UTF-8 encoding (no overlong form, no
surrogate). -/
def valid3 (b0 b1 b2 : Nat) : Bool :=
  ((b0 == 224 && 160 ≤ b1 && b1 ≤ 191) || (225 ≤ b0 && b0 ≤ 236 && isCont b1) ||
    (b0 == 237 && 128 ≤ b1 && b1 ≤ 159) || (238 ≤ b0 && b0 ≤ 239 && isCont b1)) && isCont b2

/-- Whether four bytes are a valid four-byte UTF-8 encoding (no overlong form, nothing above
U+10FFFF). -/
def valid4 (b0 b1 b2 b3 : Nat) : Bool :=
  ((b0 == 240 && 144 ≤ b1 && b1 ≤ 191) || (241 ≤ b0 && b0 ≤ 243 && isCont b1) ||
    (b0 == 244 && 128 ≤ b1 && b1 ≤ 143)) && isCont b2 && isCont b3

/-- The width Go `utf8.DecodeRune` reports for a valid encoding at the head of a byte list;
0 when the head is not a valid encoding (Go then reports `RuneError` with width 1). A byte
that is missing is read as 0, which is no continuation byte. -/
def utf8Size : List Nat → Nat
  | [] => 0
  | b0 :: rest =>
    if b0 < 128 then 1
    else if valid2 b0 (rest.getD 0 0) then 2
    else if valid3 b0 (rest.getD 0 0) (rest.getD 1 0) then 3
    else if valid4 b0 (rest.getD 0 0) (rest.getD 1 0) (rest.getD 2 0) then 4
    else 0

/-- The UTF-8 encoding of U+FFFD, the replacement character. -/
def replacementChar : List Char := [Char.ofNat 239, Char.ofNat 191, Char.ofNat 189]

/-- The replacement of invalid UTF-8, byte by byte; `skip` is the number of bytes left of the
encoding in progress. -/
def coerceFrom : Nat → List Char → List Char
  | _, [] => []
  | skip + 1, c :: cs => c :: coerceFrom skip cs
  | 0, c :: cs =>
    match utf8Size ((c :: cs).map Char.toNat) with
    | 0 => replacementChar ++ coerceFrom 0 cs
    | n + 1 => c :: coerceFrom n cs

/-- What Go `encoding/json` makes of the bytes of a string, on writing and on reading: every
byte that does not belong to a valid UTF-8 encoding is replaced by U+FFFD; valid UTF-8 is
unchanged. -/
def coerceUTF8 (s : String) : String := String.mk (coerceFrom 0 s.data)

/-- The lowering of a byte list rune by rune; `skip` is the number of bytes left of the rune
already written. -/
def lowerFrom : Nat → List Char → List Char
  | _, [] => []
  | skip + 1, _ :: cs => lowerFrom skip cs
  | 0, c :: cs =>
    match utf8Size ((c :: cs).map Char.toNat) with
    | 0 => replacementChar ++ lowerFrom 0 cs
    | 1 => c.toLower :: lowerFrom 0 cs
    | n + 2 =>
      if ((c :: cs).take (n + 2)).map Char.toNat = [196, 176] then 'i' :: lowerFrom (n + 1) cs
      else if ((c :: cs).take (n + 2)).map Char.toNat = [226, 132, 170] then
        'k' :: lowerFrom (n + 1) cs
      else (c :: cs).take (n + 2) ++ lowerFrom (n + 1) cs

/-- Go `strings.ToLower`, rune by rune as `strings.Map(unicode.ToLower, s)`: the letters
`A`..`Z` are lowered, U+0130 and U+212A become the ASCII letters `i` and `k` (the only runes
outside ASCII that Go lowers into ASCII), and a byte that is no valid UTF-8 becomes U+FFFD.
Every other rune outside ASCII is written back as it is: Go lowers the cased ones among
them by the Unicode tables of its release, always to a rune outside ASCII, so that the
ASCII bytes of the result and their places among the runes are those of Go. -/
def ToLower (s : String) : String := String.mk (lowerFrom 0 s.data)

/-- Whether `substr` occurs in a character list as a contiguous block. -/
def containsChars (substr : List Char) : List Char → Bool
  | [] => substr.isPrefixOf []
  | c :: cs => substr.isPrefixOf (c :: cs) || containsChars substr cs

/-- Go `strings.Contains`. -/
def Contains (s substr : String) : Bool := containsChars substr.data s.data

/-- The UTF-8 encodings of the runes for which Go `unicode.IsSpace` holds: tab, line feed,
vertical tab, form feed, carriage return, space, U+0085, U+00A0, U+1680, U+2000 to U+200A,
U+2028, U+2029, U+202F, U+205F and U+3000. -/
def spaceEncodings : List (List Nat) :=
  [[9], [10], [11], [12], [13], [32], [194, 133], [194, 160], [225, 154, 128],
   [226, 128, 128], [226, 128, 129], [226, 128, 130], [226, 128, 131], [226, 128, 132],
   [226, 128, 133], [226, 128, 134], [226, 128, 135], [226, 128, 136], [226, 128, 137],
   [226, 128, 138], [226, 128, 168], [226, 128, 169], [226, 128, 175], [226, 129, 159],
   [227, 128, 128]]

/-- The width of the white-space rune that begins a byte list, 0 if none does. -/
def spaceWidth (l : List Nat) : Nat :=
  match spaceEncodings.find? (fun e => e.isPrefixOf l) with
  | some e => e.length
  | none => 0

/-- The width of the white-space rune that ends a byte list given back to front, 0 if none
does. This is what Go `utf8.DecodeLastRuneInString` finds: the encodings are valid UTF-8, so
the scan back from the end stops at the first byte of such an encoding. -/
def spaceWidthRev (l : List Nat) : Nat :=
  match spaceEncodings.find? (fun e => e.reverse.isPrefixOf l) with
  | some e => e.length
  | none => 0

/-- Dropping the white-space runes at the head of a list; `width` tells the width of the rune
at the head and `skip` is the number of bytes left of the rune being dropped. -/
def dropSpaces (width : List Nat → Nat) : Nat → List Char → List Char
  | _, [] => []
  | skip + 1, _ :: cs => dropSpaces width skip cs
  | 0, c :: cs =>
    match width ((c :: cs).map Char.toNat) with
    | 0 => c :: cs
    | n + 1 => dropSpaces width n cs

/-- Go `strings.TrimSpace`: the white-space runes at the start are removed, then those at the
end (`TrimLeftFunc` and `TrimRightFunc` with `unicode.IsSpace`; the ASCII fast path of the
Go function gives the same result). -/
def TrimSpace (s : String) : String :=
  String.mk (dropSpaces spaceWidthRev 0 (dropSpaces spaceWidth 0 s.data).reverse).reverse

/-! ## encoding/json of the queue message

Go's `encoding/json` writes a `[]byte` field as a base64 string (standard alphabet, padded)
and reads it back by base64 decoding; it writes and reads a string as UTF-8 text, replacing
every byte that is no valid UTF-8 by U+FFFD. The JSON text itself is not modelled: a body is
the JSON object it denotes, key by key. -/

/-- The standard base64 alphabet. -/
def base64Alphabet : List Char :=
  "ABCDEFGHIJKLMNOPQRSTUVWXYZabcdefghijklmnopqrstuvwxyz0123456789+/".data

/-- The character of a 6-bit value. -/
def encodeSextet (n : Nat) : Char := base64Alphabet.getD n 'A'

/-- The 6-bit value of a base64 character, if it is one. -/
def decodeSextet (c : Char) : Option Nat :=
  let i := base64Alphabet.indexOf c
  if i < 64 then some i else none

/-- Go `base64.StdEncoding.EncodeToString`, as a character list. -/
def base64Encode : Bytes → List Char
  | [] => []
  | [a] => [encodeSextet (a.val / 4), encodeSextet (a.val % 4 * 16), '=', '=']
  | [a, b] =>
    [encodeSextet (a.val / 4), encodeSextet (a.val % 4 * 16 + b.val / 16),
     encodeSextet (b.val % 16 * 4), '=']
  | a :: b :: c :: rest =>
    encodeSextet (a.val / 4) :: encodeSextet (a.val % 4 * 16 + b.val / 16) ::
      encodeSextet (b.val % 16 * 4 + c.val / 64) :: encodeSextet (c.val % 64) ::
      base64Encode rest

/-- The decoding of padded base64 text, four characters for three bytes. -/
def decodeQuanta : List Char → Option Bytes
  | [] => some []
  | c1 :: c2 :: c3 :: c4 :: rest =>
    match decodeSextet c1, decodeSextet c2, decodeSextet c3, decodeSextet c4 with
    | some s1, some s2, some s3, some s4 =>
      (decodeQuanta rest).map (fun tail =>
        Fin.ofNat (s1 * 4 + s2 / 16) :: Fin.ofNat (s2 % 16 * 16 + s3 / 4) ::
          Fin.ofNat (s3 % 4 * 64 + s4) :: tail)
    | some s1, some s2, some s3, none =>
      if c4 = '=' ∧ rest = [] then
        some [Fin.ofNat (s1 * 4 + s2 / 16), Fin.ofNat (s2 % 16 * 16 + s3 / 4)]
      else none
    | some s1, some s2, none, none =>
      if c3 = '=' ∧ c4 = '=' ∧ rest = [] then some [Fin.ofNat (s1 * 4 + s2 / 16)] else none
    | _, _, _, _ => none
  | _ => none

/-- Go `base64.StdEncoding.DecodeString`: carriage returns and line feeds are skipped
wherever they stand, the rest is padded base64. -/
def base64Decode (text : List Char) : Option Bytes :=
  decodeQuanta (text.filter (fun c => c != '\r' && c != '\n'))

/-! ## internal/queue/service.go -/

/-- Go `MailMessage`. -/
structure MailMessage where
  MailLogID : ObjectID
  From : String
  To : List String
  Subject : String
  Body : Bytes
  Priority : Int
  CreatedAt : Time
deriving DecidableEq, Repr

/-- The value under the key `mail_log_id`, by what the store driver's
`ObjectID.UnmarshalJSON` makes of it: the key is absent or holds `null`, the value is one
the driver reads as an id (the 24 hexadecimal digits that `ObjectID.MarshalJSON` writes,
for one), or the value is one the driver refuses. The driver is not part of the repository;
which texts it refuses is left to it. -/
inductive IdValue where
  | absent
  | id (i : ObjectID)
  | refused
deriving DecidableEq, Repr

/-- The JSON object of a queue message: the value under each key, `none` when the key is
absent. The strings are the bytes the JSON text spells out; `body` is base64 text. -/
structure MessageJSON where
  mail_log_id : IdValue
  sender : Option String
  rcpts : Option (List String)
  subject : Option String
  body : Option String
  priority : Option Int
  created_at : Option Time
deriving DecidableEq, Repr

/-- Go `json.Marshal(message)`. -/
def Marshal (m : MailMessage) : MessageJSON :=
  { mail_log_id := .id m.MailLogID
    sender := some (coerceUTF8 m.From)
    rcpts := some (m.To.map coerceUTF8)
    subject := some (coerceUTF8 m.Subject)
    body := some (String.mk (base64Encode m.Body))
    priority := some m.Priority
    created_at := some m.CreatedAt }

/-- The id `json.Unmarshal` leaves in the message, if the driver does not refuse the value. -/
def IdValue.decode : IdValue → Option ObjectID
  | .absent => some NilObjectID
  | .id i => some i
  | .refused => none

/-- Go `json.Unmarshal(body, &message)` on a JSON object: an absent key leaves the zero value;
an id the driver refuses is an error, and so is a `body` that is not base64. -/
def Unmarshal (j : MessageJSON) : Except String MailMessage :=
  match j.mail_log_id.decode with
  | none => .error "invalid ObjectID"
  | some id =>
    match (match j.body with
           | none => some []
           | some text => base64Decode (coerceUTF8 text).data) with
    | none => .error "illegal base64 data"
    | some body =>
      .ok { MailLogID := id
            From := coerceUTF8 (j.sender.getD "")
            To := (j.rcpts.getD []).map coerceUTF8
            Subject := coerceUTF8 (j.subject.getD "")
            Body := body
            Priority := j.priority.getD 0
            CreatedAt := j.created_at.getD 0 }

/-- A value of an AMQP header table: a 32-bit signed integer, or a value of another type. -/
inductive HeaderValue where
  | int32 (v : Int)
  | other (text : String)
deriving DecidableEq, Repr

/-- Go `amqp.Table`. -/
abbrev Table := List (String × HeaderValue)

/-- Go `amqp.Publishing`, the fields the service sets. -/
structure Publishing where
  ContentType : String
  Body : MessageJSON
  DeliveryMode : Nat
  Priority : Nat
  Timestamp : Time
  MessageId : String
  Expiration : String
  Headers : Option Table
deriving DecidableEq, Repr

/-- Go `amqp.Persistent`. -/
def Persistent : Nat := 2

/-- Go `amqp.Delivery`: headers (`none` for a nil table), message id and body. A body that is
not the JSON text of an object, or that holds under a key of the message a value of another
type than the field, is `none`: `json.Unmarshal` returns an error for it. -/
structure Delivery where
  Headers : Option Table
  MessageId : String
  Body : Option MessageJSON
deriving DecidableEq, Repr

/-- Go conversion `uint8(x)`. -/
def toUint8 (x : Int) : Nat := (x % 256).toNat

/-- Go conversion `int32(x)`. -/
def toInt32 (x : Int) : Int := (x + 2147483648) % 4294967296 - 2147483648

deriving instance DecidableEq for Except

/-- A call of the worker on its SMTP client to the upstream relay. -/
inductive SMTPCall where
  | dial (addr : String)
  | startTLS
  | auth (username password host : String)
  | mail (sender : String)
  | rcpt (rcpt : String)
  | data
  | write (bytes : Bytes)
  | closeWriter
  | quit
  | closeClient
deriving DecidableEq, Repr

/-- The `$set` document of an `UpdateOne` on `mail_logs`; `none` for a key that is not set. -/
structure MailLogPatch where
  status : String
  attempts : Int
  last_attempt : Time
  error_message : Option String
  completed_at : Option Time
deriving DecidableEq, Repr

/-- A call made to the store, to the broker or to the upstream relay, with the answer it got,
or a `time.Sleep`. -/
inductive Effect where
  | insertMailLog (record : MailLog) (answer : Except String ObjectID)
  | publish (exchange routingKey : String) (msg : Publishing) (answer : Option String)
  | ack (multiple : Bool)
  | nack (multiple requeue : Bool)
  | updateOne (id : ObjectID) (set : MailLogPatch) (answer : Option String)
  | smtp (call : SMTPCall) (answer : Option String)
  | sleep (d : Duration)
deriving DecidableEq, Repr

/-- The record after a `$set`. -/
def MailLog.patch (m : MailLog) (set : MailLogPatch) : MailLog :=
  { m with
    Status := set.status
    Attempts := set.attempts
    LastAttempt := set.last_attempt
    ErrorMessage := set.error_message.getD m.ErrorMessage
    CompletedAt := match set.completed_at with
                   | some t => some t
                   | none => m.CompletedAt }

/-- Store `UpdateOne` by `_id`: the first record with that id is patched. -/
def updateFirst (id : ObjectID) (set : MailLogPatch) : List MailLog → List MailLog
  | [] => []
  | m :: rest => if m.ID = id then m.patch set :: rest else m :: updateFirst id set rest

/-- The `mail_logs` collection after a sequence of calls: an answered insert appends the
record under the id the store gave it, an answered update patches the record; calls that
got an error, and calls to the broker or the upstream, leave the collection as it is. -/
def applyEffects (mailLogs : List MailLog) : List Effect → List MailLog
  | [] => mailLogs
  | .insertMailLog record (.ok id) :: rest =>
    applyEffects (mailLogs ++ [{ record with ID := id }]) rest
  | .updateOne id set none :: rest => applyEffects (updateFirst id set mailLogs) rest
  | _ :: rest => applyEffects mailLogs rest

/-- The publishings the broker accepted, with exchange and routing key, in order. -/
def published : List Effect → List (String × String × Publishing)
  | [] => []
  | .publish exchange key msg none :: rest => (exchange, key, msg) :: published rest
  | _ :: rest => published rest

/-- The `Publish` calls made, answered or not, in order. -/
def publishCalls : List Effect → List (String × String × Publishing)
  | [] => []
  | .publish exchange key msg _ :: rest => (exchange, key, msg) :: publishCalls rest
  | _ :: rest => publishCalls rest

/-- The `InsertOne` calls made, answered or not, in order. -/
def insertCalls : List Effect → List MailLog
  | [] => []
  | .insertMailLog record _ :: rest => record :: insertCalls rest
  | _ :: rest => insertCalls rest

/-- Go `queue.Service`: the configured names. -/
structure Service where
  exchangeName : String
  queueName : String
  routingKey : String
deriving DecidableEq, Repr

/-- Go `Service.calculatePriority`. -/
def Service.calculatePriority (mailLog : MailLog) : Int :=
  let priority : Int := 5
  let priority :=
    if mailLog.Size < 1024 * 1024 then priority + 1
    else if mailLog.Size > 10 * 1024 * 1024 then priority - 1
    else priority
  let priority :=
    if mailLog.To.length = 1 then priority + 1
    else if mailLog.To.length > 10 then priority - 1
    else priority
  if priority < 0 then 0
  else if priority > 9 then 9
  else priority

/-- Go `Service.EnqueueMail`. `insertAnswer` is the store's answer to `InsertOne`,
`publishAnswer` the broker's answer to `Publish` (`none`: no error), `now` the clock at the
publish. Returns the outcome and the calls made, in order. -/
def Service.EnqueueMail (s : Service) (mailLog : MailLog) (body : Bytes)
    (insertAnswer : Except String ObjectID) (publishAnswer : Option String) (now : Time) :
    Outcome × List Effect :=
  match insertAnswer with
  | .error e => (.error e, [.insertMailLog mailLog insertAnswer])
  | .ok id =>
    let stored := { mailLog with ID := id }
    let message : MailMessage :=
      { MailLogID := stored.ID
        From := stored.From
        To := stored.To
        Subject := stored.Subject
        Body := body
        Priority := Service.calculatePriority stored
        CreatedAt := stored.CreatedAt }
    let messageBody := Marshal message
    let publishing : Publishing :=
      { ContentType := "application/json"
        Body := messageBody
        DeliveryMode := Persistent
        Priority := toUint8 message.Priority
        Timestamp := now
        MessageId := stored.MessageID
        Expiration := ""
        Headers := none }
    let calls := [Effect.insertMailLog mailLog insertAnswer,
                  Effect.publish s.exchangeName s.routingKey publishing publishAnswer]
    match publishAnswer with
    | some e => (.error e, calls)
    | none => (.ok, calls)

/-- Go `Service.getRetryCount`. -/
def Service.getRetryCount (headers : Option Table) : Int :=
  match headers with
  | none => 0
  | some table =>
    match table.lookup "retry-count" with
    | some (.int32 retryCount) => retryCount
    | _ => 0

/-- The backoff table of `Service.calculateRetryDelay`. -/
def delays : List Duration := [1 * Minute, 5 * Minute, 15 * Minute]

/-- Go `Service.calculateRetryDelay`. The table is indexed whenever the count is below its
length; a negative index is a runtime panic. -/
def Service.calculateRetryDelay (retryCount : Int) : Go Duration :=
  if retryCount < (delays.length : Int) then
    if retryCount < 0 then .panic "index out of range"
    else
      match delays.get? retryCount.toNat with
      | some d => .ret d
      | none => .panic "index out of range"
  else .ret (30 * Minute)

/-- Go `Service.requeueWithDelay`. -/
def Service.requeueWithDelay (s : Service) (message : MailMessage) (delay : Duration)
    (retryCount : Int) (publishAnswer : Option String) (now : Time) : Outcome × List Effect :=
  let messageBody := Marshal message
  let delayQueueName := s.queueName ++ ".delay"
  let publishing : Publishing :=
    { ContentType := "application/json"
      Body := messageBody
      DeliveryMode := Persistent
      Priority := toUint8 message.Priority
      Timestamp := now
      MessageId := message.MailLogID.Hex
      Expiration := toString delay.Milliseconds
      Headers := some [("retry-count", .int32 (toInt32 retryCount))] }
  let calls := [Effect.publish "" delayQueueName publishing publishAnswer]
  match publishAnswer with
  | some e => (.error e, calls)
  | none => (.ok, calls)

/-- What one iteration of the consume loop did: the calls made, and the panic that ended it,
if any. -/
structure Iteration where
  calls : List Effect
  panic : Option String
deriving DecidableEq, Repr

/-- The body of the `for delivery := range messages` loop of Go `Service.ConsumeMessages`.
`handler` gives the handler's outcome and the calls it makes; `publishAnswer` is the broker's
answer to a republish. -/
def Service.consume (s : Service) (handler : MailMessage → Outcome × List Effect)
    (delivery : Delivery) (publishAnswer : Option String) (now : Time) : Iteration :=
  match delivery.Body with
  | none => { calls := [.nack false false], panic := none }
  | some json =>
    match Unmarshal json with
    | .error _ => { calls := [.nack false false], panic := none }
    | .ok message =>
      match handler message with
      | (.ok, done) => { calls := done ++ [.ack false], panic := none }
      | (.panicked m, done) => { calls := done, panic := some m }
      | (.error _, done) =>
        let retryCount := Service.getRetryCount delivery.Headers
        if retryCount < 3 then
          match Service.calculateRetryDelay retryCount with
          | .panic m => { calls := done, panic := some m }
          | .ret delay =>
            let requeued := s.requeueWithDelay message delay (retryCount + 1) publishAnswer now
            { calls := done ++ requeued.2 ++ [.nack false false], panic := none }
        else { calls := done ++ [.nack false false], panic := none }

/-! ## internal/smtp/server.go : Session -/

/-- Go `Session`: the authenticated principal and the envelope of the transaction in progress.
The Go fields `from` and `to` are `sender` and `rcpts` here. -/
structure Session where
  user : Option User
  credential : Option SMTPCredential
  sender : String
  rcpts : List String
deriving DecidableEq, Repr

/-- A session as `Backend.NewSession` creates it. -/
def NewSession : Session := { user := none, credential := none, sender := "", rcpts := [] }

/-- Go `Session.AuthPlain`. `lookup` is the answer of `AuthenticateSMTP`, `userLookup` the
answer of the query for the active owning user. -/
def Session.AuthPlain (s : Session) (lookup : Except String SMTPCredential)
    (userLookup : SMTPCredential → Option User) : Outcome × Session :=
  match lookup with
  | .error e => (.error e, s)
  | .ok credential =>
    match userLookup credential with
    | none => (.error "用户信息获取失败", s)
    | some user => (.ok, { s with user := some user, credential := some credential })

/-- Go `Session.isValidSender`. Reads `s.credential` (a nil dereference when unset) and indexes
the split of the address at position 1. -/
def Session.isValidSender (s : Session) (sender : String) : Go Bool :=
  match s.credential with
  | none => .panic "invalid memory address or nil pointer dereference"
  | some credential =>
    if credential.Settings.AllowedDomains.length > 0 then
      match (Split sender '@').get? 1 with
      | none => .panic "index out of range [1]"
      | some domain => .ret (credential.Settings.AllowedDomains.any (fun allowedDomain => domain == allowedDomain))
    else .ret true

/-- Go `Session.Mail`: the outcome, the session afterwards and the store/broker calls made. -/
def Session.Mail (s : Session) (sender : String) : Outcome × Session × List Effect :=
  if s.user.isNone || s.credential.isNone then
    (.error "认证失败：必须先通过SMTP认证才能发送邮件", s, [])
  else
    match s.isValidSender sender with
    | .panic m => (.panicked m, s, [])
    | .ret false => (.error ("无效的发件人地址: " ++ sender), s, [])
    | .ret true => (.ok, { s with sender := sender }, [])

/-- The effective recipient cap of a credential: the stored value, 100 when it is zero. -/
def maxRecipientsOf (credential : SMTPCredential) : Int :=
  if credential.Settings.MaxRecipients = 0 then 100 else credential.Settings.MaxRecipients

/-- Go `Session.Rcpt`: the outcome, the session afterwards and the store/broker calls made. -/
def Session.Rcpt (s : Session) (rcpt : String) : Outcome × Session × List Effect :=
  if s.user.isNone || s.credential.isNone then
    (.error "认证失败：必须先通过SMTP认证才能添加收件人", s, [])
  else
    match s.credential with
    | none => (.panicked "invalid memory address or nil pointer dereference", s, [])
    | some credential =>
      let maxRecipients := maxRecipientsOf credential
      if (s.rcpts.length : Int) ≥ maxRecipients then
        (.error ("收件人数量超过限制（最多" ++ toString maxRecipients ++ "个）"), s, [])
      else
        (.ok, { s with rcpts := s.rcpts ++ [rcpt] }, [])

/-- Go `Session.Reset`. -/
def Session.Reset (s : Session) : Session := { s with sender := "", rcpts := [] }

/-- A run of `Rcpt` calls on one session: the outcome of each call, in call order, and the
session after the last one. -/
def runRcpt (s : Session) : List String → List Outcome × Session
  | [] => ([], s)
  | r :: rs =>
    let step := s.Rcpt r
    let rest := runRcpt step.2.1 rs
    (step.1 :: rest.1, rest.2)

/-- Go `smtp.Config`, the fields the session reads. -/
structure Config where
  Domain : String
  MaxMsgSize : Int
deriving DecidableEq, Repr

/-- Store `CountDocuments` on `mail_logs` with the filter
`credential_id = id, lo <= created_at < hi`. -/
def CountDocuments (mailLogs : List MailLog) (id : ObjectID) (lo hi : Time) : Int :=
  ((mailLogs.filter (fun m =>
    decide (m.CredentialID = some id) && decide (lo ≤ m.CreatedAt) && decide (m.CreatedAt < hi))).length : Int)

/-- Go `Session.getDailyMailCount` for the session's credential; `failure` is the error of the
store call, if any. -/
def Session.getDailyMailCount (credential : SMTPCredential) (mailLogs : List MailLog)
    (now : Time) (failure : Option String) : Except String Int :=
  let today := now.Truncate (24 * Hour)
  let tomorrow := today + 24 * Hour
  match failure with
  | some e => .error e
  | none => .ok (CountDocuments mailLogs credential.ID today tomorrow)

/-- Go `Session.getHourlyMailCount` for the session's credential. -/
def Session.getHourlyMailCount (credential : SMTPCredential) (mailLogs : List MailLog)
    (now : Time) (failure : Option String) : Except String Int :=
  let thisHour := now.Truncate Hour
  let nextHour := thisHour + Hour
  match failure with
  | some e => .error e
  | none => .ok (CountDocuments mailLogs credential.ID thisHour nextHour)

/-- Go `Session.checkCredentialQuota` for the session's credential, given what the two count
queries answer. A query is made only when its quota is positive, and the hourly one only when
the daily check passed. -/
def Session.checkCredentialQuota (credential : SMTPCredential)
    (dailyCount hourlyCount : Except String Int) : Outcome :=
  let daily : Outcome :=
    if credential.Settings.DailyQuota > 0 then
      match dailyCount with
      | .error e => .error e
      | .ok dailyCount =>
        if dailyCount ≥ credential.Settings.DailyQuota then
          .error ("凭据日配额已用完（" ++ toString dailyCount ++ "/" ++
            toString credential.Settings.DailyQuota ++ "）")
        else .ok
    else .ok
  match daily with
  | .ok =>
    if credential.Settings.HourlyQuota > 0 then
      match hourlyCount with
      | .error e => .error e
      | .ok hourlyCount =>
        if hourlyCount ≥ credential.Settings.HourlyQuota then
          .error ("凭据小时配额已用完（" ++ toString hourlyCount ++ "/" ++
            toString credential.Settings.HourlyQuota ++ "）")
        else .ok
    else .ok
  | e => e

/-- Go `Session.generateMessageID`. -/
def Session.generateMessageID (user : User) (config : Config) (now : Time) : String :=
  toString now.Unix ++ "-" ++ user.ID.Hex ++ "@" ++ config.Domain

/-- Go `Session.extractSubject`. -/
def Session.extractSubject (data : String) : String :=
  match (Split data '\n').find? (fun line => HasPrefix (ToLower line) "subject:") with
  | some line => TrimSpace (String.mk (line.data.drop 8))
  | none => ""

/-- Go `Session.getServerIP`: the local TCP address of the connection, if it is a TCP one. -/
def Session.getServerIP (localIP : Option String) : String := localIP.getD "unknown"

/-- What the environment answers during one `Data` call. -/
structure DataAnswers where
  now : Time
  localIP : Option String
  dailyCountFailure : Option String
  hourlyCountFailure : Option String
  insertAnswer : Except String ObjectID
  publishAnswer : Option String

/-- The record `Session.Data` builds for a payload. -/
def Session.newMailLog (user : User) (credential : SMTPCredential) (s : Session)
    (config : Config) (data : Bytes) (env : DataAnswers) : MailLog :=
  { ID := NilObjectID
    UserID := user.ID
    CredentialID := some credential.ID
    MessageID := Session.generateMessageID user config env.now
    From := s.sender
    To := s.rcpts
    Subject := Session.extractSubject (ofBytes data)
    Size := (data.length : Int)
    Status := "queued"
    Attempts := 0
    LastAttempt := 0
    ErrorMessage := ""
    CreatedAt := env.now
    CompletedAt := none
    RelayIP := Session.getServerIP env.localIP }

/-- Go `Session.Data`. `read` is what `io.ReadAll` returns, `mailLogs` the collection at the
time of the call. The first statement dereferences `s.user` and `s.credential`. -/
def Session.Data (s : Session) (queue : Service) (config : Config) (mailLogs : List MailLog)
    (read : Except String Bytes) (env : DataAnswers) : Outcome × List Effect :=
  match s.user, s.credential with
  | some user, some credential =>
    match read with
    | .error e => (.error e, [])
    | .ok data =>
      if (data.length : Int) > config.MaxMsgSize then (.error "邮件大小超过限制", [])
      else
        match Session.checkCredentialQuota credential
            (Session.getDailyMailCount credential mailLogs env.now env.dailyCountFailure)
            (Session.getHourlyMailCount credential mailLogs env.now env.hourlyCountFailure) with
        | .ok =>
          queue.EnqueueMail (Session.newMailLog user credential s config data env) data
            env.insertAnswer env.publishAnswer env.now
        | e => (e, [])
  | _, _ => (.panicked "invalid memory address or nil pointer dereference", [])

/-! ## internal/worker/processor.go -/

/-- Go `models.SMTPConfig`. -/
structure SMTPConfig where
  Name : String
  Host : String
  Port : Int
  Username : String
  Password : String
  TLS : Bool
  Active : Bool
  Priority : Int
deriving DecidableEq, Repr

/-- Go `Processor.buildMailHeaders`. `date` and `relayTime` are the two renderings of the
clock, `time.Now().Format(time.RFC1123Z)` and `time.Now().Format(time.RFC3339)`. -/
def Processor.buildMailHeaders (message : MailMessage) (date relayTime : String) : String :=
  "From: " ++ message.From ++ "\r\n" ++
  ("To: " ++ Join message.To ", " ++ "\r\n") ++
  ("Subject: " ++ message.Subject ++ "\r\n") ++
  ("Date: " ++ date ++ "\r\n") ++
  "MIME-Version: 1.0\r\n" ++
  "Content-Type: text/plain; charset=utf-8\r\n" ++
  "Content-Transfer-Encoding: 8bit\r\n" ++
  ("Message-ID: <" ++ message.MailLogID.Hex ++ ">\r\n") ++
  "X-Mailer: SMTP-Relay-Service\r\n" ++
  ("X-Relay-Time: " ++ relayTime ++ "\r\n") ++
  "\r\n"

/-- What the upstream relay answers during one `sendMail`: the error of each client call, if
any, whether the relay offers STARTTLS, and the two clock renderings. -/
structure UpstreamAnswers where
  dial : Option String
  offersStartTLS : Bool
  startTLS : Option String
  auth : Option String
  mail : Option String
  rcpt : String → Option String
  data : Option String
  writeHeaders : Option String
  writeBody : Option String
  closeWriter : Option String
  quit : Option String
  date : String
  relayTime : String

/-- The `RCPT` loop of `sendMail`: stops at the first recipient the relay refuses. -/
def Processor.sendRcpts (answer : String → Option String) :
    List String → Option (String × String) × List Effect
  | [] => (none, [])
  | rcpt :: rest =>
    match answer rcpt with
    | some e => (some (rcpt, e), [.smtp (.rcpt rcpt) (some e)])
    | none =>
      let tail := Processor.sendRcpts answer rest
      (tail.1, .smtp (.rcpt rcpt) none :: tail.2)

/-- Go `Processor.connectWithTLS` or `smtp.Dial`, by `config.TLS`. The result is whether a
client was obtained. -/
def Processor.connect (config : SMTPConfig) (addr : String) (up : UpstreamAnswers) :
    Option String × List Effect :=
  match up.dial with
  | some e => (some e, [.smtp (.dial addr) (some e)])
  | none =>
    if config.TLS && up.offersStartTLS then
      match up.startTLS with
      | some e =>
        (some ("启用STARTTLS失败: " ++ e),
          [.smtp (.dial addr) none, .smtp .startTLS (some e), .smtp .closeClient none])
      | none => (none, [.smtp (.dial addr) none, .smtp .startTLS none])
    else (none, [.smtp (.dial addr) none])

/-- Go `Processor.sendMail`: the outcome and the client calls made, in order. The deferred
`client.Close()` is the last call whenever a client was obtained. -/
def Processor.sendMail (config : SMTPConfig) (message : MailMessage) (up : UpstreamAnswers) :
    Outcome × List Effect :=
  let addr := config.Host ++ ":" ++ toString config.Port
  let close : List Effect := [.smtp .closeClient none]
  match Processor.connect config addr up with
  | (some e, calls) => (.error ("连接SMTP服务器失败: " ++ e), calls)
  | (none, calls) =>
    let authed : Option String × List Effect :=
      if config.Username ≠ "" ∧ config.Password ≠ "" then
        (up.auth, [.smtp (.auth config.Username config.Password config.Host) up.auth])
      else (none, [])
    match authed with
    | (some e, authCalls) => (.error ("SMTP认证失败: " ++ e), calls ++ authCalls ++ close)
    | (none, authCalls) =>
      let calls := calls ++ authCalls ++ [.smtp (.mail message.From) up.mail]
      match up.mail with
      | some e => (.error ("设置发件人失败: " ++ e), calls ++ close)
      | none =>
        match Processor.sendRcpts up.rcpt message.To with
        | (some (refused, e), rcptCalls) =>
          (.error ("设置收件人失败 (" ++ refused ++ "): " ++ e), calls ++ rcptCalls ++ close)
        | (none, rcptCalls) =>
          let calls := calls ++ rcptCalls ++ [.smtp .data up.data]
          match up.data with
          | some e => (.error ("开始数据传输失败: " ++ e), calls ++ close)
          | none =>
            let headers := Processor.buildMailHeaders message up.date up.relayTime
            let calls := calls ++ [.smtp (.write (toBytes headers)) up.writeHeaders]
            match up.writeHeaders with
            | some e =>
              (.error ("写入邮件头失败: " ++ e),
                calls ++ [.smtp .closeWriter up.closeWriter] ++ close)
            | none =>
              let calls := calls ++ [.smtp (.write message.Body) up.writeBody]
              match up.writeBody with
              | some e =>
                (.error ("写入邮件体失败: " ++ e),
                  calls ++ [.smtp .closeWriter up.closeWriter] ++ close)
              | none =>
                let calls := calls ++ [.smtp .closeWriter up.closeWriter]
                match up.closeWriter with
                | some e => (.error ("完成数据传输失败: " ++ e), calls ++ close)
                | none => (.ok, calls ++ [.smtp .quit up.quit] ++ close)

/-- The bytes the DATA writer accepted, in order: the concatenation of the answered writes. -/
def written : List Effect → Bytes
  | [] => []
  | .smtp (.write bytes) none :: rest => bytes ++ written rest
  | _ :: rest => written rest


/-! ## internal/worker/processor.go : the handler -/

/-- The literal `temporaryErrors` of Go `Processor.isTemporaryError`. -/
def temporaryErrors : List String :=
  ["connection refused", "connection timeout", "temporary failure", "try again later",
   "service unavailable", "too many connections", "rate limit", "4."]

/-- Go `Processor.isTemporaryError`, on the text `err.Error()`. -/
def Processor.isTemporaryError (errStr : String) : Bool :=
  temporaryErrors.any (fun tempErr => Contains (ToLower errStr) tempErr)

/-- Go `Processor`: the relay pool, in order. The entries are the (non-nil) pointers that
`loadSMTPConfigs` decodes. -/
structure Processor where
  smtpConfigs : List SMTPConfig
deriving DecidableEq, Repr

/-- The `for _, config := range p.smtpConfigs` loop of `selectSMTPServer`. -/
def firstActive : List SMTPConfig → Option SMTPConfig
  | [] => none
  | config :: rest => if config.Active then some config else firstActive rest

/-- Go `Processor.selectSMTPServer`; `none` is the nil pointer. -/
def Processor.selectSMTPServer (p : Processor) : Option SMTPConfig :=
  firstActive p.smtpConfigs

/-- What the environment answers during one `processMessage`. Every `UpdateOne` the handler
makes in one invocation sets a different pair of status and attempts, so the store's answer
and the clock reading of a write are given by that pair; the relay's answers are given by the
number of the send attempt. -/
structure WorkerAnswers where
  update : String → Int → Option String
  lastAttempt : String → Int → Time
  completedAt : Time
  upstream : Int → UpstreamAnswers

/-- Go `Processor.updateMailStatus`: the store's error, if any, and the call made. -/
def Processor.updateMailStatus (env : WorkerAnswers) (mailLogID : ObjectID)
    (status errorMessage : String) (attempts : Int) : Option String × List Effect :=
  let set : MailLogPatch :=
    { status := status
      attempts := attempts
      last_attempt := env.lastAttempt status attempts
      error_message := if errorMessage ≠ "" then some errorMessage else none
      completed_at := none }
  (env.update status attempts, [.updateOne mailLogID set (env.update status attempts)])

/-- Go `Processor.updateMailStatusWithCompletion`. -/
def Processor.updateMailStatusWithCompletion (env : WorkerAnswers) (mailLogID : ObjectID)
    (status errorMessage : String) (attempts : Int) (completedAt : Option Time) :
    Option String × List Effect :=
  let set : MailLogPatch :=
    { status := status
      attempts := attempts
      last_attempt := env.lastAttempt status attempts
      error_message := if errorMessage ≠ "" then some errorMessage else none
      completed_at := completedAt }
  (env.update status attempts, [.updateOne mailLogID set (env.update status attempts)])

/-- The `for attempts < 3` loop of Go `Processor.processMessage` together with the statements
after it, from the test of the loop condition on. `lastError` is `none` for the nil error.
The first argument is fuel: one unit per test of the loop condition, `none` when it runs out.
After a failed send the loop body ends in both branches of the `isTemporaryError` test: the
first sleeps and continues, the second has no statement left, so the condition is tested
again in both. -/
def Processor.sendLoop (env : WorkerAnswers) (smtpConfig : SMTPConfig) (message : MailMessage) :
    Nat → Int → Option String → Option (Outcome × List Effect)
  | 0, _, _ => none
  | fuel + 1, attempts, lastError =>
    if attempts < 3 then
      let attempts := attempts + 1
      let updated := Processor.updateMailStatus env message.MailLogID "sending" "" attempts
      match Processor.sendMail smtpConfig message (env.upstream attempts) with
      | (.error e, sent) =>
        if Processor.isTemporaryError e && decide (attempts < 3) then
          (Processor.sendLoop env smtpConfig message fuel attempts (some e)).map
            (fun r => (r.1, updated.2 ++ sent ++ [.sleep (attempts * 30 * Second)] ++ r.2))
        else
          (Processor.sendLoop env smtpConfig message fuel attempts (some e)).map
            (fun r => (r.1, updated.2 ++ sent ++ r.2))
      | (.panicked m, sent) => some (.panicked m, updated.2 ++ sent)
      | (.ok, sent) =>
        let done := Processor.updateMailStatusWithCompletion env message.MailLogID "sent" ""
          attempts (some env.completedAt)
        some (.ok, updated.2 ++ sent ++ done.2)
    else
      match lastError with
      | none => some (.panicked "invalid memory address or nil pointer dereference", [])
      | some e =>
        let failed := Processor.updateMailStatus env message.MailLogID "failed" e attempts
        some (.error e, failed.2)

/-- Go `Processor.processMessage`: the outcome returned to the queue adapter and the calls
made, in order. The loop is run with fuel 4, which is enough (`sendLoop_fuel`), so the last
case is never taken. -/
def Processor.processMessage (p : Processor) (message : MailMessage) (env : WorkerAnswers) :
    Outcome × List Effect :=
  match Processor.updateMailStatus env message.MailLogID "sending" "" 0 with
  | (some e, calls) => (.error e, calls)
  | (none, calls) =>
    match p.selectSMTPServer with
    | none =>
      let err := "没有可用的SMTP服务器"
      let failed := Processor.updateMailStatus env message.MailLogID "failed" err 0
      (.error err, calls ++ failed.2)
    | some smtpConfig =>
      match Processor.sendLoop env smtpConfig message 4 0 none with
      | some (outcome, more) => (outcome, calls ++ more)
      | none => (.panicked "out of fuel", calls)

/-- The `UpdateOne` calls made, answered or not, in order. -/
def updateCalls : List Effect → List (ObjectID × MailLogPatch)
  | [] => []
  | .updateOne id set _ :: rest => (id, set) :: updateCalls rest
  | _ :: rest => updateCalls rest

/-- The number of `sendMail` calls in a trace of the handler: every `sendMail` begins with
exactly one `smtp.Dial`. -/
def sendAttempts : List Effect → Nat
  | [] => 0
  | .smtp (.dial _) _ :: rest => sendAttempts rest + 1
  | _ :: rest => sendAttempts rest

/-- The number of `Ack` calls in a trace. -/
def ackCalls : List Effect → Nat
  | [] => 0
  | .ack _ :: rest => ackCalls rest + 1
  | _ :: rest => ackCalls rest

/-- A record after the calls of a trace: an answered update to its id patches it. -/
def MailLog.after (r : MailLog) : List Effect → MailLog
  | [] => r
  | .updateOne id set none :: rest =>
    if r.ID = id then (r.patch set).after rest else r.after rest
  | _ :: rest => r.after rest

/-- The write of status `sending` that opens send attempt `k`, followed by the calls of its
`sendMail`. -/
def attemptCalls (env : WorkerAnswers) (config : SMTPConfig) (message : MailMessage) (k : Int) :
    List Effect :=
  (Processor.updateMailStatus env message.MailLogID "sending" "" k).2 ++
    (Processor.sendMail config message (env.upstream k)).2

/-- The sleep of the loop after failed attempt `k` with error text `e`, if any. -/
def pauseAfter (e : String) (k : Int) : List Effect :=
  if Processor.isTemporaryError e && decide (k < 3) then [.sleep (k * 30 * Second)] else []

/-- The priority rule in the words of the specification: `clamp(5 + a + b, 0, 9)` for a
mail-log of byte size `s` with `n` recipients. -/
def clampedPriority (s n : Int) : Int :=
  let a : Int := if s < 1048576 then 1 else if s > 10485760 then -1 else 0
  let b : Int := if n = 1 then 1 else if n > 10 then -1 else 0
  max 0 (min 9 (5 + a + b))

/-! ## The synthesized header block, as the specification words it -/

/-- The ten header lines of the synthesized block, without line ends, in order. -/
def headerLines (sender : String) (rcpts : List String) (subject : String) (id : ObjectID)
    (date relayTime : String) : List String :=
  ["From: " ++ sender,
   "To: " ++ Join rcpts ", ",
   "Subject: " ++ subject,
   "Date: " ++ date,
   "MIME-Version: 1.0",
   "Content-Type: text/plain; charset=utf-8",
   "Content-Transfer-Encoding: 8bit",
   "Message-ID: <" ++ id.Hex ++ ">",
   "X-Mailer: SMTP-Relay-Service",
   "X-Relay-Time: " ++ relayTime]

/-- The synthesized header block: every header line ended by CRLF, then one empty line. -/
def headerBlock (sender : String) (rcpts : List String) (subject : String) (id : ObjectID)
    (date relayTime : String) : String :=
  String.join ((headerLines sender rcpts subject id date relayTime).map (· ++ "\r\n")) ++ "\r\n"

/-! ## Broker redelivery through the delay queue -/

/-- The copy of the message accepted by the delay queue among `calls`, if any. -/
def delayCopy (s : Service) (calls : List Effect) : Option Publishing :=
  ((published calls).find? (fun x => x.1 = "" ∧ x.2.1 = s.queueName ++ ".delay")).map (·.2.2)

/-- Broker redelivery: the delay queue hands each copy it accepted back to the main queue
with the headers, message id and body it was published with. `handler i` is the handler at
the `i`-th delivery, `fuel` bounds the number of deliveries followed, and every republish is
accepted by the broker. -/
def redeliver (s : Service) (handler : Nat → MailMessage → Outcome × List Effect)
    (now : Time) : Nat → Nat → Delivery → List Iteration
  | 0, _, _ => []
  | fuel + 1, i, d =>
    let it := s.consume (handler i) d none now
    it :: match delayCopy s it.calls with
          | some p =>
            redeliver s handler now fuel (i + 1)
              { Headers := p.Headers, MessageId := p.MessageId, Body := some p.Body }
          | none => []

/-- The publishing `requeueWithDelay` makes for a message whose incoming retry count is `n`. -/
def delayPublishing (message : MailMessage) (delay : Duration) (n : Int) (now : Time) :
    Publishing :=
  { ContentType := "application/json"
    Body := Marshal message
    DeliveryMode := Persistent
    Priority := toUint8 message.Priority
    Timestamp := now
    MessageId := message.MailLogID.Hex
    Expiration := toString delay.Milliseconds
    Headers := some [("retry-count", .int32 (n + 1))] }

/-! ## internal/smtp/server.go : a run of session calls -/

/-- A call on a session, with what the environment answers to it. -/
inductive SessionCall where
  | authPlain (lookup : Except String SMTPCredential) (userLookup : SMTPCredential → Option User)
  | mail (sender : String)
  | rcpt (rcpt : String)
  | reset

/-- One call on a session: its outcome and the session afterwards. -/
def Session.call (s : Session) : SessionCall → Outcome × Session
  | .authPlain lookup userLookup => s.AuthPlain lookup userLookup
  | .mail sender => ((s.Mail sender).1, (s.Mail sender).2.1)
  | .rcpt rcpt => ((s.Rcpt rcpt).1, (s.Rcpt rcpt).2.1)
  | .reset => (.ok, s.Reset)

/-- The session after a sequence of calls, in order. -/
def Session.run (s : Session) : List SessionCall → Session
  | [] => s
  | c :: rest => (s.call c).2.run rest

/-- The invariant of a session: user and credential are set together, and an envelope that
is not empty needs both. -/
def Session.Consistent (s : Session) : Prop :=
  (s.user.isSome = true ↔ s.credential.isSome = true) ∧
  ((s.sender ≠ "" ∨ s.rcpts ≠ []) → s.user.isSome = true ∧ s.credential.isSome = true)

/-- The header region of a payload in the words of the specification: the lines before the
first empty line, a line being empty when nothing or a lone carriage return is left of it. -/
def headerRegion (data : String) : List String :=
  (Split data '\n').takeWhile (fun line => decide (line ≠ "" ∧ line ≠ "\r"))

/-! ## internal/auth/service.go : the counter-based quota check -/

/-- Go `models.CredentialQuota`. -/
structure CredentialQuota where
  CredentialID : ObjectID
  Date : Time
  DailyCount : Int
  DailyLimit : Int
  HourlyCount : Int
  HourlyLimit : Int
  LastResetHour : Time
  LastResetDay : Time
  CreatedAt : Time
  UpdatedAt : Time
deriving DecidableEq, Repr

/-- The answer of `FindOne(ctx, filter).Decode(&quota)` on `credential_quotas`. -/
inductive QuotaLookup where
  | found (quota : CredentialQuota)
  | noDocuments
  | failed (e : String)
deriving DecidableEq, Repr

/-- A write of `CheckCredentialQuota` on `credential_quotas`, with the store's answer: the
insert of a new record, or the `$inc` of both counters of the record of a credential and
day. -/
inductive QuotaCall where
  | insertOne (quota : CredentialQuota) (answer : Option String)
  | increment (credentialID : ObjectID) (date lastResetHour : Time) (answer : Option String)
deriving DecidableEq, Repr

/-- What the store answers during one `CheckCredentialQuota`, and the clock. -/
structure QuotaAnswers where
  credential : Except String SMTPCredential
  quota : QuotaLookup
  insert : Option String
  update : Option String
  now : Time

/-- Go `auth.Service.CheckCredentialQuota`: the outcome and the writes made, in order. -/
def Auth.Service.CheckCredentialQuota (credentialID : ObjectID) (env : QuotaAnswers) :
    Outcome × List QuotaCall :=
  match env.credential with
  | .error e => (.error e, [])
  | .ok credential =>
    let today := env.now.Truncate (24 * Hour)
    let looked : Except String CredentialQuota × List QuotaCall :=
      match env.quota with
      | .found quota => (.ok quota, [])
      | .failed e => (.error e, [])
      | .noDocuments =>
        let quota : CredentialQuota :=
          { CredentialID := credentialID
            Date := today
            DailyCount := 0
            DailyLimit := credential.Settings.DailyQuota
            HourlyCount := 0
            HourlyLimit := credential.Settings.HourlyQuota
            LastResetHour := env.now.Truncate Hour
            LastResetDay := today
            CreatedAt := env.now
            UpdatedAt := env.now }
        match env.insert with
        | some e => (.error e, [.insertOne quota (some e)])
        | none => (.ok quota, [.insertOne quota none])
    match looked with
    | (.error e, calls) => (.error e, calls)
    | (.ok quota, calls) =>
      let currentHour := env.now.Truncate Hour
      let quota :=
        if quota.LastResetHour < currentHour then
          { quota with HourlyCount := 0, LastResetHour := currentHour }
        else quota
      if quota.HourlyCount ≥ quota.HourlyLimit then (.error "小时发送配额已用完", calls)
      else if quota.DailyCount ≥ quota.DailyLimit then (.error "日发送配额已用完", calls)
      else
        let calls := calls ++ [.increment credentialID today quota.LastResetHour env.update]
        match env.update with
        | some e => (.error e, calls)
        | none => (.ok, calls)

/-- The quota record of a credential for the day and hour of `now`, holding the usage counts
`dailyCount` and `hourlyCount`, with the limits copied from the credential. -/
def quotaRecord (credential : SMTPCredential) (dailyCount hourlyCount : Int) (now : Time) :
    CredentialQuota :=
  { CredentialID := credential.ID
    Date := now.Truncate (24 * Hour)
    DailyCount := dailyCount
    DailyLimit := credential.Settings.DailyQuota
    HourlyCount := hourlyCount
    HourlyLimit := credential.Settings.HourlyQuota
    LastResetHour := now.Truncate Hour
    LastResetDay := now.Truncate (24 * Hour)
    CreatedAt := now
    UpdatedAt := now }

/-- The counter-based check of a credential against the record `quotaRecord`, the store
answering every call. -/
def counterCheck (credential : SMTPCredential) (dailyCount hourlyCount : Int) (now : Time) :
    Outcome × List QuotaCall :=
  Auth.Service.CheckCredentialQuota credential.ID
    { credential := .ok credential
      quota := .found (quotaRecord credential dailyCount hourlyCount now)
      insert := none
      update := none
      now := now }

/-! ## Sample values -/

/-- A credential with daily cap 1, hourly cap 5, allowed domain `ex.com`, recipient cap 2. -/
def exampleCredential : SMTPCredential :=
  { ID := ⟨"65f000000000000000000001"⟩, UserID := ⟨"65f000000000000000000002"⟩,
    Name := "mailcow-server1", Username := "u", Status := "active",
    Settings := { DailyQuota := 1, HourlyQuota := 5, AllowedDomains := ["ex.com"],
                  MaxRecipients := 2 } }

def exampleUser : User :=
  { ID := ⟨"65f000000000000000000002"⟩, Username := "u", Email := "u@ex.com",
    Status := "active" }

/-- A credential whose stored `max_recipients` is 0. -/
def defaultCapCredential : SMTPCredential :=
  { exampleCredential with
    Settings := { DailyQuota := 1, HourlyQuota := 5, AllowedDomains := ["ex.com"],
                  MaxRecipients := 0 } }

/-- A session authenticated with `defaultCapCredential`, with an empty envelope. -/
def defaultCapSession : Session :=
  { user := some exampleUser, credential := some defaultCapCredential, sender := "",
    rcpts := [] }

/-- A session authenticated with `exampleCredential`, with an empty envelope. -/
def exampleSession : Session :=
  { user := some exampleUser, credential := some exampleCredential, sender := "", rcpts := [] }

/-- The session after `MAIL FROM:<a@ex.com>` and two accepted `RCPT TO`. -/
def exampleEnvelope : Session :=
  { exampleSession with sender := "a@ex.com", rcpts := ["b@x", "c@x"] }

def exampleQueue : Service :=
  { exchangeName := "smtp-relay", queueName := "mail", routingKey := "mail" }

def exampleConfig : Config := { Domain := "relay.test", MaxMsgSize := 26214400 }

/-- The payload `Subject: hi CRLF CRLF body CRLF`. -/
def examplePayload : Bytes := toBytes "Subject: hi\r\n\r\nbody\r\n"

/-- The payload `Subject: caf` + byte 233 + `CRLF CRLF body CRLF`: a subject in Latin-1. -/
def eightBitPayload : Bytes :=
  toBytes (String.mk ("Subject: caf".data ++ [Char.ofNat 233] ++ "\r\n\r\nbody\r\n".data))

/-- A store that assigns an id and a broker that refuses the publish. -/
def exampleAnswers : DataAnswers :=
  { now := 63840000000000000000, localIP := some "10.0.0.1", dailyCountFailure := none,
    hourlyCountFailure := none, insertAnswer := .ok ⟨"65f0000000000000000000aa"⟩,
    publishAnswer := some "channel closed" }

def exampleMessage : MailMessage :=
  { MailLogID := ⟨"65f0000000000000000000aa"⟩, From := "a@ex.com", To := ["b@x", "c@x"],
    Subject := "hi", Body := examplePayload, Priority := 6, CreatedAt := 0 }

/-- A delivery of `exampleMessage` that already went through the delay queue once. -/
def exampleDelivery : Delivery :=
  { Headers := some [("retry-count", .int32 1)], MessageId := "65f0000000000000000000aa",
    Body := some (Marshal exampleMessage) }

/-- The first delivery of `exampleMessage`, without headers. -/
def exampleFirstDelivery : Delivery :=
  { Headers := none, MessageId := "1700000000-65f000000000000000000002@relay.test",
    Body := some (Marshal exampleMessage) }

/-- A handler that fails every time and touches neither store nor broker. -/
def exampleHandler : MailMessage → Outcome × List Effect :=
  fun _ => (.error "421 try again later", [])

/-- A relay that answers every call without error. -/
def exampleUpstream : UpstreamAnswers :=
  { dial := none, offersStartTLS := true, startTLS := none, auth := none, mail := none,
    rcpt := fun _ => none, data := none, writeHeaders := none, writeBody := none,
    closeWriter := none, quit := none,
    date := "Mon, 02 Jan 2006 15:04:05 +0000", relayTime := "2006-01-02T15:04:05Z" }

def exampleRelay : SMTPConfig :=
  { Name := "relay", Host := "smtp.upstream.test", Port := 587, Username := "relay",
    Password := "secret", TLS := true, Active := true, Priority := 1 }

/-- A worker whose pool holds the one active relay `exampleRelay`. -/
def exampleWorker : Processor := { smtpConfigs := [exampleRelay] }

/-- A store and a relay that answer every call without error. -/
def exampleWorkerAnswers : WorkerAnswers :=
  { update := fun _ _ => none, lastAttempt := fun _ k => 1000 + k, completedAt := 2000,
    upstream := fun _ => exampleUpstream }

/-- A relay that refuses every recipient with a permanent reply. -/
def refusingUpstream : UpstreamAnswers :=
  { exampleUpstream with rcpt := fun _ => some "550 mailbox not found" }

/-- The store answers; the relay refuses every recipient at every attempt. -/
def refusingAnswers : WorkerAnswers :=
  { exampleWorkerAnswers with upstream := fun _ => refusingUpstream }

/-- The store refuses the first write of the handler. -/
def storeDownAnswers : WorkerAnswers :=
  { exampleWorkerAnswers with
    update := fun status attempts =>
      if status = "sending" ∧ attempts = 0 then some "store down" else none }

/-- The relay accepts the mail; the store refuses the write of status `sent`. -/
def sentWriteRefused : WorkerAnswers :=
  { exampleWorkerAnswers with
    update := fun status _ => if status = "sent" then some "store down" else none }

/-- The relay is unreachable at the first attempt and accepts the mail afterwards. -/
def secondAttemptAnswers : WorkerAnswers :=
  { exampleWorkerAnswers with
    upstream := fun attempt =>
      if attempt = 1 then { exampleUpstream with dial := some "connection refused" }
      else exampleUpstream }

/-- The mail-log of `exampleMessage` as ingress inserted it. -/
def queuedRecord : MailLog :=
  { Session.newMailLog exampleUser exampleCredential exampleEnvelope exampleConfig
      examplePayload exampleAnswers with ID := exampleMessage.MailLogID }

/-- The same mail-log after an invocation whose three attempts failed. -/
def failedRecord : MailLog :=
  { queuedRecord with Status := "failed", Attempts := 3, LastAttempt := 900,
                      ErrorMessage := "连接SMTP服务器失败: connection refused" }

/-- The same mail-log after an invocation whose first attempt succeeded. -/
def sentRecord : MailLog :=
  { queuedRecord with Status := "sent", Attempts := 1, LastAttempt := 900,
                      CompletedAt := some 900 }

/-- A payload whose header region has no subject line and whose body has one. -/
def bodySubjectPayload : String := "From: a@ex.com\r\n\r\nSubject: not a header\r\n"

/-- The payload `Subject:` + U+00A0 + `hi` + U+3000 + `CRLF CRLF body CRLF`, in UTF-8: the
subject stands between a no-break space and an ideographic space. -/
def paddedSubjectPayload : String :=
  String.mk ("Subject:".data ++ [Char.ofNat 194, Char.ofNat 160] ++ "hi".data ++
    [Char.ofNat 227, Char.ofNat 128, Char.ofNat 128] ++ "\r\n\r\nbody\r\n".data)

/-- A delivery whose body is the JSON of `exampleMessage` without the `mail_log_id` key. -/
def poisonDelivery : Delivery :=
  { Headers := none, MessageId := "",
    Body := some { Marshal exampleMessage with mail_log_id := .absent } }

/-- A delivery of `exampleMessage` whose `retry-count` header is the int32 value -1. -/
def negativeRetryDelivery : Delivery :=
  { Headers := some [("retry-count", .int32 (-1))], MessageId := "65f0000000000000000000aa",
    Body := some (Marshal exampleMessage) }

/-- A credential whose daily and hourly caps are 0. -/
def zeroCapCredential : SMTPCredential :=
  { exampleCredential with
    Settings := { DailyQuota := 0, HourlyQuota := 0, AllowedDomains := [],
                  MaxRecipients := 0 } }

/-! # Theorems -/

/-! ## Lemmas on `strings.Split` -/

theorem splitChars_of_not_mem (sep : Char) (l : List Char) (h : sep ∉ l) :
    splitChars sep l = [l] := by
  induction l with
  | nil => rfl
  | cons c cs ih =>
    have hc : c ≠ sep := fun e => h (by simp [e])
    have hcs : sep ∉ cs := fun e => h (by simp [e])
    simp [splitChars, hc, ih hcs]

theorem splitChars_append_sep (sep : Char) (x rest : List Char) (h : sep ∉ x) :
    splitChars sep (x ++ sep :: rest) = x :: splitChars sep rest := by
  induction x with
  | nil => simp [splitChars]
  | cons c cs ih =>
    have hc : c ≠ sep := fun e => h (by simp [e])
    have hcs : sep ∉ cs := fun e => h (by simp [e])
    simp [splitChars, hc, ih hcs]

theorem Split_address (x d : String) (hx : '@' ∉ x.data) (hd : '@' ∉ d.data) :
    Split (x ++ "@" ++ d) '@' = [x, d] := by
  have : (x ++ "@" ++ d).data = x.data ++ '@' :: d.data := by
    simp [String.data_append]
  simp [Split, this, splitChars_append_sep _ _ _ hx, splitChars_of_not_mem _ _ hd]

/-! ## Ingress: authentication gate, sender policy, recipient cap -/

/-- Claim C1. On a session whose user or credential is unset (in particular one on which no
`AuthPlain` has succeeded, where both are unset), `Mail` and `Rcpt` return an error for every
sender and recipient, leave the session (so its envelope) as it was, and make no call to the
store or to the broker: no mail-log insertion, no publish. -/
theorem mail_rcpt_refused_before_auth (s : Session) (h : s.user = none ∨ s.credential = none)
    (sender rcpt : String) :
    (∃ msg, (s.Mail sender).1 = .error msg) ∧ (s.Mail sender).2.1 = s ∧
      (s.Mail sender).2.2 = [] ∧
    (∃ msg, (s.Rcpt rcpt).1 = .error msg) ∧ (s.Rcpt rcpt).2.1 = s ∧
      (s.Rcpt rcpt).2.2 = [] := by
  have hb : (s.user.isNone || s.credential.isNone) = true := by
    rcases h with h | h <;> simp [h]
  simp [Session.Mail, Session.Rcpt, hb]

theorem mail_rcpt_refused_before_auth_witness :
    (NewSession.user = none ∨ NewSession.credential = none) ∧
    (∃ msg, (NewSession.Mail "a@ex.com").1 = .error msg) ∧
      (NewSession.Mail "a@ex.com").2.1 = NewSession ∧ (NewSession.Mail "a@ex.com").2.2 = [] ∧
    (∃ msg, (NewSession.Rcpt "b@x").1 = .error msg) ∧ (NewSession.Rcpt "b@x").2.1 = NewSession ∧
      (NewSession.Rcpt "b@x").2.2 = [] :=
  ⟨Or.inl rfl, mail_rcpt_refused_before_auth NewSession (Or.inl rfl) "a@ex.com" "b@x"⟩

/-- Claim C2, as stated, fails: with allowed domains `[ex.com]` the lowercased domain of
`a@EX.COM` is in the list, yet `Mail` refuses the sender and leaves the envelope sender
unset. -/
theorem mail_uppercase_domain_refused :
    ToLower "EX.COM" ∈ exampleCredential.Settings.AllowedDomains ∧
      (exampleSession.Mail "a@EX.COM").1 = .error "无效的发件人地址: a@EX.COM" ∧
      (exampleSession.Mail "a@EX.COM").2.1.sender = "" := by
  decide

/-- Claim C2, amended. For an authenticated session and a sender `x@d` with no `@` inside
`x` or `d`: with an empty allowed-domain list `Mail` accepts; with a non-empty list `Mail`
accepts if and only if `d` itself, compared byte for byte without case folding, is in the
list. An accepted sender becomes the envelope sender, a refused one leaves the session as it
was. -/
theorem mail_accepts_iff_domain_listed (s : Session) (u : User) (c : SMTPCredential)
    (x d : String) (hu : s.user = some u) (hc : s.credential = some c)
    (hx : '@' ∉ x.data) (hd : '@' ∉ d.data) :
    (c.Settings.AllowedDomains = [] → (s.Mail (x ++ "@" ++ d)).1 = .ok) ∧
    (c.Settings.AllowedDomains ≠ [] →
      ((s.Mail (x ++ "@" ++ d)).1 = .ok ↔ d ∈ c.Settings.AllowedDomains)) ∧
    ((s.Mail (x ++ "@" ++ d)).1 = .ok →
      (s.Mail (x ++ "@" ++ d)).2.1 = { s with sender := x ++ "@" ++ d }) ∧
    ((s.Mail (x ++ "@" ++ d)).1 ≠ .ok → (s.Mail (x ++ "@" ++ d)).2.1 = s) := by
  have hsplit := Split_address x d hx hd
  by_cases hD : c.Settings.AllowedDomains = []
  · simp [Session.Mail, Session.isValidSender, hu, hc, hD]
  · have hpos : c.Settings.AllowedDomains.length > 0 := List.length_pos.mpr hD
    by_cases hmem : d ∈ c.Settings.AllowedDomains
    · have hany : (c.Settings.AllowedDomains.any
          (fun allowedDomain => d == allowedDomain)) = true := by
        simp [List.any_eq_true]; exact hmem
      simp [Session.Mail, Session.isValidSender, hu, hc, hD, hpos, hsplit, hany, hmem]
    · have hany : (c.Settings.AllowedDomains.any
          (fun allowedDomain => d == allowedDomain)) = false := by
        rw [Bool.eq_false_iff]; simp [List.any_eq_true]; exact hmem
      simp [Session.Mail, Session.isValidSender, hu, hc, hD, hpos, hsplit, hany, hmem]

theorem mail_accepts_iff_domain_listed_witness :
    ('@' ∉ "a".data ∧ '@' ∉ "ex.com".data ∧ '@' ∉ "EX.COM".data) ∧
    ((exampleSession.Mail ("a" ++ "@" ++ "ex.com")).1 = .ok ↔
      "ex.com" ∈ exampleCredential.Settings.AllowedDomains) ∧
    ((exampleSession.Mail ("a" ++ "@" ++ "EX.COM")).1 = .ok ↔
      "EX.COM" ∈ exampleCredential.Settings.AllowedDomains) :=
  ⟨by decide,
   (mail_accepts_iff_domain_listed exampleSession exampleUser exampleCredential "a" "ex.com"
      rfl rfl (by decide) (by decide)).2.1 (by decide),
   (mail_accepts_iff_domain_listed exampleSession exampleUser exampleCredential "a" "EX.COM"
      rfl rfl (by decide) (by decide)).2.1 (by decide)⟩

theorem Rcpt_authenticated (s : Session) (u : User) (c : SMTPCredential) (r : String)
    (hu : s.user = some u) (hc : s.credential = some c) :
    s.Rcpt r =
      if (s.rcpts.length : Int) ≥ maxRecipientsOf c then
        (.error ("收件人数量超过限制（最多" ++ toString (maxRecipientsOf c) ++ "个）"), s, [])
      else (.ok, { s with rcpts := s.rcpts ++ [r] }, []) := by
  simp [Session.Rcpt, hu, hc]

/-- The recipient cap from any envelope: the call at position `k` of a run is accepted iff
the list it finds, of length `s.rcpts.length + k` at most, is still below the cap. -/
theorem runRcpt_spec (u : User) (c : SMTPCredential) (rs : List String) :
    ∀ (s : Session), s.user = some u → s.credential = some c →
      (runRcpt s rs).1.length = rs.length ∧
      (∀ (k : Nat) (o : Outcome), (runRcpt s rs).1[k]? = some o →
        (o = .ok ↔ ((s.rcpts.length + k : Nat) : Int) + 1 ≤ maxRecipientsOf c)) ∧
      (runRcpt s rs).2.rcpts = s.rcpts ++ rs.take ((maxRecipientsOf c).toNat - s.rcpts.length) ∧
      (runRcpt s rs).2.user = some u ∧ (runRcpt s rs).2.credential = some c := by
  induction rs with
  | nil => intro s hu hc; simp [runRcpt, hu, hc]
  | cons r rs ih =>
    intro s hu hc
    by_cases hfull : (s.rcpts.length : Int) ≥ maxRecipientsOf c
    · have hstep : s.Rcpt r =
          (.error ("收件人数量超过限制（最多" ++ toString (maxRecipientsOf c) ++ "个）"), s, []) := by
        rw [Rcpt_authenticated s u c r hu hc, if_pos hfull]
      obtain ⟨h1, h2, h3, h4, h5⟩ := ih s hu hc
      have hz : (maxRecipientsOf c).toNat - s.rcpts.length = 0 := by omega
      refine ⟨by simp [runRcpt, hstep, h1], ?_, ?_, by simp [runRcpt, hstep, h4],
        by simp [runRcpt, hstep, h5]⟩
      · intro k o hk
        cases k with
        | zero =>
          simp [runRcpt, hstep] at hk
          subst hk
          simp; omega
        | succ k =>
          simp [runRcpt, hstep] at hk
          have := h2 k o hk
          rw [this]
          constructor <;> intro h <;> push_cast at h ⊢ <;> omega
      · simp [runRcpt, hstep, h3, hz]
    · have hstep : s.Rcpt r = (.ok, { s with rcpts := s.rcpts ++ [r] }, []) := by
        rw [Rcpt_authenticated s u c r hu hc, if_neg hfull]
      obtain ⟨h1, h2, h3, h4, h5⟩ :=
        ih { s with rcpts := s.rcpts ++ [r] } (by simpa using hu) (by simpa using hc)
      have hs : (maxRecipientsOf c).toNat - s.rcpts.length =
          ((maxRecipientsOf c).toNat - (s.rcpts.length + 1)) + 1 := by omega
      refine ⟨by simp [runRcpt, hstep, h1], ?_, ?_, by simp [runRcpt, hstep, h4],
        by simp [runRcpt, hstep, h5]⟩
      · intro k o hk
        cases k with
        | zero =>
          simp [runRcpt, hstep] at hk
          subst hk
          simp; omega
        | succ k =>
          simp [runRcpt, hstep] at hk
          have := h2 k o hk
          rw [this]
          simp only [List.length_append, List.length_singleton]
          constructor <;> intro h <;> push_cast at h ⊢ <;> omega
      · simp only [runRcpt, hstep, h3]
        rw [hs]
        simp [List.take_succ_cons]

/-- Claim C3. In an authenticated session with an empty recipient list, let `N` be the
credential's stored `max_recipients`, taken as 100 when the stored value is 0. For every
sequence `rs` of `Rcpt` calls: each call has an outcome; the call at 0-based position `k`
(the `k+1`-th call) is accepted iff `k + 1 ≤ N`; the envelope afterwards holds the first `N`
recipients in call order (none when the stored cap is negative), so its length is at most `N`
whenever `N ≥ 0`; an accepted call appends its recipient and a refused call leaves the
session as it was. With the stored value 0 the first 100 calls are the accepted ones. -/
theorem rcpt_accepted_iff_within_cap (s : Session) (u : User) (c : SMTPCredential)
    (rs : List String) (N : Int)
    (hu : s.user = some u) (hc : s.credential = some c) (hempty : s.rcpts = [])
    (hN : N = if c.Settings.MaxRecipients = 0 then 100 else c.Settings.MaxRecipients) :
    (runRcpt s rs).1.length = rs.length ∧
    (∀ (k : Nat) (o : Outcome), (runRcpt s rs).1[k]? = some o →
      (o = .ok ↔ (k : Int) + 1 ≤ N)) ∧
    (runRcpt s rs).2.rcpts = rs.take N.toNat ∧
    (0 ≤ N → ((runRcpt s rs).2.rcpts.length : Int) ≤ N) ∧
    (c.Settings.MaxRecipients = 0 →
      (runRcpt s rs).2.rcpts = rs.take 100 ∧
      ∀ (k : Nat) (o : Outcome), (runRcpt s rs).1[k]? = some o → (o = .ok ↔ k < 100)) ∧
    (∀ (t : Session) (r : String), t.user = some u → t.credential = some c →
      ((t.Rcpt r).1 = .ok → (t.Rcpt r).2.1.rcpts = t.rcpts ++ [r]) ∧
      ((t.Rcpt r).1 ≠ .ok → (t.Rcpt r).2.1 = t)) := by
  have hmax : maxRecipientsOf c = N := by
    rw [hN]
    rfl
  obtain ⟨h1, h2, h3, -, -⟩ := runRcpt_spec u c rs s hu hc
  rw [hmax] at h2 h3
  have h2e : ∀ (k : Nat) (o : Outcome), (runRcpt s rs).1[k]? = some o →
      (o = .ok ↔ (k : Int) + 1 ≤ N) := by
    intro k o hk
    have := h2 k o hk
    simpa [hempty] using this
  have h3e : (runRcpt s rs).2.rcpts = rs.take N.toNat := by
    simpa [hempty] using h3
  refine ⟨h1, h2e, h3e, ?_, ?_, ?_⟩
  · intro hN0
    rw [h3e, List.length_take]
    omega
  · intro h0
    have hN100 : N = 100 := by rw [hN, if_pos h0]
    refine ⟨by rw [h3e, hN100]; rfl, ?_⟩
    intro k o hk
    rw [h2e k o hk, hN100]
    omega
  · intro t r htu htc
    rw [Rcpt_authenticated t u c r htu htc]
    split_ifs <;> simp

theorem rcpt_accepted_iff_within_cap_witness :
    (defaultCapSession.user = some exampleUser ∧
      defaultCapSession.credential = some defaultCapCredential ∧
      defaultCapSession.rcpts = [] ∧
      (100 : Int) = if defaultCapCredential.Settings.MaxRecipients = 0 then 100
        else defaultCapCredential.Settings.MaxRecipients) ∧
    defaultCapCredential.Settings.MaxRecipients = 0 ∧
    (runRcpt defaultCapSession (List.replicate 101 "r@x")).2.rcpts =
      (List.replicate 101 "r@x").take 100 ∧
    (∀ (k : Nat) (o : Outcome),
      (runRcpt defaultCapSession (List.replicate 101 "r@x")).1[k]? = some o →
      (o = .ok ↔ k < 100)) :=
  ⟨⟨rfl, rfl, rfl, by decide⟩, rfl,
   (rcpt_accepted_iff_within_cap defaultCapSession exampleUser defaultCapCredential
      (List.replicate 101 "r@x") 100 rfl rfl rfl (by decide)).2.2.2.2.1 rfl⟩

/-! ## Ingress: quota and hand-off to the queue -/

theorem CountDocuments_pos (mailLogs : List MailLog) (id : ObjectID) (lo hi : Time)
    (m : MailLog) (hm : m ∈ mailLogs) (hid : m.CredentialID = some id) (hlo : lo ≤ m.CreatedAt)
    (hhi : m.CreatedAt < hi) : 1 ≤ CountDocuments mailLogs id lo hi := by
  unfold CountDocuments
  have : 0 < (mailLogs.filter (fun m =>
      decide (m.CredentialID = some id) && decide (lo ≤ m.CreatedAt) &&
        decide (m.CreatedAt < hi))).length := by
    apply List.length_pos_of_mem (a := m)
    simp [List.mem_filter, hm, hid, hlo, hhi]
  omega

/-- The count-based check on two counts it was answered: it rejects exactly when one more
message would exceed a cap. -/
theorem checkCredentialQuota_counts (c : SMTPCredential) (cd ch : Int)
    (hd : c.Settings.DailyQuota > 0) (hh : c.Settings.HourlyQuota > 0) :
    ((∃ msg, Session.checkCredentialQuota c (.ok cd) (.ok ch) = .error msg) ↔
      (cd + 1 > c.Settings.DailyQuota ∨ ch + 1 > c.Settings.HourlyQuota)) ∧
    (Session.checkCredentialQuota c (.ok cd) (.ok ch) = .ok ↔
      ¬ (cd + 1 > c.Settings.DailyQuota ∨ ch + 1 > c.Settings.HourlyQuota)) := by
  refine ⟨?_, ?_⟩
  · by_cases h1 : cd ≥ c.Settings.DailyQuota
    · simp [Session.checkCredentialQuota, hd, hh, h1]
      left; omega
    · by_cases h2 : ch ≥ c.Settings.HourlyQuota
      · simp [Session.checkCredentialQuota, hd, hh, h1, h2]
        right; omega
      · simp [Session.checkCredentialQuota, hd, hh, h1, h2]
        omega
  · by_cases h1 : cd ≥ c.Settings.DailyQuota
    · simp [Session.checkCredentialQuota, hd, hh, h1]
      intro; omega
    · by_cases h2 : ch ≥ c.Settings.HourlyQuota
      · simp [Session.checkCredentialQuota, hd, hh, h1, h2]
        intro; omega
      · simp [Session.checkCredentialQuota, hd, hh, h1, h2]
        omega

/-- Claim C4. For a credential with daily cap `d > 0` and hourly cap `h > 0`, a collection of
mail-logs and a clock `now`, let `cd` be the number of the credential's mail-logs created in
the current day, from `now.Truncate(24h)` up to 24 hours later, and `ch` the number created in
the current hour, from `now.Truncate(1h)` up to one hour later. These are the counts the two
queries answer, and `checkCredentialQuota` on them returns an error if and only if
`cd + 1 > d` or `ch + 1 > h`, and returns nil otherwise. Accordingly an authenticated `Data`
with a payload within the size limit is refused with no store or broker call exactly in that
case; with daily cap 1 and a mail-log of the credential created in the current day, `Data` is
refused. -/
theorem quota_rejects_iff_next_exceeds (c : SMTPCredential) (mailLogs : List MailLog)
    (now : Time) (cd ch : Int)
    (hd : c.Settings.DailyQuota > 0) (hh : c.Settings.HourlyQuota > 0)
    (hcd : cd = ((mailLogs.filter (fun m =>
      decide (m.CredentialID = some c.ID) && decide (now.Truncate (24 * Hour) ≤ m.CreatedAt) &&
        decide (m.CreatedAt < now.Truncate (24 * Hour) + 24 * Hour))).length : Int))
    (hch : ch = ((mailLogs.filter (fun m =>
      decide (m.CredentialID = some c.ID) && decide (now.Truncate Hour ≤ m.CreatedAt) &&
        decide (m.CreatedAt < now.Truncate Hour + Hour))).length : Int)) :
    Session.getDailyMailCount c mailLogs now none = .ok cd ∧
    Session.getHourlyMailCount c mailLogs now none = .ok ch ∧
    ((∃ msg, Session.checkCredentialQuota c (Session.getDailyMailCount c mailLogs now none)
        (Session.getHourlyMailCount c mailLogs now none) = .error msg) ↔
      (cd + 1 > c.Settings.DailyQuota ∨ ch + 1 > c.Settings.HourlyQuota)) ∧
    (Session.checkCredentialQuota c (Session.getDailyMailCount c mailLogs now none)
        (Session.getHourlyMailCount c mailLogs now none) = .ok ↔
      ¬ (cd + 1 > c.Settings.DailyQuota ∨ ch + 1 > c.Settings.HourlyQuota)) ∧
    (∀ (s : Session) (u : User) (queue : Service) (config : Config) (data : Bytes)
        (env : DataAnswers),
      s.user = some u → s.credential = some c → env.now = now →
      env.dailyCountFailure = none → env.hourlyCountFailure = none →
      (data.length : Int) ≤ config.MaxMsgSize →
      ((∃ msg, s.Data queue config mailLogs (.ok data) env = (.error msg, [])) ↔
        (cd + 1 > c.Settings.DailyQuota ∨ ch + 1 > c.Settings.HourlyQuota))) ∧
    (c.Settings.DailyQuota = 1 →
      (∃ m ∈ mailLogs, m.CredentialID = some c.ID ∧ now.Truncate (24 * Hour) ≤ m.CreatedAt ∧
        m.CreatedAt < now.Truncate (24 * Hour) + 24 * Hour) →
      cd + 1 > c.Settings.DailyQuota) := by
  have hdaily : Session.getDailyMailCount c mailLogs now none = .ok cd := by
    rw [hcd]
    rfl
  have hhourly : Session.getHourlyMailCount c mailLogs now none = .ok ch := by
    rw [hch]
    rfl
  have hcounts := checkCredentialQuota_counts c cd ch hd hh
  refine ⟨hdaily, hhourly, ?_, ?_, ?_, ?_⟩
  · rw [hdaily, hhourly]
    exact hcounts.1
  · rw [hdaily, hhourly]
    exact hcounts.2
  · intro s u queue config data env hu hc hnow hdf hhf hsize
    have hsz : ¬ ((data.length : Int) > config.MaxMsgSize) := by omega
    rw [← hcounts.1]
    have hD : s.Data queue config mailLogs (.ok data) env =
        match Session.checkCredentialQuota c (.ok cd) (.ok ch) with
        | .ok =>
          queue.EnqueueMail (Session.newMailLog u c s config data env) data
            env.insertAnswer env.publishAnswer env.now
        | e => (e, []) := by
      simp only [Session.Data, hu, hc, hsz, if_false, hnow, hdf, hhf, hdaily, hhourly]
    rw [hD]
    cases hq : Session.checkCredentialQuota c (.ok cd) (.ok ch) with
    | ok =>
      simp only [reduceCtorEq, exists_false, iff_false, not_exists]
      intro msg hEq
      have h2 := congrArg Prod.snd hEq
      unfold Service.EnqueueMail at h2
      cases hins : env.insertAnswer with
      | error e => simp [hins] at h2
      | ok id =>
        cases hpub : env.publishAnswer <;> simp [hins, hpub] at h2
    | error msg =>
      simp
    | panicked msg =>
      simp
  · intro hq ⟨m, hm, hid, hlo, hhi⟩
    have hcount := CountDocuments_pos mailLogs c.ID _ _ m hm hid hlo hhi
    have hcdc : cd = CountDocuments mailLogs c.ID (now.Truncate (24 * Hour))
        (now.Truncate (24 * Hour) + 24 * Hour) := by
      rw [hcd]
      rfl
    omega

theorem quota_rejects_iff_next_exceeds_witness :
    (exampleCredential.Settings.DailyQuota > 0 ∧ exampleCredential.Settings.HourlyQuota > 0 ∧
      (1 : Int) = (([queuedRecord].filter (fun m =>
        decide (m.CredentialID = some exampleCredential.ID) &&
          decide (exampleAnswers.now.Truncate (24 * Hour) ≤ m.CreatedAt) &&
          decide (m.CreatedAt < exampleAnswers.now.Truncate (24 * Hour) + 24 * Hour))).length :
            Int) ∧
      (1 : Int) = (([queuedRecord].filter (fun m =>
        decide (m.CredentialID = some exampleCredential.ID) &&
          decide (exampleAnswers.now.Truncate Hour ≤ m.CreatedAt) &&
          decide (m.CreatedAt < exampleAnswers.now.Truncate Hour + Hour))).length : Int)) ∧
    (exampleEnvelope.user = some exampleUser ∧
      exampleEnvelope.credential = some exampleCredential ∧
      (examplePayload.length : Int) ≤ exampleConfig.MaxMsgSize ∧
      exampleCredential.Settings.DailyQuota = 1) ∧
    ∃ msg, exampleEnvelope.Data exampleQueue exampleConfig [queuedRecord] (.ok examplePayload)
      exampleAnswers = (.error msg, []) :=
  ⟨⟨by decide, by decide, by decide, by decide⟩, ⟨rfl, rfl, by decide, rfl⟩,
   ((quota_rejects_iff_next_exceeds exampleCredential [queuedRecord] exampleAnswers.now 1 1
      (by decide) (by decide) (by decide) (by decide)).2.2.2.2.1 exampleEnvelope exampleUser
      exampleQueue exampleConfig examplePayload exampleAnswers rfl rfl rfl rfl rfl
      (by decide)).mpr (Or.inl (by decide))⟩

/-- Claim C5. For an authenticated session and a payload that passes the size and quota
checks, `Data` makes exactly one `InsertOne` call, for a record with status `queued`,
attempts 0, size the payload's byte length, the envelope sender and recipients and no
completion time. When the store answers the insert, the calls are that insert followed by one
publish, and the collection afterwards is the old one plus that record under its new id,
whatever the broker answers: if the publish succeeds `Data` returns nil, if it fails `Data`
returns the broker's error, nothing was published and the record is still there unchanged.
When the insert fails, `Data` returns the store's error, makes no publish call and the
collection is unchanged. -/
theorem data_inserts_then_publishes (s : Session) (u : User) (c : SMTPCredential)
    (queue : Service) (config : Config) (mailLogs : List MailLog) (data : Bytes)
    (env : DataAnswers) (hu : s.user = some u) (hc : s.credential = some c)
    (hsize : (data.length : Int) ≤ config.MaxMsgSize)
    (hquota : Session.checkCredentialQuota c
      (Session.getDailyMailCount c mailLogs env.now env.dailyCountFailure)
      (Session.getHourlyMailCount c mailLogs env.now env.hourlyCountFailure) = .ok) :
    let record := Session.newMailLog u c s config data env
    let result := s.Data queue config mailLogs (.ok data) env
    record.Status = "queued" ∧ record.Attempts = 0 ∧ record.Size = (data.length : Int) ∧
    record.From = s.sender ∧ record.To = s.rcpts ∧ record.CompletedAt = none ∧
    insertCalls result.2 = [record] ∧
    (∀ id, env.insertAnswer = .ok id →
      (∃ p, result.2 = [.insertMailLog record (.ok id),
          .publish queue.exchangeName queue.routingKey p env.publishAnswer]) ∧
      applyEffects mailLogs result.2 = mailLogs ++ [{ record with ID := id }] ∧
      (env.publishAnswer = none → result.1 = .ok) ∧
      (∀ e, env.publishAnswer = some e → result.1 = .error e ∧ published result.2 = [])) ∧
    (∀ e, env.insertAnswer = .error e →
      result.1 = .error e ∧ result.2 = [.insertMailLog record (.error e)] ∧
      publishCalls result.2 = [] ∧ applyEffects mailLogs result.2 = mailLogs) := by
  intro record result
  have hsz : ¬ ((data.length : Int) > config.MaxMsgSize) := by omega
  have hres : result =
      queue.EnqueueMail record data env.insertAnswer env.publishAnswer env.now := by
    simp only [result, record, Session.Data, hu, hc, hsz, hquota, if_false]
  refine ⟨rfl, rfl, rfl, rfl, rfl, rfl, ?_, ?_, ?_⟩
  · rw [hres]
    cases hi : env.insertAnswer <;> cases hp : env.publishAnswer <;>
      simp [Service.EnqueueMail, insertCalls]
  · intro id hid
    rw [hres, hid]
    cases hp : env.publishAnswer <;>
      simp [Service.EnqueueMail, applyEffects, published]
  · intro e he
    rw [hres, he]
    simp [Service.EnqueueMail, applyEffects, publishCalls]

theorem data_inserts_then_publishes_witness :
    ((examplePayload.length : Int) ≤ exampleConfig.MaxMsgSize ∧
      Session.checkCredentialQuota exampleCredential
        (Session.getDailyMailCount exampleCredential [] exampleAnswers.now
          exampleAnswers.dailyCountFailure)
        (Session.getHourlyMailCount exampleCredential [] exampleAnswers.now
          exampleAnswers.hourlyCountFailure) = .ok) ∧
    (exampleEnvelope.Data exampleQueue exampleConfig [] (.ok examplePayload) exampleAnswers).1 =
      .error "channel closed" ∧
    applyEffects []
        (exampleEnvelope.Data exampleQueue exampleConfig [] (.ok examplePayload)
          exampleAnswers).2 =
      [] ++ [{ Session.newMailLog exampleUser exampleCredential exampleEnvelope exampleConfig
                examplePayload exampleAnswers with ID := ⟨"65f0000000000000000000aa"⟩ }] :=
  have h := data_inserts_then_publishes exampleEnvelope exampleUser exampleCredential
    exampleQueue exampleConfig [] examplePayload exampleAnswers rfl rfl (by decide) (by decide)
  ⟨⟨by decide, by decide⟩,
   ((h.2.2.2.2.2.2.2.1 ⟨"65f0000000000000000000aa"⟩ rfl).2.2.2 "channel closed" rfl).1,
   (h.2.2.2.2.2.2.2.1 ⟨"65f0000000000000000000aa"⟩ rfl).2.1⟩

/-! ## Queue adapter: backoff table and priority -/

/-- Claim C9. For every retry count `n ≥ 0`, `calculateRetryDelay n` returns 1 minute when
`n = 0`, 5 minutes when `n = 1`, 15 minutes when `n = 2` and 30 minutes when `n ≥ 3`, and the
delay is non-decreasing in `n`. -/
theorem retry_delay_table (n : Int) (hn : 0 ≤ n) :
    (n = 0 → Service.calculateRetryDelay n = .ret (1 * Minute)) ∧
    (n = 1 → Service.calculateRetryDelay n = .ret (5 * Minute)) ∧
    (n = 2 → Service.calculateRetryDelay n = .ret (15 * Minute)) ∧
    (3 ≤ n → Service.calculateRetryDelay n = .ret (30 * Minute)) ∧
    (∀ m dn dm, n ≤ m → Service.calculateRetryDelay n = .ret dn →
      Service.calculateRetryDelay m = .ret dm → dn ≤ dm) := by
  have key : ∀ k : Int, 0 ≤ k → Service.calculateRetryDelay k =
      .ret (if k = 0 then 1 * Minute else if k = 1 then 5 * Minute
        else if k = 2 then 15 * Minute else 30 * Minute) := by
    intro k hk
    by_cases h3 : 3 ≤ k
    · have : ¬ k < 3 := by omega
      have h0 : k ≠ 0 := by omega
      have h1 : k ≠ 1 := by omega
      have h2 : k ≠ 2 := by omega
      simp [Service.calculateRetryDelay, delays, this, h0, h1, h2]
    · have hk3 : k < 3 := by omega
      have hcases : k = 0 ∨ k = 1 ∨ k = 2 := by omega
      rcases hcases with h | h | h <;> subst h <;>
        simp [Service.calculateRetryDelay, delays]
  refine ⟨?_, ?_, ?_, ?_, ?_⟩
  · intro h; subst h; rw [key 0 (by omega)]; simp
  · intro h; subst h; rw [key 1 (by omega)]; simp
  · intro h; subst h; rw [key 2 (by omega)]; simp
  · intro h
    rw [key n hn]
    have h0 : n ≠ 0 := by omega
    have h1 : n ≠ 1 := by omega
    have h2 : n ≠ 2 := by omega
    simp [h0, h1, h2]
  · intro m dn dm hnm hdn hdm
    rw [key n hn] at hdn
    rw [key m (by omega)] at hdm
    injection hdn with hdn
    injection hdm with hdm
    subst hdn hdm
    simp only [Minute, Second, Millisecond]
    split_ifs <;> first | (exfalso; omega) | norm_num

theorem retry_delay_table_witness :
    (0 : Int) ≤ 1 ∧ Service.calculateRetryDelay 1 = .ret (5 * Minute) ∧
    (0 : Int) ≤ 7 ∧ Service.calculateRetryDelay 7 = .ret (30 * Minute) :=
  ⟨by decide, (retry_delay_table 1 (by decide)).2.1 rfl,
   by decide, (retry_delay_table 7 (by decide)).2.2.2.1 (by decide)⟩

/-- Claim C10. For every mail-log, whatever its size and number of recipients,
`calculatePriority` returns an integer `p` with `0 ≤ p ≤ 9`. -/
theorem priority_in_range (mailLog : MailLog) :
    0 ≤ Service.calculatePriority mailLog ∧ Service.calculatePriority mailLog ≤ 9 := by
  unfold Service.calculatePriority
  simp only
  split_ifs <;> omega

/-! ## UTF-8 -/

theorem coerceFrom_skip (k : Nat) : ∀ l : List Char,
    coerceFrom k l = l.take k ++ coerceFrom 0 (l.drop k) := by
  induction k with
  | zero => intro l; simp
  | succ k ih =>
    intro l
    cases l with
    | nil => simp [coerceFrom]
    | cons c cs => simp [coerceFrom, ih cs]

theorem isCont_zero : isCont 0 = false := by decide

theorem getElem_of_isCont (rest : List Nat) (i : Nat) (h : isCont (rest[i]?.getD 0) = true) :
    i < rest.length := by
  by_contra hlt
  rw [List.getElem?_eq_none (by omega)] at h
  simp [isCont] at h

theorem getD_take_append (rest y : List Nat) (i n : Nat) (hi : i < n) (hn : n ≤ rest.length) :
    (rest.take n ++ y)[i]?.getD 0 = rest[i]?.getD 0 := by
  rw [List.getElem?_append_left (by simp; omega), List.getElem?_take_of_lt hi]

theorem utf8Size_cons (b0 : Nat) (rest : List Nat) :
    utf8Size (b0 :: rest) =
      if b0 < 128 then 1
      else if valid2 b0 (rest[0]?.getD 0) then 2
      else if valid3 b0 (rest[0]?.getD 0) (rest[1]?.getD 0) then 3
      else if valid4 b0 (rest[0]?.getD 0) (rest[1]?.getD 0) (rest[2]?.getD 0) then 4
      else 0 := by
  simp only [utf8Size, List.getD_eq_getElem?_getD]

/-- The size found at the head of a list depends on the bytes of that encoding only. -/
theorem utf8Size_take (l y : List Nat) (h : 0 < utf8Size l) :
    utf8Size (l.take (utf8Size l) ++ y) = utf8Size l ∧ utf8Size l ≤ l.length := by
  cases l with
  | nil => simp [utf8Size] at h
  | cons b0 rest =>
    by_cases h1 : b0 < 128
    · have hs : utf8Size (b0 :: rest) = 1 := by rw [utf8Size_cons, if_pos h1]
      rw [hs]
      refine ⟨?_, by simp⟩
      simp only [List.take_succ_cons, List.take_zero, List.cons_append, List.nil_append]
      rw [utf8Size_cons, if_pos h1]
    · by_cases h2 : valid2 b0 (rest[0]?.getD 0) = true
      · have hc : isCont (rest[0]?.getD 0) = true := by
          simp only [valid2, Bool.and_eq_true] at h2; exact h2.2
        have hlen := getElem_of_isCont rest 0 hc
        have hs : utf8Size (b0 :: rest) = 2 := by rw [utf8Size_cons, if_neg h1, if_pos h2]
        rw [hs]
        refine ⟨?_, by simp; omega⟩
        have e0 := getD_take_append rest y 0 1 (by omega) (by omega)
        simp only [List.take_succ_cons, List.cons_append]
        rw [utf8Size_cons, if_neg h1, e0, if_pos h2]
      · by_cases h3 : valid3 b0 (rest[0]?.getD 0) (rest[1]?.getD 0) = true
        · have hc : isCont (rest[1]?.getD 0) = true := by
            simp only [valid3, Bool.and_eq_true] at h3; exact h3.2
          have hlen := getElem_of_isCont rest 1 hc
          have hs : utf8Size (b0 :: rest) = 3 := by
            rw [utf8Size_cons, if_neg h1, if_neg h2, if_pos h3]
          rw [hs]
          refine ⟨?_, by simp; omega⟩
          have e0 := getD_take_append rest y 0 2 (by omega) (by omega)
          have e1 := getD_take_append rest y 1 2 (by omega) (by omega)
          simp only [List.take_succ_cons, List.cons_append]
          rw [utf8Size_cons, if_neg h1, e0, e1, if_neg h2, if_pos h3]
        · by_cases h4 : valid4 b0 (rest[0]?.getD 0) (rest[1]?.getD 0) (rest[2]?.getD 0) = true
          · have hc : isCont (rest[2]?.getD 0) = true := by
              simp only [valid4, Bool.and_eq_true] at h4; exact h4.2
            have hlen := getElem_of_isCont rest 2 hc
            have hs : utf8Size (b0 :: rest) = 4 := by
              rw [utf8Size_cons, if_neg h1, if_neg h2, if_neg h3, if_pos h4]
            rw [hs]
            refine ⟨?_, by simp; omega⟩
            have e0 := getD_take_append rest y 0 3 (by omega) (by omega)
            have e1 := getD_take_append rest y 1 3 (by omega) (by omega)
            have e2 := getD_take_append rest y 2 3 (by omega) (by omega)
            simp only [List.take_succ_cons, List.cons_append]
            rw [utf8Size_cons, if_neg h1, e0, e1, e2, if_neg h2, if_neg h3, if_pos h4]
          · rw [utf8Size_cons, if_neg h1, if_neg h2, if_neg h3, if_neg h4] at h
            omega

theorem utf8Size_replacement (y : List Nat) : utf8Size (239 :: 191 :: 189 :: y) = 3 := by
  rw [utf8Size_cons]
  simp [valid2, valid3, isCont]

theorem coerceFrom_invalid (c : Char) (cs : List Char)
    (h : utf8Size (c.toNat :: cs.map Char.toNat) = 0) :
    coerceFrom 0 (c :: cs) = replacementChar ++ coerceFrom 0 cs := by
  simp only [coerceFrom, List.map_cons]
  rw [h]

theorem coerceFrom_valid (c : Char) (cs : List Char) (k : Nat)
    (h : utf8Size (c.toNat :: cs.map Char.toNat) = k + 1) :
    coerceFrom 0 (c :: cs) = c :: coerceFrom k cs := by
  simp only [coerceFrom, List.map_cons]
  rw [h]

/-- Replacing invalid UTF-8 a second time changes nothing. -/
theorem coerceFrom_idem (n : Nat) : ∀ l : List Char, l.length ≤ n →
    coerceFrom 0 (coerceFrom 0 l) = coerceFrom 0 l := by
  induction n with
  | zero =>
    intro l hl
    have : l = [] := List.length_eq_zero.mp (by omega)
    subst this
    rfl
  | succ n ih =>
    intro l hl
    cases l with
    | nil => rfl
    | cons c cs =>
      rcases hs : utf8Size (c.toNat :: cs.map Char.toNat) with _ | k
      · rw [coerceFrom_invalid c cs hs]
        have hrep : coerceFrom 0 (replacementChar ++ coerceFrom 0 cs) =
            replacementChar ++ coerceFrom 0 (coerceFrom 0 cs) := by
          have hsz := utf8Size_replacement ((coerceFrom 0 cs).map Char.toNat)
          simp only [replacementChar, List.cons_append, List.nil_append]
          rw [coerceFrom_valid _ _ 2 (by simpa using hsz)]
          rfl
        rw [hrep, ih cs (by simp at hl; omega)]
      · have hpos : 0 < utf8Size (c.toNat :: cs.map Char.toNat) := by omega
        rw [coerceFrom_valid c cs k hs, coerceFrom_skip k cs]
        obtain ⟨ht, hle⟩ := utf8Size_take (c.toNat :: cs.map Char.toNat)
          ((coerceFrom 0 (cs.drop k)).map Char.toNat) hpos
        rw [hs] at ht hle
        simp only [List.take_succ_cons, List.cons_append, List.length_cons,
          List.length_map] at ht hle
        have hk : k ≤ cs.length := by omega
        have hstep : coerceFrom 0 (c :: (cs.take k ++ coerceFrom 0 (cs.drop k))) =
            c :: coerceFrom k (cs.take k ++ coerceFrom 0 (cs.drop k)) := by
          apply coerceFrom_valid
          rw [List.map_append, List.map_take]
          exact ht
        rw [hstep, coerceFrom_skip k]
        have hlen : (cs.take k).length = k := by simp [hk]
        rw [List.take_left' hlen, List.drop_left' hlen,
          ih (cs.drop k) (by simp at hl ⊢; omega)]

theorem coerceUTF8_idem (s : String) : coerceUTF8 (coerceUTF8 s) = coerceUTF8 s := by
  unfold coerceUTF8
  simp only
  rw [coerceFrom_idem s.data.length s.data (le_refl _)]


theorem coerceFrom_ascii : ∀ l : List Char, (∀ c ∈ l, c.toNat < 128) →
    coerceFrom 0 l = l := by
  intro l
  induction l with
  | nil => intro _; rfl
  | cons c cs ih =>
    intro h
    have hc : c.toNat < 128 := h c (List.mem_cons_self _ _)
    have hs : utf8Size (c.toNat :: cs.map Char.toNat) = 0 + 1 := by
      rw [utf8Size_cons, if_pos hc]
    rw [coerceFrom_valid c cs 0 hs, ih (fun x hx => h x (List.mem_cons_of_mem _ hx))]

/-! ## The queue message through JSON -/

theorem decodeSextet_encodeSextet (n : Nat) (h : n < 64) :
    decodeSextet (encodeSextet n) = some n := by
  interval_cases n <;> decide

theorem decodeSextet_pad : decodeSextet '=' = none := by decide

theorem byte_ofNat (a : Byte) (n : Nat) (h : n = a.val) : (Fin.ofNat n : Byte) = a := by
  subst h
  apply Fin.ext
  simp [Fin.ofNat]

/-- Decoding the quanta undoes base64 encoding, on every byte string. -/
theorem decodeQuanta_encode (b : Bytes) : decodeQuanta (base64Encode b) = some b := by
  induction b using base64Encode.induct with
  | case1 => simp [base64Encode, decodeQuanta]
  | case2 a =>
    have ha := a.isLt
    simp only [base64Encode, decodeQuanta]
    rw [decodeSextet_encodeSextet _ (by omega), decodeSextet_encodeSextet _ (by omega),
      decodeSextet_pad]
    simp
    exact byte_ofNat a _ (by omega)
  | case3 a b =>
    have ha := a.isLt
    have hb := b.isLt
    simp only [base64Encode, decodeQuanta]
    rw [decodeSextet_encodeSextet _ (by omega), decodeSextet_encodeSextet _ (by omega),
      decodeSextet_encodeSextet _ (by omega), decodeSextet_pad]
    simp
    exact ⟨byte_ofNat a _ (by omega), byte_ofNat b _ (by omega)⟩
  | case4 a b c rest ih =>
    have ha := a.isLt
    have hb := b.isLt
    have hc := c.isLt
    simp only [base64Encode, decodeQuanta]
    rw [decodeSextet_encodeSextet _ (by omega), decodeSextet_encodeSextet _ (by omega),
      decodeSextet_encodeSextet _ (by omega), decodeSextet_encodeSextet _ (by omega), ih]
    simp
    exact ⟨byte_ofNat a _ (by omega), byte_ofNat b _ (by omega), byte_ofNat c _ (by omega)⟩


theorem encodeSextet_mem (n : Nat) : encodeSextet n ∈ '=' :: base64Alphabet := by
  by_cases h : n < 64
  · interval_cases n <;> decide
  · have : encodeSextet n = 'A' := by
      unfold encodeSextet
      exact List.getD_eq_default _ _ (by simpa [base64Alphabet] using h)
    rw [this]
    decide

theorem base64Encode_chars (b : Bytes) : ∀ c ∈ base64Encode b, c ∈ '=' :: base64Alphabet := by
  induction b using base64Encode.induct with
  | case1 => simp [base64Encode]
  | case2 a =>
    intro c hc
    simp only [base64Encode, List.mem_cons, List.mem_singleton, List.not_mem_nil,
      or_false] at hc
    rcases hc with h | h | h | h <;> subst h <;>
      first | exact encodeSextet_mem _ | decide
  | case3 a b =>
    intro c hc
    simp only [base64Encode, List.mem_cons, List.mem_singleton, List.not_mem_nil,
      or_false] at hc
    rcases hc with h | h | h | h <;> subst h <;>
      first | exact encodeSextet_mem _ | decide
  | case4 a b c rest ih =>
    intro x hx
    simp only [base64Encode, List.mem_cons] at hx
    rcases hx with h | h | h | h | h
    · subst h; exact encodeSextet_mem _
    · subst h; exact encodeSextet_mem _
    · subst h; exact encodeSextet_mem _
    · subst h; exact encodeSextet_mem _
    · exact ih x h

theorem base64_char_plain : ∀ c ∈ '=' :: base64Alphabet,
    c.toNat < 128 ∧ (c != '\r' && c != '\n') = true := by
  decide

/-- Base64 decoding undoes base64 encoding, on every byte string, also after the text went
through JSON. -/
theorem base64Decode_encode (b : Bytes) :
    base64Decode (coerceUTF8 (String.mk (base64Encode b))).data = some b := by
  have hplain := fun c hc => base64_char_plain c (base64Encode_chars b c hc)
  have h1 : coerceUTF8 (String.mk (base64Encode b)) = String.mk (base64Encode b) := by
    unfold coerceUTF8
    rw [coerceFrom_ascii _ (fun c hc => (hplain c hc).1)]
  have h2 : (base64Encode b).filter (fun c => c != '\r' && c != '\n') = base64Encode b :=
    List.filter_eq_self.mpr (fun c hc => (hplain c hc).2)
  rw [h1]
  unfold base64Decode
  rw [h2, decodeQuanta_encode]

/-- The message that comes out of the JSON of a message: the strings are read as UTF-8 text,
the rest is unchanged. -/
theorem Unmarshal_Marshal (m : MailMessage) :
    Unmarshal (Marshal m) =
      .ok { m with From := coerceUTF8 m.From, To := m.To.map coerceUTF8,
                   Subject := coerceUTF8 m.Subject } := by
  simp [Unmarshal, Marshal, IdValue.decode, base64Decode_encode, coerceUTF8_idem]

/-- A message that came out of JSON goes through JSON unchanged. -/
theorem Unmarshal_Marshal_decoded (j : MessageJSON) (m : MailMessage)
    (h : Unmarshal j = .ok m) : Unmarshal (Marshal m) = .ok m := by
  rw [Unmarshal_Marshal]
  unfold Unmarshal at h
  split at h
  · simp at h
  · split at h
    · simp at h
    · simp only [Except.ok.injEq] at h
      subst h
      simp [coerceUTF8_idem]

/-- A message of valid UTF-8 strings goes through JSON unchanged. -/
theorem Unmarshal_Marshal_text (m : MailMessage) (hf : coerceUTF8 m.From = m.From)
    (ht : m.To.map coerceUTF8 = m.To) (hs : coerceUTF8 m.Subject = m.Subject) :
    Unmarshal (Marshal m) = .ok m := by
  rw [Unmarshal_Marshal, hf, ht, hs]

theorem exampleMessage_round_trip : Unmarshal (Marshal exampleMessage) = .ok exampleMessage :=
  Unmarshal_Marshal_text exampleMessage (by decide) (by decide) (by decide)

/-! ## The bytes written by `sendMail` -/

theorem written_append (a b : List Effect) : written (a ++ b) = written a ++ written b := by
  induction a with
  | nil => rfl
  | cons e rest ih =>
    cases e with
    | smtp call answer =>
      cases call <;> cases answer <;> simp [written, ih]
    | _ => simp [written, ih]

theorem written_connect (config : SMTPConfig) (addr : String) (up : UpstreamAnswers) :
    written (Processor.connect config addr up).2 = [] := by
  unfold Processor.connect
  cases up.dial <;> cases up.startTLS <;> simp [written] <;> split_ifs <;> simp [written]

theorem written_sendRcpts (answer : String → Option String) (rs : List String) :
    written (Processor.sendRcpts answer rs).2 = [] := by
  induction rs with
  | nil => rfl
  | cons r rest ih =>
    simp only [Processor.sendRcpts]
    cases answer r <;> simp [written, ih]

/-- A send that returns nil wrote the synthesized headers and then the body, nothing else. -/
theorem sendMail_written (config : SMTPConfig) (message : MailMessage) (up : UpstreamAnswers)
    (h : (Processor.sendMail config message up).1 = .ok) :
    written (Processor.sendMail config message up).2 =
      toBytes (Processor.buildMailHeaders message up.date up.relayTime) ++ message.Body := by
  unfold Processor.sendMail at h ⊢
  simp only at h ⊢
  have hconn := written_connect config (config.Host ++ ":" ++ toString config.Port) up
  rcases hc : Processor.connect config (config.Host ++ ":" ++ toString config.Port) up with
    ⟨err, calls⟩
  rw [hc] at h hconn
  simp only at hconn
  cases err with
  | some e => simp at h
  | none =>
    simp only at h ⊢
    have hr := written_sendRcpts up.rcpt message.To
    rcases hrc : Processor.sendRcpts up.rcpt message.To with ⟨rerr, rcalls⟩
    rw [hrc] at h hr
    simp only at hr
    by_cases hauth : config.Username ≠ "" ∧ config.Password ≠ ""
    · rw [if_pos hauth] at h ⊢
      cases ha : up.auth <;> simp only [ha] at h ⊢
      · cases hm : up.mail <;> simp only [hm] at h ⊢
        · cases rerr with
          | some p => simp at h
          | none =>
            simp only at h ⊢
            cases hd : up.data <;> simp only [hd] at h ⊢
            · cases hw : up.writeHeaders <;> simp only [hw] at h ⊢
              · cases hb : up.writeBody <;> simp only [hb] at h ⊢
                · cases hcw : up.closeWriter <;> simp only [hcw] at h ⊢
                  · simp [written_append, written, hconn, hr]
                  · simp at h
                · simp at h
              · simp at h
            · simp at h
        · simp at h
      · simp at h
    · rw [if_neg hauth] at h ⊢
      cases hm : up.mail <;> simp only [hm] at h ⊢
      · cases rerr with
        | some p => simp at h
        | none =>
          simp only at h ⊢
          cases hd : up.data <;> simp only [hd] at h ⊢
          · cases hw : up.writeHeaders <;> simp only [hw] at h ⊢
            · cases hb : up.writeBody <;> simp only [hb] at h ⊢
              · cases hcw : up.closeWriter <;> simp only [hcw] at h ⊢
                · simp [written_append, written, hconn, hr]
                · simp at h
              · simp at h
            · simp at h
          · simp at h
      · simp at h

theorem sendRcpts_accepted (answer : String → Option String) (rs : List String)
    (h : ∀ r, answer r = none) : (Processor.sendRcpts answer rs).1 = none := by
  induction rs with
  | nil => rfl
  | cons r rest ih => simp [Processor.sendRcpts, h r, ih]

/-- A send to a relay that answers every call without error returns nil. -/
theorem sendMail_succeeds (config : SMTPConfig) (m : MailMessage) (up : UpstreamAnswers)
    (hdial : up.dial = none) (htls : up.startTLS = none) (hauth : up.auth = none)
    (hmail : up.mail = none) (hrcpt : ∀ r, up.rcpt r = none) (hdata : up.data = none)
    (hwh : up.writeHeaders = none) (hwb : up.writeBody = none) (hcw : up.closeWriter = none) :
    (Processor.sendMail config m up).1 = .ok := by
  have hr := sendRcpts_accepted up.rcpt m.To hrcpt
  rcases hrc : Processor.sendRcpts up.rcpt m.To with ⟨rerr, rcalls⟩
  rw [hrc] at hr
  simp only at hr
  subst hr
  have hc : (Processor.connect config (config.Host ++ ":" ++ toString config.Port) up).1 =
      none := by
    unfold Processor.connect
    rw [hdial, htls]
    simp only
    split_ifs <;> rfl
  rcases hcc : Processor.connect config (config.Host ++ ":" ++ toString config.Port) up with
    ⟨cerr, ccalls⟩
  rw [hcc] at hc
  simp only at hc
  subst hc
  unfold Processor.sendMail
  simp only [hcc, hrc, hauth, hmail, hdata, hwh, hwb, hcw]
  split_ifs <;> rfl

/-- The header block `buildMailHeaders` writes is the block of ten lines and an empty line. -/
theorem buildMailHeaders_eq (m : MailMessage) (date relayTime : String) :
    Processor.buildMailHeaders m date relayTime =
      headerBlock m.From m.To m.Subject m.MailLogID date relayTime := by
  simp [Processor.buildMailHeaders, headerBlock, headerLines, String.join, String.append_assoc]

/-- What `EnqueueMail` publishes once the store has answered the insert with `id`: one
message whose JSON body decodes to a message with the body `b`, the id and the record's
sender, recipients and subject as JSON text. -/
theorem EnqueueMail_published (queue : Service) (mailLog : MailLog) (b : Bytes)
    (id : ObjectID) (publishAnswer : Option String) (now : Time) :
    ∃ p m,
      (queue.EnqueueMail mailLog b (.ok id) publishAnswer now).2 =
        [.insertMailLog mailLog (.ok id),
         .publish queue.exchangeName queue.routingKey p publishAnswer] ∧
      Unmarshal p.Body = .ok m ∧ m.Body = b ∧ m.MailLogID = id ∧
      m.From = coerceUTF8 mailLog.From ∧ m.To = mailLog.To.map coerceUTF8 ∧
      m.Subject = coerceUTF8 mailLog.Subject := by
  cases publishAnswer <;>
    exact ⟨_, _, rfl, Unmarshal_Marshal _, rfl, rfl, rfl, rfl, rfl⟩

/-- An authenticated `Data` whose payload passes the size and quota checks hands the record
and the payload to `EnqueueMail`. -/
theorem Data_enqueues (s : Session) (u : User) (c : SMTPCredential)
    (queue : Service) (config : Config) (mailLogs : List MailLog) (b : Bytes)
    (env : DataAnswers)
    (hu : s.user = some u) (hc : s.credential = some c)
    (hsize : (b.length : Int) ≤ config.MaxMsgSize)
    (hquota : Session.checkCredentialQuota c
      (Session.getDailyMailCount c mailLogs env.now env.dailyCountFailure)
      (Session.getHourlyMailCount c mailLogs env.now env.hourlyCountFailure) = .ok) :
    s.Data queue config mailLogs (.ok b) env =
      queue.EnqueueMail (Session.newMailLog u c s config b env) b env.insertAnswer
        env.publishAnswer env.now := by
  have hsz : ¬ ((b.length : Int) > config.MaxMsgSize) := by omega
  simp only [Session.Data, hu, hc, hsz, hquota, if_false]

theorem toBytes_length (s : String) : (toBytes s).length = s.data.length := by
  simp [toBytes]

theorem foldl_append_length (l : List String) : ∀ acc : String,
    (l.foldl (fun a b => a ++ b) acc).data.length =
      acc.data.length + (l.map (fun x => x.data.length)).sum := by
  induction l with
  | nil => intro acc; simp
  | cons x rest ih =>
    intro acc
    simp only [List.foldl_cons, ih, String.data_append, List.length_append, List.map_cons,
      List.sum_cons]
    omega

theorem join_length (l : List String) :
    (String.join l).data.length = (l.map (fun x => x.data.length)).sum := by
  unfold String.join
  rw [foldl_append_length]
  simp

/-- The length of the header block, by the length of its subject. -/
theorem headerBlock_length (sender : String) (rcpts : List String) (subject : String)
    (id : ObjectID) (date relayTime : String) :
    (headerBlock sender rcpts subject id date relayTime).data.length =
      subject.data.length +
        (headerBlock sender rcpts "" id date relayTime).data.length := by
  have e : ("" : String).data.length = 0 := rfl
  simp only [headerBlock, headerLines, String.data_append, List.length_append, join_length,
    List.map_cons, List.map_nil, List.sum_cons, List.sum_nil, e]
  omega

/-- Claim C6, as stated, fails: the subject of this accepted payload ends in the byte 233,
which is no valid UTF-8; the message that comes out of the queue carries U+FFFD (the bytes
239, 191, 189) in its place, and the `Subject` line the worker writes upstream holds those
bytes, not the extracted subject. The payload itself is written unchanged. -/
theorem eight_bit_subject_is_replaced :
    Session.extractSubject (ofBytes eightBitPayload) =
      String.mk ['c', 'a', 'f', Char.ofNat 233] ∧
    ∃ p m,
      (exampleEnvelope.Data exampleQueue exampleConfig [] (.ok eightBitPayload)
          exampleAnswers).2 =
        [.insertMailLog
          (Session.newMailLog exampleUser exampleCredential exampleEnvelope exampleConfig
            eightBitPayload exampleAnswers) (.ok ⟨"65f0000000000000000000aa"⟩),
         .publish exampleQueue.exchangeName exampleQueue.routingKey p
           exampleAnswers.publishAnswer] ∧
      Unmarshal p.Body = .ok m ∧ m.Body = eightBitPayload ∧
      m.Subject = String.mk ['c', 'a', 'f', Char.ofNat 239, Char.ofNat 191, Char.ofNat 189] ∧
      (Processor.sendMail exampleRelay m exampleUpstream).1 = .ok ∧
      written (Processor.sendMail exampleRelay m exampleUpstream).2 ≠
        toBytes (headerBlock exampleEnvelope.sender exampleEnvelope.rcpts
          (Session.extractSubject (ofBytes eightBitPayload))
          ⟨"65f0000000000000000000aa"⟩
          exampleUpstream.date exampleUpstream.relayTime) ++ eightBitPayload := by
  refine ⟨by decide, ?_⟩
  have hres := Data_enqueues exampleEnvelope exampleUser exampleCredential exampleQueue
    exampleConfig [] eightBitPayload exampleAnswers rfl rfl (by decide) (by decide)
  obtain ⟨p, m, h1, h2, h3, h4, h5, h6, h7⟩ :=
    EnqueueMail_published exampleQueue
      (Session.newMailLog exampleUser exampleCredential exampleEnvelope exampleConfig
        eightBitPayload exampleAnswers) eightBitPayload ⟨"65f0000000000000000000aa"⟩
      exampleAnswers.publishAnswer exampleAnswers.now
  have hsub : m.Subject =
      String.mk ['c', 'a', 'f', Char.ofNat 239, Char.ofNat 191, Char.ofNat 189] := by
    rw [h7]
    decide
  have hfrom : m.From = "a@ex.com" := by
    rw [h5]
    decide
  have hto : m.To = ["b@x", "c@x"] := by
    rw [h6]
    decide
  have hok : (Processor.sendMail exampleRelay m exampleUpstream).1 = .ok :=
    sendMail_succeeds exampleRelay m exampleUpstream rfl rfl rfl rfl (fun _ => rfl) rfl rfl rfl
      rfl
  refine ⟨p, m, by rw [hres]; exact h1, h2, h3, hsub, hok, ?_⟩
  rw [sendMail_written exampleRelay m exampleUpstream hok, buildMailHeaders_eq, hfrom, hto,
    hsub, h4, h3]
  intro h
  have hlen := congrArg List.length h
  have e1 : exampleEnvelope.sender = "a@ex.com" := rfl
  have e2 : exampleEnvelope.rcpts = ["b@x", "c@x"] := rfl
  have e3 : Session.extractSubject (ofBytes eightBitPayload) =
      String.mk ['c', 'a', 'f', Char.ofNat 233] := by decide
  rw [e1, e2, e3] at hlen
  simp only [List.length_append, toBytes_length] at hlen
  rw [headerBlock_length, headerBlock_length _ _ (String.mk ['c', 'a', 'f', Char.ofNat 233])]
    at hlen
  simp only [List.length_cons, List.length_nil] at hlen
  omega

/-- Claim C6, amended. For an authenticated session with envelope `(sender, rcpts)` and a
payload `b` that passes the size and quota checks of `Data`, with `id` the mail-log id given
by the store: `Data` inserts and then publishes one message whose JSON body decodes, to a
message with body `b` byte for byte, with that id, and with the envelope sender, the
recipients and the subject extracted from `b` as JSON text: every byte of them that is not
part of a valid UTF-8 encoding replaced by U+FFFD, nothing else changed, so that ASCII text
is as it was. Every `sendMail` of
the decoded message that returns nil has written to the upstream DATA writer exactly
`H ++ b`, where `H` is the ten CRLF-ended lines From, To (recipients joined by `, `), Subject,
Date, MIME-Version, Content-Type, Content-Transfer-Encoding, Message-ID (the hex id in angle
brackets), X-Mailer, X-Relay-Time, in that order, followed by one empty CRLF line, with
those values of sender, recipients and subject. -/
theorem upstream_stream_is_headers_then_payload (s : Session) (u : User) (c : SMTPCredential)
    (queue : Service) (config : Config) (mailLogs : List MailLog) (b : Bytes)
    (env : DataAnswers) (id : ObjectID)
    (hu : s.user = some u) (hc : s.credential = some c)
    (hsize : (b.length : Int) ≤ config.MaxMsgSize)
    (hquota : Session.checkCredentialQuota c
      (Session.getDailyMailCount c mailLogs env.now env.dailyCountFailure)
      (Session.getHourlyMailCount c mailLogs env.now env.hourlyCountFailure) = .ok)
    (hid : env.insertAnswer = .ok id) :
    ∃ p m,
      (s.Data queue config mailLogs (.ok b) env).2 =
        [.insertMailLog (Session.newMailLog u c s config b env) (.ok id),
         .publish queue.exchangeName queue.routingKey p env.publishAnswer] ∧
      Unmarshal p.Body = .ok m ∧ m.Body = b ∧ m.MailLogID = id ∧
      m.From = coerceUTF8 s.sender ∧ m.To = s.rcpts.map coerceUTF8 ∧
      m.Subject = coerceUTF8 (Session.extractSubject (ofBytes b)) ∧
      (∀ t : String, (∀ x ∈ t.data, x.toNat < 128) → coerceUTF8 t = t) ∧
      (∀ (relay : SMTPConfig) (up : UpstreamAnswers),
        (Processor.sendMail relay m up).1 = .ok →
        written (Processor.sendMail relay m up).2 =
          toBytes (headerBlock (coerceUTF8 s.sender) (s.rcpts.map coerceUTF8)
            (coerceUTF8 (Session.extractSubject (ofBytes b))) id up.date up.relayTime) ++
            b) ∧
      (∀ (sender subject date relayTime : String) (rcpts : List String),
        headerBlock sender rcpts subject id date relayTime =
          String.join ((headerLines sender rcpts subject id date relayTime).map
            (fun line => line ++ "\r\n")) ++ "\r\n" ∧
        headerLines sender rcpts subject id date relayTime =
          ["From: " ++ sender, "To: " ++ Join rcpts ", ", "Subject: " ++ subject,
           "Date: " ++ date, "MIME-Version: 1.0", "Content-Type: text/plain; charset=utf-8",
           "Content-Transfer-Encoding: 8bit", "Message-ID: <" ++ id.Hex ++ ">",
           "X-Mailer: SMTP-Relay-Service", "X-Relay-Time: " ++ relayTime]) := by
  have hres := Data_enqueues s u c queue config mailLogs b env hu hc hsize hquota
  rw [hid] at hres
  obtain ⟨p, m, h1, h2, h3, h4, h5, h6, h7⟩ :=
    EnqueueMail_published queue (Session.newMailLog u c s config b env) b id env.publishAnswer
      env.now
  refine ⟨p, m, by rw [hres, h1], h2, h3, h4, h5, h6, h7, ?_, ?_,
    fun _ _ _ _ _ => ⟨rfl, rfl⟩⟩
  · intro t ht
    unfold coerceUTF8
    rw [coerceFrom_ascii t.data ht]
  intro relay up hok
  have hh5 : m.From = coerceUTF8 s.sender := h5
  have hh6 : m.To = s.rcpts.map coerceUTF8 := h6
  have hh7 : m.Subject = coerceUTF8 (Session.extractSubject (ofBytes b)) := h7
  rw [sendMail_written relay m up hok, buildMailHeaders_eq, hh5, hh6, hh7, h4, h3]

theorem upstream_stream_is_headers_then_payload_witness :
    ((examplePayload.length : Int) ≤ exampleConfig.MaxMsgSize ∧
      Session.checkCredentialQuota exampleCredential
        (Session.getDailyMailCount exampleCredential [] exampleAnswers.now
          exampleAnswers.dailyCountFailure)
        (Session.getHourlyMailCount exampleCredential [] exampleAnswers.now
          exampleAnswers.hourlyCountFailure) = .ok) ∧
    ∃ p m,
      (exampleEnvelope.Data exampleQueue exampleConfig [] (.ok examplePayload)
          exampleAnswers).2 =
        [.insertMailLog
          (Session.newMailLog exampleUser exampleCredential exampleEnvelope exampleConfig
            examplePayload exampleAnswers) (.ok ⟨"65f0000000000000000000aa"⟩),
         .publish exampleQueue.exchangeName exampleQueue.routingKey p
           exampleAnswers.publishAnswer] ∧
      Unmarshal p.Body = .ok m ∧ m.Body = examplePayload ∧
      (Processor.sendMail exampleRelay m exampleUpstream).1 = .ok ∧
      written (Processor.sendMail exampleRelay m exampleUpstream).2 =
        toBytes (headerBlock exampleEnvelope.sender exampleEnvelope.rcpts
          (Session.extractSubject (ofBytes examplePayload))
          ⟨"65f0000000000000000000aa"⟩
          exampleUpstream.date exampleUpstream.relayTime) ++ examplePayload ∧
      Session.extractSubject (ofBytes examplePayload) = "hi" := by
  obtain ⟨p, m, h1, h2, h3, -, -, -, -, -, h8, -⟩ :=
    upstream_stream_is_headers_then_payload exampleEnvelope exampleUser exampleCredential
      exampleQueue exampleConfig [] examplePayload exampleAnswers
      ⟨"65f0000000000000000000aa"⟩ rfl rfl (by decide) (by decide) rfl
  have hok : (Processor.sendMail exampleRelay m exampleUpstream).1 = .ok :=
    sendMail_succeeds exampleRelay m exampleUpstream rfl rfl rfl rfl (fun _ => rfl) rfl rfl rfl
      rfl
  have hs : coerceUTF8 exampleEnvelope.sender = exampleEnvelope.sender := by decide
  have hr : exampleEnvelope.rcpts.map coerceUTF8 = exampleEnvelope.rcpts := by decide
  have hj : coerceUTF8 (Session.extractSubject (ofBytes examplePayload)) =
      Session.extractSubject (ofBytes examplePayload) := by decide
  have hw := h8 exampleRelay exampleUpstream hok
  rw [hs, hr, hj] at hw
  exact ⟨⟨by decide, by decide⟩, p, m, h1, h2, h3, hok, hw, by decide⟩

/-! ## Queue adapter: the consume step -/

theorem getRetryCount_cases :
    Service.getRetryCount none = 0 ∧
    (∀ t : Table, t.lookup "retry-count" = none → Service.getRetryCount (some t) = 0) ∧
    (∀ (t : Table) (x : String), t.lookup "retry-count" = some (.other x) →
      Service.getRetryCount (some t) = 0) ∧
    (∀ (t : Table) (v : Int), t.lookup "retry-count" = some (.int32 v) →
      Service.getRetryCount (some t) = v) := by
  refine ⟨rfl, ?_, ?_, ?_⟩
  · intro t h
    simp only [Service.getRetryCount, h]
  · intro t x h
    simp only [Service.getRetryCount, h]
  · intro t v h
    simp only [Service.getRetryCount, h]

theorem calculateRetryDelay_lt (n : Nat) (h : n < 3) :
    ∃ delay, delays[n]? = some delay ∧ Service.calculateRetryDelay n = .ret delay := by
  interval_cases n <;> simp [Service.calculateRetryDelay, delays]

theorem toInt32_small (n : Nat) (h : n < 3) : toInt32 ((n : Int) + 1) = (n : Int) + 1 := by
  unfold toInt32; omega

/-- The consume step on a failed handler with retry count `n < 3`. -/
theorem consume_failure_lt (s : Service) (handler : MailMessage → Outcome × List Effect)
    (d : Delivery) (j : MessageJSON) (m : MailMessage) (publishAnswer : Option String)
    (now : Time) (n : Nat) (e : String) (done : List Effect)
    (hbody : d.Body = some j) (hdec : Unmarshal j = .ok m)
    (hn : Service.getRetryCount d.Headers = (n : Int))
    (hh : handler m = (.error e, done)) (h3 : n < 3) :
    ∃ delay, delays[n]? = some delay ∧ Service.calculateRetryDelay n = .ret delay ∧
      s.consume handler d publishAnswer now =
        { calls := done ++ [.publish "" (s.queueName ++ ".delay")
                    (delayPublishing m delay n now) publishAnswer, .nack false false],
          panic := none } := by
  obtain ⟨delay, hd1, hd2⟩ := calculateRetryDelay_lt n h3
  refine ⟨delay, hd1, hd2, ?_⟩
  have hlt : ((n : Int) < 3) := by omega
  simp only [Service.consume, hbody, hdec, hh, hn, hlt, if_true, hd2]
  cases publishAnswer <;>
    simp [Service.requeueWithDelay, delayPublishing, toInt32_small n h3]

/-- The consume step for a delivery whose body decodes to `m` and whose incoming retry count
is a count `n` that is not negative (0 when the header table is nil, the key is absent or
the value is not an int32): if the handler returns nil, the step adds one ack to the
handler's calls and publishes nothing; if the handler fails and `n < 3`, it adds exactly one
publish to the delay queue, with `Expiration` the backoff-table delay for `n` in milliseconds
and header `retry-count = n + 1`, followed by a nack without requeue; if the handler fails
and `n ≥ 3`, it only nacks without requeue. -/
theorem consume_step_cases (s : Service) (handler : MailMessage → Outcome × List Effect)
    (d : Delivery) (j : MessageJSON) (m : MailMessage) (publishAnswer : Option String)
    (now : Time) (n : Nat)
    (hbody : d.Body = some j) (hdec : Unmarshal j = .ok m)
    (hn : Service.getRetryCount d.Headers = (n : Int)) :
    (∀ done, handler m = (.ok, done) →
      s.consume handler d publishAnswer now = { calls := done ++ [.ack false], panic := none }) ∧
    (∀ e done, handler m = (.error e, done) → n < 3 →
      ∃ delay p, delays[n]? = some delay ∧
        p.Expiration = toString delay.Milliseconds ∧
        p.Headers = some [("retry-count", .int32 ((n : Int) + 1))] ∧
        p.Body = Marshal m ∧
        s.consume handler d publishAnswer now =
          { calls := done ++ [.publish "" (s.queueName ++ ".delay") p publishAnswer,
                              .nack false false],
            panic := none }) ∧
    (∀ e done, handler m = (.error e, done) → 3 ≤ n →
      s.consume handler d publishAnswer now =
        { calls := done ++ [.nack false false], panic := none }) ∧
    (Service.getRetryCount none = 0 ∧
      (∀ t : Table, t.lookup "retry-count" = none → Service.getRetryCount (some t) = 0) ∧
      (∀ (t : Table) (x : String), t.lookup "retry-count" = some (.other x) →
        Service.getRetryCount (some t) = 0)) := by
  refine ⟨?_, ?_, ?_, getRetryCount_cases.1, getRetryCount_cases.2.1, getRetryCount_cases.2.2.1⟩
  · intro done hh
    simp [Service.consume, hbody, hdec, hh]
  · intro e done hh h3
    obtain ⟨delay, hd1, -, hc⟩ :=
      consume_failure_lt s handler d j m publishAnswer now n e done hbody hdec hn hh h3
    exact ⟨delay, delayPublishing m delay n now, hd1, rfl, rfl, rfl, hc⟩
  · intro e done hh h3
    have hge : ¬ ((n : Int) < 3) := by omega
    simp [Service.consume, hbody, hdec, hh, hn, hge]

/-- Claim C7 at a failing input. The body of this delivery decodes, its `retry-count` header
is the int32 value -1, which is below 3, and the handler fails. The claim has the consume
step publish one copy to the delay queue and then nack the delivery; the step does neither:
it makes no call at all and ends in the runtime panic of `calculateRetryDelay`, which indexes
the backoff table at -1. With the header value 1 the same delivery is republished and
nacked. -/
theorem negative_retry_count_is_not_requeued :
    negativeRetryDelivery.Body = some (Marshal exampleMessage) ∧
    Unmarshal (Marshal exampleMessage) = .ok exampleMessage ∧
    Service.getRetryCount negativeRetryDelivery.Headers = -1 ∧
    exampleHandler exampleMessage = (.error "421 try again later", []) ∧
    publishCalls (exampleQueue.consume exampleHandler negativeRetryDelivery none 0).calls = [] ∧
    Effect.nack false false ∉
      (exampleQueue.consume exampleHandler negativeRetryDelivery none 0).calls ∧
    (exampleQueue.consume exampleHandler negativeRetryDelivery none 0).panic =
      some "index out of range" ∧
    (publishCalls (exampleQueue.consume exampleHandler exampleDelivery none 0).calls).length =
      1 ∧
    Effect.nack false false ∈
      (exampleQueue.consume exampleHandler exampleDelivery none 0).calls := by
  refine ⟨rfl, exampleMessage_round_trip, ?_, rfl, ?_, ?_, ?_, ?_, ?_⟩ <;> decide

/-! ## Queue adapter: the retry budget over redeliveries -/

theorem published_append (a b : List Effect) :
    published (a ++ b) = published a ++ published b := by
  induction a with
  | nil => rfl
  | cons e rest ih =>
    cases e with
    | publish exchange key msg answer => cases answer <;> simp [published, ih]
    | _ => simp [published, ih]

theorem publishCalls_append (a b : List Effect) :
    publishCalls (a ++ b) = publishCalls a ++ publishCalls b := by
  induction a with
  | nil => rfl
  | cons e rest ih => cases e <;> simp [publishCalls, ih]

theorem published_of_publishCalls_nil (a : List Effect) (h : publishCalls a = []) :
    published a = [] := by
  induction a with
  | nil => rfl
  | cons e rest ih =>
    cases e with
    | publish exchange key msg answer => simp [publishCalls] at h
    | _ => simp [publishCalls] at h; simp [published, ih h]

theorem delayCopy_requeued (s : Service) (done : List Effect) (p : Publishing)
    (h : publishCalls done = []) :
    delayCopy s (done ++ [.publish "" (s.queueName ++ ".delay") p none, .nack false false]) =
      some p := by
  simp [delayCopy, published_append, published_of_publishCalls_nil done h, published]

theorem delayCopy_nacked (s : Service) (done : List Effect) (h : publishCalls done = []) :
    delayCopy s (done ++ [.nack false false]) = none := by
  simp [delayCopy, published_append, published_of_publishCalls_nil done h, published]

theorem redeliver_lt (s : Service) (handler : Nat → MailMessage → Outcome × List Effect)
    (now : Time) (fuel i : Nat) (d : Delivery) (j : MessageJSON) (m : MailMessage) (n : Nat)
    (e : String) (done : List Effect)
    (hbody : d.Body = some j) (hdec : Unmarshal j = .ok m)
    (hn : Service.getRetryCount d.Headers = (n : Int))
    (hh : handler i m = (.error e, done)) (hdone : publishCalls done = []) (h3 : n < 3) :
    ∃ delay, delays[n]? = some delay ∧
      redeliver s handler now (fuel + 1) i d =
        { calls := done ++ [.publish "" (s.queueName ++ ".delay")
                    (delayPublishing m delay n now) none, .nack false false],
          panic := none } ::
        redeliver s handler now fuel (i + 1)
          { Headers := some [("retry-count", .int32 ((n : Int) + 1))],
            MessageId := m.MailLogID.Hex, Body := some (Marshal m) } := by
  obtain ⟨delay, hd1, -, hc⟩ :=
    consume_failure_lt s (handler i) d j m none now n e done hbody hdec hn hh h3
  refine ⟨delay, hd1, ?_⟩
  simp only [redeliver, hc, delayCopy_requeued s done _ hdone]
  rfl

theorem redeliver_ge (s : Service) (handler : Nat → MailMessage → Outcome × List Effect)
    (now : Time) (fuel i : Nat) (d : Delivery) (j : MessageJSON) (m : MailMessage) (n : Nat)
    (e : String) (done : List Effect)
    (hbody : d.Body = some j) (hdec : Unmarshal j = .ok m)
    (hn : Service.getRetryCount d.Headers = (n : Int))
    (hh : handler i m = (.error e, done)) (hdone : publishCalls done = []) (h3 : 3 ≤ n) :
    redeliver s handler now (fuel + 1) i d =
      [{ calls := done ++ [.nack false false], panic := none }] := by
  have hge : ¬ ((n : Int) < 3) := by omega
  have hc : s.consume (handler i) d none now =
      { calls := done ++ [.nack false false], panic := none } := by
    simp [Service.consume, hbody, hdec, hh, hn, hge]
  simp only [redeliver, hc, delayCopy_nacked s done hdone]

theorem getRetryCount_requeued (n : Int) :
    Service.getRetryCount (some [("retry-count", .int32 n)]) = n := by
  simp [Service.getRetryCount, List.lookup]

/-- Claim C8. With broker redelivery modelled by `redeliver`, for a message first delivered
without a retry-count header whose handler fails on every delivery (making no publish of its
own): given fuel for four deliveries or more, exactly four deliveries happen; the 1st, 2nd
and 3rd each add one publish to the delay queue, with retry-count 1, 2 and 3 and delays of 1,
5 and 15 minutes, followed by a nack without requeue; the 4th adds a nack without requeue and
nothing else. Hence, for any fuel, at most 3 publishes are made for the message. -/
theorem retry_budget_three_republishes (s : Service)
    (handler : Nat → MailMessage → Outcome × List Effect)
    (now : Time) (d : Delivery) (j : MessageJSON) (m : MailMessage)
    (err : Nat → String) (done : Nat → List Effect)
    (hbody : d.Body = some j) (hdec : Unmarshal j = .ok m)
    (hfirst : d.Headers = none ∨ ∃ t, d.Headers = some t ∧ t.lookup "retry-count" = none)
    (hfail : ∀ i, handler i m = (.error (err i), done i))
    (hdone : ∀ i, publishCalls (done i) = []) :
    (∀ k, redeliver s handler now (k + 4) 0 d =
      [{ calls := done 0 ++ [.publish "" (s.queueName ++ ".delay")
            (delayPublishing m (1 * Minute) 0 now) none, .nack false false], panic := none },
       { calls := done 1 ++ [.publish "" (s.queueName ++ ".delay")
            (delayPublishing m (5 * Minute) 1 now) none, .nack false false], panic := none },
       { calls := done 2 ++ [.publish "" (s.queueName ++ ".delay")
            (delayPublishing m (15 * Minute) 2 now) none, .nack false false], panic := none },
       { calls := done 3 ++ [.nack false false], panic := none }]) ∧
    (delayPublishing m (1 * Minute) 0 now).Headers = some [("retry-count", .int32 1)] ∧
    (delayPublishing m (5 * Minute) 1 now).Headers = some [("retry-count", .int32 2)] ∧
    (delayPublishing m (15 * Minute) 2 now).Headers = some [("retry-count", .int32 3)] ∧
    (∀ fuel,
      (publishCalls ((redeliver s handler now fuel 0 d).flatMap (·.calls))).length ≤ 3) := by
  have h0 : Service.getRetryCount d.Headers = ((0 : Nat) : Int) := by
    rcases hfirst with h | ⟨t, h, ht⟩
    · rw [h]; rfl
    · rw [h]; simp [Service.getRetryCount, ht]
  have hrt := Unmarshal_Marshal_decoded j m hdec
  have step0 : ∀ fuel, redeliver s handler now (fuel + 1) 0 d =
      { calls := done 0 ++ [.publish "" (s.queueName ++ ".delay")
            (delayPublishing m (1 * Minute) 0 now) none, .nack false false], panic := none } ::
      redeliver s handler now fuel 1
        { Headers := some [("retry-count", .int32 1)],
          MessageId := m.MailLogID.Hex, Body := some (Marshal m) } := by
    intro fuel
    obtain ⟨delay, hd, hr⟩ := redeliver_lt s handler now fuel 0 d j m 0 (err 0) (done 0)
      hbody hdec h0 (hfail 0) (hdone 0) (by omega)
    simp [delays] at hd
    subst hd
    simpa using hr
  have step1 : ∀ fuel, redeliver s handler now (fuel + 1) 1
        { Headers := some [("retry-count", .int32 1)],
          MessageId := m.MailLogID.Hex, Body := some (Marshal m) } =
      { calls := done 1 ++ [.publish "" (s.queueName ++ ".delay")
            (delayPublishing m (5 * Minute) 1 now) none, .nack false false], panic := none } ::
      redeliver s handler now fuel 2
        { Headers := some [("retry-count", .int32 2)],
          MessageId := m.MailLogID.Hex, Body := some (Marshal m) } := by
    intro fuel
    obtain ⟨delay, hd, hr⟩ := redeliver_lt s handler now fuel 1
      { Headers := some [("retry-count", .int32 1)],
        MessageId := m.MailLogID.Hex, Body := some (Marshal m) } (Marshal m) m 1 (err 1)
      (done 1) rfl hrt (getRetryCount_requeued 1) (hfail 1) (hdone 1) (by omega)
    simp [delays] at hd
    subst hd
    simpa using hr
  have step2 : ∀ fuel, redeliver s handler now (fuel + 1) 2
        { Headers := some [("retry-count", .int32 2)],
          MessageId := m.MailLogID.Hex, Body := some (Marshal m) } =
      { calls := done 2 ++ [.publish "" (s.queueName ++ ".delay")
            (delayPublishing m (15 * Minute) 2 now) none, .nack false false], panic := none } ::
      redeliver s handler now fuel 3
        { Headers := some [("retry-count", .int32 3)],
          MessageId := m.MailLogID.Hex, Body := some (Marshal m) } := by
    intro fuel
    obtain ⟨delay, hd, hr⟩ := redeliver_lt s handler now fuel 2
      { Headers := some [("retry-count", .int32 2)],
        MessageId := m.MailLogID.Hex, Body := some (Marshal m) } (Marshal m) m 2 (err 2)
      (done 2) rfl hrt (getRetryCount_requeued 2) (hfail 2) (hdone 2) (by omega)
    simp [delays] at hd
    subst hd
    simpa using hr
  have step3 : ∀ fuel, redeliver s handler now (fuel + 1) 3
        { Headers := some [("retry-count", .int32 3)],
          MessageId := m.MailLogID.Hex, Body := some (Marshal m) } =
      [{ calls := done 3 ++ [.nack false false], panic := none }] := by
    intro fuel
    exact redeliver_ge s handler now fuel 3
      { Headers := some [("retry-count", .int32 3)],
        MessageId := m.MailLogID.Hex, Body := some (Marshal m) } (Marshal m) m 3 (err 3) (done 3)
      rfl hrt (getRetryCount_requeued 3) (hfail 3) (hdone 3) (by omega)
  refine ⟨?_, ?_, ?_, ?_, ?_⟩
  · intro k
    rw [show k + 4 = (k + 3) + 1 from rfl, step0, show k + 3 = (k + 2) + 1 from rfl, step1,
      show k + 2 = (k + 1) + 1 from rfl, step2, step3]
  · simp [delayPublishing]
  · simp [delayPublishing]
  · simp [delayPublishing]
  · intro fuel
    rcases fuel with _ | _ | _ | _ | k
    · simp [redeliver, publishCalls]
    · rw [step0]; simp [redeliver, publishCalls_append, hdone, publishCalls]
    · rw [step0, step1]; simp [redeliver, publishCalls_append, hdone, publishCalls]
    · rw [step0, step1, step2]; simp [redeliver, publishCalls_append, hdone, publishCalls]
    · rw [step0, step1, step2, step3]; simp [publishCalls_append, hdone, publishCalls]

theorem retry_budget_three_republishes_witness :
    (exampleFirstDelivery.Body = some (Marshal exampleMessage) ∧
      exampleFirstDelivery.Headers = none) ∧
    (redeliver exampleQueue (fun _ => exampleHandler) 0 4 0 exampleFirstDelivery).map
        (fun it => (publishCalls it.calls).length) = [1, 1, 1, 0] ∧
    (publishCalls ((redeliver exampleQueue (fun _ => exampleHandler) 0 9 0
      exampleFirstDelivery).flatMap (·.calls))).length ≤ 3 := by
  have h := retry_budget_three_republishes exampleQueue (fun _ => exampleHandler) 0
    exampleFirstDelivery (Marshal exampleMessage) exampleMessage
    (fun _ => "421 try again later") (fun _ => []) rfl exampleMessage_round_trip
    (Or.inl rfl) (fun _ => rfl) (fun _ => rfl)
  refine ⟨⟨rfl, rfl⟩, ?_, h.2.2.2.2 9⟩
  rw [h.1 0]
  simp [publishCalls]

/-! ## Queue adapter: the priority rule -/

theorem clampedPriority_range (s n : Int) :
    0 ≤ clampedPriority s n ∧ clampedPriority s n ≤ 9 := by
  unfold clampedPriority
  simp only
  split_ifs <;> simp

/-- Claim C11. For every mail-log of byte size `s` with `n` recipients, `calculatePriority`
equals `clamp(5 + a + b, 0, 9)` with `a = 1` if `s < 1048576`, `a = -1` if `s > 10485760`,
`a = 0` otherwise, and `b = 1` if `n = 1`, `b = -1` if `n > 10`, `b = 0` otherwise; and once
the store has answered the insert, `EnqueueMail` publishes one message whose JSON body
decodes to a message with that priority, under that AMQP priority. -/
theorem priority_is_clamped_sum (mailLog : MailLog) :
    Service.calculatePriority mailLog =
      clampedPriority mailLog.Size (mailLog.To.length : Int) ∧
    (∀ (queue : Service) (body : Bytes) (id : ObjectID) (publishAnswer : Option String)
        (now : Time),
      ∃ p m,
        (queue.EnqueueMail mailLog body (.ok id) publishAnswer now).2 =
          [.insertMailLog mailLog (.ok id),
           .publish queue.exchangeName queue.routingKey p publishAnswer] ∧
        Unmarshal p.Body = .ok m ∧
        m.Priority = clampedPriority mailLog.Size (mailLog.To.length : Int) ∧
        (p.Priority : Int) = clampedPriority mailLog.Size (mailLog.To.length : Int)) := by
  have hcalc : ∀ l : MailLog, Service.calculatePriority l =
      clampedPriority l.Size (l.To.length : Int) := by
    intro l
    unfold Service.calculatePriority clampedPriority
    simp only
    have h1 : ((l.To.length : Int) = 1) ↔ l.To.length = 1 := by omega
    have h2 : ((l.To.length : Int) > 10) ↔ l.To.length > 10 := by omega
    simp only [h1, h2]
    split_ifs <;> simp <;> omega
  refine ⟨hcalc mailLog, ?_⟩
  intro queue body id publishAnswer now
  have hrange := clampedPriority_range mailLog.Size (mailLog.To.length : Int)
  have hself := hcalc { mailLog with ID := id }
  simp only at hself
  have hu : ((toUint8 (Service.calculatePriority { mailLog with ID := id }) : Nat) : Int) =
      Service.calculatePriority { mailLog with ID := id } := by
    rw [hself]
    unfold toUint8
    omega
  cases publishAnswer <;>
    exact ⟨_, _, rfl, Unmarshal_Marshal _, hself, by rw [← hself]; exact hu⟩


/-! ## Worker: classification of errors -/

theorem containsChars_iff (sub l : List Char) : containsChars sub l = true ↔ sub <:+: l := by
  induction l with
  | nil => simp [containsChars, List.isPrefixOf_iff_prefix]
  | cons c cs ih =>
    simp only [containsChars, Bool.or_eq_true, ih, List.isPrefixOf_iff_prefix]
    exact (List.infix_cons_iff).symm

theorem Contains_iff (s sub : String) : Contains s sub = true ↔ sub.data <:+: s.data :=
  containsChars_iff _ _

/-- Claim C12 at a failing input. The text `550 5.4.1 recipient address rejected`, a
permanent reply, contains none of the seven phrases and does not begin with `4.`, lowercased
or not, so the claim classifies it permanent; `isTemporaryError` returns true for it, because
`4.` occurs inside its enhanced status code. The entry `4.` is searched anywhere in the text,
although its comment says it stands for the 4xx reply codes. -/
theorem enhanced_code_inside_text_is_temporary :
    Processor.isTemporaryError "550 5.4.1 recipient address rejected" = true ∧
    HasPrefix (ToLower "550 5.4.1 recipient address rejected") "4." = false ∧
    (∀ t ∈ ["connection refused", "connection timeout", "temporary failure",
            "try again later", "service unavailable", "too many connections", "rate limit"],
      Contains (ToLower "550 5.4.1 recipient address rejected") t = false) := by
  decide

/-- What `isTemporaryError` computes: it returns true if and only if the lowercased text
contains one of the eight entries of its list, `4.` among them, each anywhere in the text. -/
theorem isTemporaryError_iff_contains (errStr : String) :
    (Processor.isTemporaryError errStr = true ↔
      ∃ t ∈ ["connection refused", "connection timeout", "temporary failure",
             "try again later", "service unavailable", "too many connections", "rate limit",
             "4."], t.data <:+: (ToLower errStr).data) ∧
    (Processor.isTemporaryError errStr = false ↔
      ∀ t ∈ ["connection refused", "connection timeout", "temporary failure",
             "try again later", "service unavailable", "too many connections", "rate limit",
             "4."], ¬ t.data <:+: (ToLower errStr).data) ∧
    (HasPrefix (ToLower errStr) "4." = true → Processor.isTemporaryError errStr = true) := by
  have h1 : Processor.isTemporaryError errStr = true ↔
      ∃ t ∈ ["connection refused", "connection timeout", "temporary failure",
             "try again later", "service unavailable", "too many connections", "rate limit",
             "4."], t.data <:+: (ToLower errStr).data := by
    unfold Processor.isTemporaryError temporaryErrors
    rw [List.any_eq_true]
    constructor
    · rintro ⟨t, ht, hc⟩
      exact ⟨t, ht, (Contains_iff _ _).mp hc⟩
    · rintro ⟨t, ht, hc⟩
      exact ⟨t, ht, (Contains_iff _ _).mpr hc⟩
  refine ⟨h1, ?_, ?_⟩
  · rw [← Bool.not_eq_true, h1]
    push_neg
    rfl
  · intro hp
    rw [h1]
    refine ⟨"4.", by simp, ?_⟩
    have : "4.".data <+: (ToLower errStr).data := by
      unfold HasPrefix at hp
      exact List.isPrefixOf_iff_prefix.mp hp
    exact this.isInfix

/-! ## Worker: what a trace contains -/

theorem updateCalls_append (a b : List Effect) :
    updateCalls (a ++ b) = updateCalls a ++ updateCalls b := by
  induction a with
  | nil => rfl
  | cons e rest ih => cases e <;> simp [updateCalls, ih]

theorem sendAttempts_append (a b : List Effect) :
    sendAttempts (a ++ b) = sendAttempts a + sendAttempts b := by
  induction a with
  | nil => simp [sendAttempts]
  | cons e rest ih =>
    cases e with
    | smtp call answer => cases call <;> simp [sendAttempts, ih]; omega
    | _ => simp [sendAttempts, ih]

theorem after_append (r : MailLog) (a b : List Effect) :
    r.after (a ++ b) = (r.after a).after b := by
  induction a generalizing r with
  | nil => rfl
  | cons e rest ih =>
    cases e with
    | updateOne id set answer =>
      cases answer with
      | none =>
        by_cases h : r.ID = id <;> simp [MailLog.after, h, ih]
      | some x => simp [MailLog.after, ih]
    | _ => simp [MailLog.after, ih]

theorem after_of_updateCalls_nil (r : MailLog) (t : List Effect) (h : updateCalls t = []) :
    r.after t = r := by
  induction t with
  | nil => rfl
  | cons e rest ih =>
    cases e with
    | updateOne id set answer => simp [updateCalls] at h
    | _ => simp [updateCalls] at h; simp [MailLog.after, ih h]

theorem after_ID (r : MailLog) (t : List Effect) : (r.after t).ID = r.ID := by
  induction t generalizing r with
  | nil => rfl
  | cons e rest ih =>
    cases e with
    | updateOne id set answer =>
      cases answer with
      | none =>
        by_cases h : r.ID = id
        · simp only [MailLog.after, h, if_true]
          rw [ih]
          simp [MailLog.patch, h]
        · simp [MailLog.after, h, ih]
      | some x => simp [MailLog.after, ih]
    | _ => simp [MailLog.after, ih]

theorem connect_trace (config : SMTPConfig) (addr : String) (up : UpstreamAnswers) :
    updateCalls (Processor.connect config addr up).2 = [] ∧
      sendAttempts (Processor.connect config addr up).2 = 1 := by
  unfold Processor.connect
  cases up.dial <;> cases up.startTLS <;> simp [updateCalls, sendAttempts] <;>
    split_ifs <;> simp [updateCalls, sendAttempts]

theorem sendRcpts_trace (answer : String → Option String) (rs : List String) :
    updateCalls (Processor.sendRcpts answer rs).2 = [] ∧
      sendAttempts (Processor.sendRcpts answer rs).2 = 0 := by
  induction rs with
  | nil => exact ⟨rfl, rfl⟩
  | cons r rest ih =>
    simp only [Processor.sendRcpts]
    cases answer r <;> simp [updateCalls, sendAttempts, ih]

/-- One `sendMail` makes no store call and dials exactly once. -/
theorem sendMail_trace (config : SMTPConfig) (message : MailMessage) (up : UpstreamAnswers) :
    updateCalls (Processor.sendMail config message up).2 = [] ∧
      sendAttempts (Processor.sendMail config message up).2 = 1 := by
  have hc := connect_trace config (config.Host ++ ":" ++ toString config.Port) up
  have hr := sendRcpts_trace up.rcpt message.To
  unfold Processor.sendMail
  simp only
  rcases h1 : Processor.connect config (config.Host ++ ":" ++ toString config.Port) up with
    ⟨cerr, ccalls⟩
  rcases h2 : Processor.sendRcpts up.rcpt message.To with ⟨rerr, rcalls⟩
  rw [h1] at hc
  rw [h2] at hr
  simp only at hc hr
  obtain ⟨hc1, hc2⟩ := hc
  obtain ⟨hr1, hr2⟩ := hr
  by_cases hauth : config.Username ≠ "" ∧ config.Password ≠ ""
  · rw [if_pos hauth]
    cases ha : up.auth
    all_goals simp only []
    all_goals repeat' split
    all_goals (try simp only [Prod.mk.injEq] at *)
    all_goals
      simp_all [updateCalls_append, sendAttempts_append, updateCalls, sendAttempts]
  · rw [if_neg hauth]
    simp only []
    repeat' split
    all_goals (try simp only [Prod.mk.injEq] at *)
    all_goals
      simp_all [updateCalls_append, sendAttempts_append, updateCalls, sendAttempts]

/-- The text of an error returned by `sendMail` is not empty. -/
theorem sendMail_error_ne_empty (config : SMTPConfig) (message : MailMessage)
    (up : UpstreamAnswers) (e : String)
    (h : (Processor.sendMail config message up).1 = .error e) : e ≠ "" := by
  have key : ∀ (a b : String), a ≠ "" → a ++ b ≠ "" := by
    intro a b ha hab
    apply ha
    have h : (a ++ b).data = [] := by rw [hab]
    rw [String.data_append] at h
    exact String.ext (by rw [(List.append_eq_nil.mp h).1])
  unfold Processor.sendMail at h
  simp only at h
  repeat' split at h
  all_goals first
    | (simp only [Outcome.error.injEq] at h
       subst h
       try simp only [String.append_assoc]
       exact key _ _ (by decide))
    | simp at h



theorem sendMail_outcome (config : SMTPConfig) (message : MailMessage) (up : UpstreamAnswers) :
    (Processor.sendMail config message up).1 = .ok ∨
      ∃ e, (Processor.sendMail config message up).1 = .error e := by
  unfold Processor.sendMail
  simp only
  repeat' split
  all_goals simp

theorem sendLoop_exit (env : WorkerAnswers) (config : SMTPConfig) (message : MailMessage)
    (fuel : Nat) (e : String) :
    Processor.sendLoop env config message (fuel + 1) 3 (some e) =
      some (.error e, (Processor.updateMailStatus env message.MailLogID "failed" e 3).2) := by
  simp [Processor.sendLoop]

theorem sendLoop_ok (env : WorkerAnswers) (config : SMTPConfig) (message : MailMessage)
    (fuel : Nat) (a b : Int) (last : Option String) (ha : a < 3) (hb : a + 1 = b)
    (h : (Processor.sendMail config message (env.upstream b)).1 = .ok) :
    Processor.sendLoop env config message (fuel + 1) a last =
      some (.ok, attemptCalls env config message b ++
        (Processor.updateMailStatusWithCompletion env message.MailLogID "sent" "" b
          (some env.completedAt)).2) := by
  subst hb
  rcases hs : Processor.sendMail config message (env.upstream (a + 1)) with ⟨o, sent⟩
  rw [hs] at h
  simp only at h
  subst h
  simp [Processor.sendLoop, ha, hs, attemptCalls]

theorem sendLoop_error (env : WorkerAnswers) (config : SMTPConfig) (message : MailMessage)
    (fuel : Nat) (a b : Int) (last : Option String) (e : String) (ha : a < 3) (hb : a + 1 = b)
    (h : (Processor.sendMail config message (env.upstream b)).1 = .error e) :
    Processor.sendLoop env config message (fuel + 1) a last =
      (Processor.sendLoop env config message fuel b (some e)).map
        (fun r => (r.1, attemptCalls env config message b ++ pauseAfter e b ++ r.2)) := by
  subst hb
  rcases hs : Processor.sendMail config message (env.upstream (a + 1)) with ⟨o, sent⟩
  rw [hs] at h
  simp only at h
  subst h
  simp only [Processor.sendLoop, ha, if_true, hs, attemptCalls, pauseAfter]
  split_ifs <;> simp

/-- The four ways the loop of `processMessage` ends. -/
theorem sendLoop_cases (env : WorkerAnswers) (config : SMTPConfig) (message : MailMessage)
    (n : Nat) :
    ((Processor.sendMail config message (env.upstream 1)).1 = .ok ∧
      Processor.sendLoop env config message (n + 4) 0 none =
        some (.ok, attemptCalls env config message 1 ++
          (Processor.updateMailStatusWithCompletion env message.MailLogID "sent" "" 1
            (some env.completedAt)).2)) ∨
    (∃ e1, (Processor.sendMail config message (env.upstream 1)).1 = .error e1 ∧
      (Processor.sendMail config message (env.upstream 2)).1 = .ok ∧
      Processor.sendLoop env config message (n + 4) 0 none =
        some (.ok, attemptCalls env config message 1 ++ pauseAfter e1 1 ++
          (attemptCalls env config message 2 ++
          (Processor.updateMailStatusWithCompletion env message.MailLogID "sent" "" 2
            (some env.completedAt)).2))) ∨
    (∃ e1 e2, (Processor.sendMail config message (env.upstream 1)).1 = .error e1 ∧
      (Processor.sendMail config message (env.upstream 2)).1 = .error e2 ∧
      (Processor.sendMail config message (env.upstream 3)).1 = .ok ∧
      Processor.sendLoop env config message (n + 4) 0 none =
        some (.ok, attemptCalls env config message 1 ++ pauseAfter e1 1 ++
          (attemptCalls env config message 2 ++ pauseAfter e2 2 ++
          (attemptCalls env config message 3 ++
          (Processor.updateMailStatusWithCompletion env message.MailLogID "sent" "" 3
            (some env.completedAt)).2)))) ∨
    (∃ e1 e2 e3, (Processor.sendMail config message (env.upstream 1)).1 = .error e1 ∧
      (Processor.sendMail config message (env.upstream 2)).1 = .error e2 ∧
      (Processor.sendMail config message (env.upstream 3)).1 = .error e3 ∧
      Processor.sendLoop env config message (n + 4) 0 none =
        some (.error e3, attemptCalls env config message 1 ++ pauseAfter e1 1 ++
          (attemptCalls env config message 2 ++ pauseAfter e2 2 ++
          (attemptCalls env config message 3 ++ pauseAfter e3 3 ++
          (Processor.updateMailStatus env message.MailLogID "failed" e3 3).2)))) := by
  rcases sendMail_outcome config message (env.upstream 1) with h1 | ⟨e1, h1⟩
  · left
    exact ⟨h1, sendLoop_ok env config message (n + 3) 0 1 none (by norm_num) (by norm_num) h1⟩
  right
  have s1 := sendLoop_error env config message (n + 3) 0 1 none e1 (by norm_num)
    (by norm_num) h1
  rcases sendMail_outcome config message (env.upstream 2) with h2 | ⟨e2, h2⟩
  · left
    refine ⟨e1, h1, h2, ?_⟩
    have s2 := sendLoop_ok env config message (n + 2) 1 2 (some e1) (by norm_num)
      (by norm_num) h2
    rw [s1, s2]
    simp
  right
  have s2 := sendLoop_error env config message (n + 2) 1 2 (some e1) e2 (by norm_num)
    (by norm_num) h2
  rcases sendMail_outcome config message (env.upstream 3) with h3 | ⟨e3, h3⟩
  · left
    refine ⟨e1, e2, h1, h2, h3, ?_⟩
    have s3 := sendLoop_ok env config message (n + 1) 2 3 (some e2) (by norm_num)
      (by norm_num) h3
    rw [s1, s2, s3]
    simp
  right
  refine ⟨e1, e2, e3, h1, h2, h3, ?_⟩
  have s3 := sendLoop_error env config message (n + 1) 2 3 (some e2) e3
    (by norm_num) (by norm_num) h3
  have s4 := sendLoop_exit env config message n e3
  rw [s1, s2, s3, s4]
  simp

/-! ## The handler: the shape of its trace -/

theorem firstActive_none (pool : List SMTPConfig) :
    firstActive pool = none ↔ ∀ c ∈ pool, c.Active = false := by
  induction pool with
  | nil => simp [firstActive]
  | cons c rest ih =>
    by_cases h : c.Active = true
    · simp [firstActive, h]
    · simp [firstActive, h, ih]

theorem firstActive_some (pool : List SMTPConfig) (c : SMTPConfig)
    (h : firstActive pool = some c) :
    ∃ pre post, pool = pre ++ c :: post ∧ c.Active = true ∧ ∀ x ∈ pre, x.Active = false := by
  induction pool with
  | nil => simp [firstActive] at h
  | cons d rest ih =>
    by_cases hd : d.Active = true
    · simp only [firstActive, hd, if_true, Option.some.injEq] at h
      subst h
      exact ⟨[], rest, rfl, hd, by simp⟩
    · simp only [firstActive, hd] at h
      obtain ⟨pre, post, h1, h2, h3⟩ := ih (by simpa using h)
      refine ⟨d :: pre, post, by simp [h1], h2, ?_⟩
      intro x hx
      rcases List.mem_cons.mp hx with rfl | hx
      · simpa using hd
      · exact h3 x hx

/-- Enough fuel: the loop of `processMessage` ends within four tests of its condition, and
more fuel does not change its result. -/
theorem sendLoop_fuel (env : WorkerAnswers) (config : SMTPConfig) (message : MailMessage)
    (n : Nat) :
    (Processor.sendLoop env config message 4 0 none).isSome = true ∧
    Processor.sendLoop env config message (n + 4) 0 none =
      Processor.sendLoop env config message 4 0 none := by
  have h0 := sendLoop_cases env config message 0
  have hn := sendLoop_cases env config message n
  simp only [Nat.zero_add] at h0
  rcases h0 with ⟨a1, a2⟩ | ⟨e1, a1, a2, a3⟩ | ⟨e1, e2, a1, a2, a3, a4⟩ |
    ⟨e1, e2, e3, a1, a2, a3, a4⟩ <;>
  rcases hn with ⟨b1, b2⟩ | ⟨f1, b1, b2, b3⟩ | ⟨f1, f2, b1, b2, b3, b4⟩ |
    ⟨f1, f2, f3, b1, b2, b3, b4⟩ <;>
  simp_all

/-- The three ways `processMessage` runs: the first write is refused; no relay is active; or
the loop runs with the selected relay. -/
theorem processMessage_shape (p : Processor) (message : MailMessage) (env : WorkerAnswers) :
    (∃ e, env.update "sending" 0 = some e ∧
      p.processMessage message env =
        (.error e, (Processor.updateMailStatus env message.MailLogID "sending" "" 0).2)) ∨
    (env.update "sending" 0 = none ∧ p.selectSMTPServer = none ∧
      p.processMessage message env =
        (.error "没有可用的SMTP服务器",
          (Processor.updateMailStatus env message.MailLogID "sending" "" 0).2 ++
          (Processor.updateMailStatus env message.MailLogID "failed"
            "没有可用的SMTP服务器" 0).2)) ∨
    (env.update "sending" 0 = none ∧ ∃ config outcome more,
      p.selectSMTPServer = some config ∧
      Processor.sendLoop env config message 4 0 none = some (outcome, more) ∧
      p.processMessage message env =
        (outcome, (Processor.updateMailStatus env message.MailLogID "sending" "" 0).2 ++
          more)) := by
  cases h0 : env.update "sending" 0 with
  | some e =>
    left
    exact ⟨e, rfl, by simp [Processor.processMessage, Processor.updateMailStatus, h0]⟩
  | none =>
    right
    cases hsel : p.selectSMTPServer with
    | none =>
      left
      exact ⟨rfl, rfl, by simp [Processor.processMessage, Processor.updateMailStatus, h0, hsel]⟩
    | some config =>
      right
      have hf := (sendLoop_fuel env config message 0).1
      rcases hl : Processor.sendLoop env config message 4 0 none with _ | ⟨outcome, more⟩
      · rw [hl] at hf
        simp at hf
      · exact ⟨rfl, config, outcome, more, rfl, hl,
          by simp [Processor.processMessage, Processor.updateMailStatus, h0, hsel, hl]⟩

/-- With the first write answered and a relay selected, `processMessage` ends in one of four
ways: the first, second or third attempt succeeds, or all three fail. -/
theorem processMessage_loop_cases (p : Processor) (message : MailMessage) (env : WorkerAnswers)
    (config : SMTPConfig) (h0 : env.update "sending" 0 = none)
    (hsel : p.selectSMTPServer = some config) :
    ((Processor.sendMail config message (env.upstream 1)).1 = .ok ∧
      p.processMessage message env =
        (.ok, (Processor.updateMailStatus env message.MailLogID "sending" "" 0).2 ++
          (attemptCalls env config message 1 ++
          (Processor.updateMailStatusWithCompletion env message.MailLogID "sent" "" 1
            (some env.completedAt)).2))) ∨
    (∃ e1, (Processor.sendMail config message (env.upstream 1)).1 = .error e1 ∧
      (Processor.sendMail config message (env.upstream 2)).1 = .ok ∧
      p.processMessage message env =
        (.ok, (Processor.updateMailStatus env message.MailLogID "sending" "" 0).2 ++
          (attemptCalls env config message 1 ++ pauseAfter e1 1 ++
          (attemptCalls env config message 2 ++
          (Processor.updateMailStatusWithCompletion env message.MailLogID "sent" "" 2
            (some env.completedAt)).2)))) ∨
    (∃ e1 e2, (Processor.sendMail config message (env.upstream 1)).1 = .error e1 ∧
      (Processor.sendMail config message (env.upstream 2)).1 = .error e2 ∧
      (Processor.sendMail config message (env.upstream 3)).1 = .ok ∧
      p.processMessage message env =
        (.ok, (Processor.updateMailStatus env message.MailLogID "sending" "" 0).2 ++
          (attemptCalls env config message 1 ++ pauseAfter e1 1 ++
          (attemptCalls env config message 2 ++ pauseAfter e2 2 ++
          (attemptCalls env config message 3 ++
          (Processor.updateMailStatusWithCompletion env message.MailLogID "sent" "" 3
            (some env.completedAt)).2))))) ∨
    (∃ e1 e2 e3, (Processor.sendMail config message (env.upstream 1)).1 = .error e1 ∧
      (Processor.sendMail config message (env.upstream 2)).1 = .error e2 ∧
      (Processor.sendMail config message (env.upstream 3)).1 = .error e3 ∧
      p.processMessage message env =
        (.error e3, (Processor.updateMailStatus env message.MailLogID "sending" "" 0).2 ++
          (attemptCalls env config message 1 ++ pauseAfter e1 1 ++
          (attemptCalls env config message 2 ++ pauseAfter e2 2 ++
          (attemptCalls env config message 3 ++ pauseAfter e3 3 ++
          (Processor.updateMailStatus env message.MailLogID "failed" e3 3).2))))) := by
  rcases processMessage_shape p message env with ⟨e, he, -⟩ | ⟨-, hn, -⟩ |
    ⟨-, config2, outcome, more, hs, hl, hr⟩
  · rw [h0] at he
    simp at he
  · rw [hsel] at hn
    simp at hn
  · rw [hsel] at hs
    simp only [Option.some.injEq] at hs
    subst hs
    rcases sendLoop_cases env config message 0 with ⟨a1, a2⟩ | ⟨e1, a1, a2, a3⟩ |
      ⟨e1, e2, a1, a2, a3, a4⟩ | ⟨e1, e2, e3, a1, a2, a3, a4⟩
    · left
      simp only [Nat.zero_add] at a2
      rw [hl] at a2
      simp only [Option.some.injEq, Prod.mk.injEq] at a2
      exact ⟨a1, by rw [hr, a2.1, a2.2]⟩
    · right; left
      simp only [Nat.zero_add] at a3
      rw [hl] at a3
      simp only [Option.some.injEq, Prod.mk.injEq] at a3
      exact ⟨e1, a1, a2, by rw [hr, a3.1, a3.2]⟩
    · right; right; left
      simp only [Nat.zero_add] at a4
      rw [hl] at a4
      simp only [Option.some.injEq, Prod.mk.injEq] at a4
      exact ⟨e1, e2, a1, a2, a3, by rw [hr, a4.1, a4.2]⟩
    · right; right; right
      simp only [Nat.zero_add] at a4
      rw [hl] at a4
      simp only [Option.some.injEq, Prod.mk.injEq] at a4
      exact ⟨e1, e2, e3, a1, a2, a3, by rw [hr, a4.1, a4.2]⟩

/-! ### What the pieces of a trace contribute -/

theorem updateCalls_updateMailStatus (env : WorkerAnswers) (id : ObjectID)
    (status errorMessage : String) (k : Int) :
    updateCalls (Processor.updateMailStatus env id status errorMessage k).2 =
      [(id, { status := status, attempts := k, last_attempt := env.lastAttempt status k,
              error_message := if errorMessage ≠ "" then some errorMessage else none,
              completed_at := none })] := rfl

theorem updateCalls_updateMailStatusWithCompletion (env : WorkerAnswers) (id : ObjectID)
    (status errorMessage : String) (k : Int) (completedAt : Option Time) :
    updateCalls
        (Processor.updateMailStatusWithCompletion env id status errorMessage k completedAt).2 =
      [(id, { status := status, attempts := k, last_attempt := env.lastAttempt status k,
              error_message := if errorMessage ≠ "" then some errorMessage else none,
              completed_at := completedAt })] := rfl

theorem sendAttempts_updateMailStatus (env : WorkerAnswers) (id : ObjectID)
    (status errorMessage : String) (k : Int) :
    sendAttempts (Processor.updateMailStatus env id status errorMessage k).2 = 0 := rfl

theorem sendAttempts_updateMailStatusWithCompletion (env : WorkerAnswers) (id : ObjectID)
    (status errorMessage : String) (k : Int) (completedAt : Option Time) :
    sendAttempts
      (Processor.updateMailStatusWithCompletion env id status errorMessage k completedAt).2 =
      0 := rfl

theorem updateCalls_attemptCalls (env : WorkerAnswers) (config : SMTPConfig)
    (message : MailMessage) (k : Int) :
    updateCalls (attemptCalls env config message k) =
      [(message.MailLogID,
        { status := "sending", attempts := k, last_attempt := env.lastAttempt "sending" k,
          error_message := none, completed_at := none })] := by
  simp [attemptCalls, updateCalls_append, (sendMail_trace config message (env.upstream k)).1,
    updateCalls_updateMailStatus]

theorem sendAttempts_attemptCalls (env : WorkerAnswers) (config : SMTPConfig)
    (message : MailMessage) (k : Int) :
    sendAttempts (attemptCalls env config message k) = 1 := by
  simp [attemptCalls, sendAttempts_append, (sendMail_trace config message (env.upstream k)).2,
    sendAttempts_updateMailStatus]

theorem updateCalls_pauseAfter (e : String) (k : Int) : updateCalls (pauseAfter e k) = [] := by
  unfold pauseAfter
  split_ifs <;> rfl

theorem sendAttempts_pauseAfter (e : String) (k : Int) : sendAttempts (pauseAfter e k) = 0 := by
  unfold pauseAfter
  split_ifs <;> rfl

theorem after_pauseAfter (r : MailLog) (e : String) (k : Int) :
    r.after (pauseAfter e k) = r :=
  after_of_updateCalls_nil r _ (updateCalls_pauseAfter e k)

theorem after_updateMailStatus (r : MailLog) (env : WorkerAnswers)
    (status errorMessage : String) (k : Int) (h : env.update status k = none) :
    r.after (Processor.updateMailStatus env r.ID status errorMessage k).2 =
      r.patch { status := status, attempts := k, last_attempt := env.lastAttempt status k,
                error_message := if errorMessage ≠ "" then some errorMessage else none,
                completed_at := none } := by
  simp [Processor.updateMailStatus, MailLog.after, h]

theorem after_updateMailStatusWithCompletion (r : MailLog) (env : WorkerAnswers)
    (status errorMessage : String) (k : Int) (completedAt : Option Time)
    (h : env.update status k = none) :
    r.after
        (Processor.updateMailStatusWithCompletion env r.ID status errorMessage k
          completedAt).2 =
      r.patch { status := status, attempts := k, last_attempt := env.lastAttempt status k,
                error_message := if errorMessage ≠ "" then some errorMessage else none,
                completed_at := completedAt } := by
  simp [Processor.updateMailStatusWithCompletion, MailLog.after, h]

theorem after_attemptCalls (r : MailLog) (env : WorkerAnswers) (config : SMTPConfig)
    (message : MailMessage) (k : Int) (hid : r.ID = message.MailLogID)
    (h : env.update "sending" k = none) :
    r.after (attemptCalls env config message k) =
      r.patch { status := "sending", attempts := k,
                last_attempt := env.lastAttempt "sending" k,
                error_message := none, completed_at := none } := by
  unfold attemptCalls
  rw [after_append, ← hid, after_updateMailStatus r env "sending" "" k h,
    after_of_updateCalls_nil _ _ (sendMail_trace config message (env.upstream k)).1]
  simp

theorem patch_ID (r : MailLog) (set : MailLogPatch) : (r.patch set).ID = r.ID := rfl

/-- If the attempts values written by a trace are non-decreasing in call order and none is
below the value of a record, then no call of the trace lowers the attempts of the record. -/
theorem after_attempts_mono (pre : List Effect) :
    ∀ (t : List Effect) (r : MailLog) (e : Effect) (post : List Effect),
      t = pre ++ e :: post →
      List.Pairwise (· ≤ ·) ((updateCalls t).map (fun w => w.2.attempts)) →
      (∀ w ∈ updateCalls t, r.Attempts ≤ w.2.attempts) →
      (r.after pre).Attempts ≤ (r.after (pre ++ [e])).Attempts := by
  induction pre with
  | nil =>
    intro t r e post ht _ hb
    subst ht
    cases e with
    | updateOne id set answer =>
      cases answer with
      | none =>
        by_cases h : r.ID = id
        · have := hb (id, set) (by simp [updateCalls])
          simpa [MailLog.after, h, MailLog.patch] using this
        · simp [MailLog.after, h]
      | some x => simp [MailLog.after]
    | _ => simp [MailLog.after]
  | cons x pre ih =>
    intro t r e post ht hp hb
    subst ht
    cases x with
    | updateOne id set answer =>
      simp only [List.cons_append, updateCalls, List.map_cons, List.pairwise_cons] at hp
      have hb2 : ∀ w ∈ updateCalls (pre ++ e :: post), r.Attempts ≤ w.2.attempts := by
        intro w hw
        exact hb w (by simp [updateCalls, hw])
      cases answer with
      | none =>
        by_cases h : r.ID = id
        · have := ih (pre ++ e :: post) (r.patch set) e post rfl hp.2 (by
            intro w hw
            exact hp.1 w.2.attempts (List.mem_map_of_mem _ hw))
          simpa [MailLog.after, h] using this
        · have := ih (pre ++ e :: post) r e post rfl hp.2 hb2
          simpa [MailLog.after, h] using this
      | some y =>
        have := ih (pre ++ e :: post) r e post rfl hp.2 hb2
        simpa [MailLog.after] using this
    | _ =>
      have := ih (pre ++ e :: post) r e post rfl (by simpa [updateCalls] using hp)
        (by simpa [updateCalls] using hb)
      simpa [MailLog.after] using this

/-- The writes of one invocation, in order: their attempts values start at 0 and never go
down, and all of them address the mail-log of the message. -/
theorem writes_of_invocation (p : Processor) (message : MailMessage) (env : WorkerAnswers) :
    List.Pairwise (· ≤ ·)
      ((updateCalls (p.processMessage message env).2).map (fun w => w.2.attempts)) ∧
    (∀ w ∈ updateCalls (p.processMessage message env).2,
      0 ≤ w.2.attempts ∧ w.1 = message.MailLogID) ∧
    ∃ rest, (p.processMessage message env).2 =
      .updateOne message.MailLogID
        { status := "sending", attempts := 0, last_attempt := env.lastAttempt "sending" 0,
          error_message := none, completed_at := none } (env.update "sending" 0) :: rest := by
  rcases processMessage_shape p message env with ⟨e, he, hr⟩ | ⟨h0, -, hr⟩ |
    ⟨h0, config, outcome, more, hs, -, -⟩
  · rw [hr]
    simp [updateCalls, Processor.updateMailStatus]
  · rw [hr]
    simp [updateCalls, Processor.updateMailStatus]
  · rcases processMessage_loop_cases p message env config h0 hs with ⟨a1, hr⟩ |
      ⟨f1, a1, a2, hr⟩ | ⟨f1, f2, a1, a2, a3, hr⟩ | ⟨f1, f2, f3, a1, a2, a3, hr⟩
    all_goals
      rw [hr]
      refine ⟨?_, ?_, ?_⟩
      · simp [updateCalls_append, updateCalls_updateMailStatus, updateCalls_attemptCalls,
          updateCalls_updateMailStatusWithCompletion, updateCalls_pauseAfter]
      · simp [updateCalls_append, updateCalls_updateMailStatus, updateCalls_attemptCalls,
          updateCalls_updateMailStatusWithCompletion, updateCalls_pauseAfter]
      · simp [Processor.updateMailStatus]

theorem after_CompletedAt (t : List Effect) :
    ∀ r : MailLog, (∀ w ∈ updateCalls t, w.2.completed_at = none) →
      (r.after t).CompletedAt = r.CompletedAt := by
  induction t with
  | nil => intro r _; rfl
  | cons e rest ih =>
    intro r h
    cases e with
    | updateOne id set answer =>
      have hset : set.completed_at = none := h (id, set) (by simp [updateCalls])
      have hrest : ∀ w ∈ updateCalls rest, w.2.completed_at = none :=
        fun w hw => h w (by simp [updateCalls, hw])
      cases answer with
      | none =>
        by_cases hid : r.ID = id
        · simp only [MailLog.after, hid, if_true]
          rw [ih _ hrest]
          simp [MailLog.patch, hset]
        · simp only [MailLog.after, hid, if_false]
          exact ih r hrest
      | some x =>
        simp only [MailLog.after]
        exact ih r hrest
    | _ =>
      simp only [MailLog.after]
      exact ih r (by simpa [updateCalls] using h)

/-- Once the first write is answered, the trace of `processMessage` is a run of calls whose
writes all set status `sending`, one at least, followed by one last write: status `sent`
with the completion time when `processMessage` returns nil, status `failed` without one when
it returns an error. -/
theorem invocation_ends_with_terminal_write (p : Processor) (message : MailMessage)
    (env : WorkerAnswers) (h0 : env.update "sending" 0 = none) :
    ∃ (pre : List Effect) (sendings : List MailLogPatch) (final : MailLogPatch),
      (p.processMessage message env).2 =
        pre ++ [.updateOne message.MailLogID final (env.update final.status final.attempts)] ∧
      updateCalls pre = sendings.map (fun w => (message.MailLogID, w)) ∧
      1 ≤ sendings.length ∧
      (∀ w ∈ sendings, w.status = "sending" ∧ w.completed_at = none) ∧
      ((final.status = "sent" ∧ final.completed_at = some env.completedAt ∧
          final.error_message = none ∧
          final.last_attempt = env.lastAttempt "sent" final.attempts ∧
          1 ≤ final.attempts ∧ final.attempts ≤ 3 ∧
          (p.processMessage message env).1 = .ok ∧
          ∃ config, p.selectSMTPServer = some config ∧
            (Processor.sendMail config message (env.upstream final.attempts)).1 = .ok) ∨
        (final.status = "failed" ∧ final.completed_at = none ∧
          ∃ e, (p.processMessage message env).1 = .error e)) := by
  rcases processMessage_shape p message env with ⟨e, he, hr⟩ | ⟨-, -, hr⟩ |
    ⟨-, config, outcome, more, hs, -, -⟩
  · rw [h0] at he
    simp at he
  · refine ⟨(Processor.updateMailStatus env message.MailLogID "sending" "" 0).2,
      [⟨"sending", 0, env.lastAttempt "sending" 0, none, none⟩],
      ⟨"failed", 0, env.lastAttempt "failed" 0, some "没有可用的SMTP服务器", none⟩,
      ?_, ?_, ?_, ?_, ?_⟩
    · rw [hr]; simp [Processor.updateMailStatus]
    · simp [updateCalls_updateMailStatus]
    · simp
    · simp
    · right
      exact ⟨rfl, rfl, _, by rw [hr]⟩
  · rcases processMessage_loop_cases p message env config h0 hs with ⟨a1, hr⟩ |
      ⟨f1, a1, a2, hr⟩ | ⟨f1, f2, a1, a2, a3, hr⟩ | ⟨f1, f2, f3, a1, a2, a3, hr⟩
    · refine ⟨(Processor.updateMailStatus env message.MailLogID "sending" "" 0).2 ++
          attemptCalls env config message 1,
        [⟨"sending", 0, env.lastAttempt "sending" 0, none, none⟩,
         ⟨"sending", 1, env.lastAttempt "sending" 1, none, none⟩],
        ⟨"sent", 1, env.lastAttempt "sent" 1, none, some env.completedAt⟩,
        ?_, ?_, ?_, ?_, ?_⟩
      · rw [hr]; simp [Processor.updateMailStatusWithCompletion]
      · simp [updateCalls_append, updateCalls_updateMailStatus, updateCalls_attemptCalls]
      · simp
      · simp
      · left
        exact ⟨rfl, rfl, rfl, rfl, by simp, by simp, by rw [hr], config, hs, a1⟩
    · refine ⟨(Processor.updateMailStatus env message.MailLogID "sending" "" 0).2 ++
          (attemptCalls env config message 1 ++ pauseAfter f1 1 ++
            attemptCalls env config message 2),
        [⟨"sending", 0, env.lastAttempt "sending" 0, none, none⟩,
         ⟨"sending", 1, env.lastAttempt "sending" 1, none, none⟩,
         ⟨"sending", 2, env.lastAttempt "sending" 2, none, none⟩],
        ⟨"sent", 2, env.lastAttempt "sent" 2, none, some env.completedAt⟩,
        ?_, ?_, ?_, ?_, ?_⟩
      · rw [hr]; simp [Processor.updateMailStatusWithCompletion]
      · simp [updateCalls_append, updateCalls_updateMailStatus, updateCalls_attemptCalls,
          updateCalls_pauseAfter]
      · simp
      · simp
      · left
        exact ⟨rfl, rfl, rfl, rfl, by simp, by simp, by rw [hr], config, hs, a2⟩
    · refine ⟨(Processor.updateMailStatus env message.MailLogID "sending" "" 0).2 ++
          (attemptCalls env config message 1 ++ pauseAfter f1 1 ++
            (attemptCalls env config message 2 ++ pauseAfter f2 2 ++
              attemptCalls env config message 3)),
        [⟨"sending", 0, env.lastAttempt "sending" 0, none, none⟩,
         ⟨"sending", 1, env.lastAttempt "sending" 1, none, none⟩,
         ⟨"sending", 2, env.lastAttempt "sending" 2, none, none⟩,
         ⟨"sending", 3, env.lastAttempt "sending" 3, none, none⟩],
        ⟨"sent", 3, env.lastAttempt "sent" 3, none, some env.completedAt⟩,
        ?_, ?_, ?_, ?_, ?_⟩
      · rw [hr]; simp [Processor.updateMailStatusWithCompletion]
      · simp [updateCalls_append, updateCalls_updateMailStatus, updateCalls_attemptCalls,
          updateCalls_pauseAfter]
      · simp
      · simp
      · left
        exact ⟨rfl, rfl, rfl, rfl, by simp, by simp, by rw [hr], config, hs, a3⟩
    · refine ⟨(Processor.updateMailStatus env message.MailLogID "sending" "" 0).2 ++
          (attemptCalls env config message 1 ++ pauseAfter f1 1 ++
            (attemptCalls env config message 2 ++ pauseAfter f2 2 ++
              (attemptCalls env config message 3 ++ pauseAfter f3 3))),
        [⟨"sending", 0, env.lastAttempt "sending" 0, none, none⟩,
         ⟨"sending", 1, env.lastAttempt "sending" 1, none, none⟩,
         ⟨"sending", 2, env.lastAttempt "sending" 2, none, none⟩,
         ⟨"sending", 3, env.lastAttempt "sending" 3, none, none⟩],
        ⟨"failed", 3, env.lastAttempt "failed" 3, if f3 ≠ "" then some f3 else none, none⟩,
        ?_, ?_, ?_, ?_, ?_⟩
      · rw [hr]; simp [Processor.updateMailStatus]
      · simp [updateCalls_append, updateCalls_updateMailStatus, updateCalls_attemptCalls,
          updateCalls_pauseAfter]
      · simp
      · simp
      · right
        exact ⟨rfl, rfl, _, by rw [hr]⟩

theorem ackCalls_append (a b : List Effect) :
    ackCalls (a ++ b) = ackCalls a + ackCalls b := by
  induction a with
  | nil => simp [ackCalls]
  | cons e rest ih => cases e <;> simp [ackCalls, ih]; omega

theorem ackCalls_pos_of_mem (multiple : Bool) (t : List Effect) (h : .ack multiple ∈ t) :
    1 ≤ ackCalls t := by
  induction t with
  | nil => simp at h
  | cons e rest ih =>
    rcases List.mem_cons.mp h with rfl | h
    · simp [ackCalls]
    · have := ih h
      cases e <;> simp [ackCalls] <;> omega

theorem ackCalls_connect (config : SMTPConfig) (addr : String) (up : UpstreamAnswers) :
    ackCalls (Processor.connect config addr up).2 = 0 := by
  unfold Processor.connect
  cases up.dial <;> cases up.startTLS <;> simp [ackCalls] <;> split_ifs <;> simp [ackCalls]

theorem ackCalls_sendRcpts (answer : String → Option String) (rs : List String) :
    ackCalls (Processor.sendRcpts answer rs).2 = 0 := by
  induction rs with
  | nil => rfl
  | cons r rest ih =>
    simp only [Processor.sendRcpts]
    cases answer r <;> simp [ackCalls, ih]

theorem ackCalls_sendMail (config : SMTPConfig) (message : MailMessage) (up : UpstreamAnswers) :
    ackCalls (Processor.sendMail config message up).2 = 0 := by
  have hc := ackCalls_connect config (config.Host ++ ":" ++ toString config.Port) up
  have hr := ackCalls_sendRcpts up.rcpt message.To
  unfold Processor.sendMail
  simp only
  rcases h1 : Processor.connect config (config.Host ++ ":" ++ toString config.Port) up with
    ⟨cerr, ccalls⟩
  rcases h2 : Processor.sendRcpts up.rcpt message.To with ⟨rerr, rcalls⟩
  rw [h1] at hc
  rw [h2] at hr
  simp only at hc hr
  by_cases hauth : config.Username ≠ "" ∧ config.Password ≠ ""
  · rw [if_pos hauth]
    cases ha : up.auth
    all_goals simp only []
    all_goals repeat' split
    all_goals (try simp only [Prod.mk.injEq] at *)
    all_goals simp_all [ackCalls_append, ackCalls]
  · rw [if_neg hauth]
    simp only []
    repeat' split
    all_goals (try simp only [Prod.mk.injEq] at *)
    all_goals simp_all [ackCalls_append, ackCalls]

theorem ackCalls_pauseAfter (e : String) (k : Int) : ackCalls (pauseAfter e k) = 0 := by
  unfold pauseAfter
  split_ifs <;> rfl

/-- The handler never acks: the ack is the queue adapter's. -/
theorem ackCalls_processMessage (p : Processor) (message : MailMessage) (env : WorkerAnswers) :
    ackCalls (p.processMessage message env).2 = 0 := by
  rcases processMessage_shape p message env with ⟨e, he, hr⟩ | ⟨h0, -, hr⟩ |
    ⟨h0, config, outcome, more, hs, -, -⟩
  · rw [hr]; rfl
  · rw [hr]; rfl
  · rcases processMessage_loop_cases p message env config h0 hs with ⟨a1, hr⟩ |
      ⟨f1, a1, a2, hr⟩ | ⟨f1, f2, a1, a2, a3, hr⟩ | ⟨f1, f2, f3, a1, a2, a3, hr⟩
    all_goals
      rw [hr]
      simp [ackCalls_append, attemptCalls, ackCalls_sendMail, ackCalls_pauseAfter,
        Processor.updateMailStatus, Processor.updateMailStatusWithCompletion, ackCalls]

theorem processMessage_not_panicked (p : Processor) (message : MailMessage)
    (env : WorkerAnswers) (m : String) : (p.processMessage message env).1 ≠ .panicked m := by
  rcases processMessage_shape p message env with ⟨e, he, hr⟩ | ⟨h0, -, hr⟩ |
    ⟨h0, config, outcome, more, hs, -, -⟩
  · rw [hr]; simp
  · rw [hr]; simp
  · rcases processMessage_loop_cases p message env config h0 hs with ⟨a1, hr⟩ |
      ⟨f1, a1, a2, hr⟩ | ⟨f1, f2, a1, a2, a3, hr⟩ | ⟨f1, f2, f3, a1, a2, a3, hr⟩
    all_goals
      rw [hr]
      simp

/-! ## Worker: relay selection and the retry loop -/

/-- Claim C20. `selectSMTPServer` returns none if and only if no entry of the pool is
active, and an entry it returns is active with no active entry before it in the pool. When it
returns none, `processMessage` makes no send attempt and returns an error; having reached the
selection (the first write was answered), its calls are the write of `sending` and then the
write of status `failed`, attempts 0 and the error text, and the record is `failed` once the
store has answered that write. -/
theorem select_first_active_else_fail (p : Processor) :
    (p.selectSMTPServer = none ↔ ∀ c ∈ p.smtpConfigs, c.Active = false) ∧
    (∀ c, p.selectSMTPServer = some c →
      ∃ pre post, p.smtpConfigs = pre ++ c :: post ∧ c.Active = true ∧
        ∀ x ∈ pre, x.Active = false) ∧
    (p.selectSMTPServer = none → ∀ (message : MailMessage) (env : WorkerAnswers),
      sendAttempts (p.processMessage message env).2 = 0 ∧
      (∃ e, (p.processMessage message env).1 = .error e) ∧
      (env.update "sending" 0 = none →
        p.processMessage message env =
          (.error "没有可用的SMTP服务器",
           [.updateOne message.MailLogID
              { status := "sending", attempts := 0,
                last_attempt := env.lastAttempt "sending" 0,
                error_message := none, completed_at := none } none,
            .updateOne message.MailLogID
              { status := "failed", attempts := 0,
                last_attempt := env.lastAttempt "failed" 0,
                error_message := some "没有可用的SMTP服务器", completed_at := none }
              (env.update "failed" 0)]) ∧
        (env.update "failed" 0 = none → ∀ r : MailLog, r.ID = message.MailLogID →
          (r.after (p.processMessage message env).2).Status = "failed"))) := by
  refine ⟨firstActive_none p.smtpConfigs, firstActive_some p.smtpConfigs, ?_⟩
  intro hnone message env
  rcases processMessage_shape p message env with ⟨e, he, hr⟩ | ⟨h0, -, hr⟩ |
    ⟨-, config, outcome, more, hs, -, -⟩
  · refine ⟨by rw [hr]; rfl, ⟨e, by rw [hr]⟩, ?_⟩
    intro h0
    rw [h0] at he
    simp at he
  · refine ⟨by rw [hr]; rfl, ⟨_, by rw [hr]⟩, ?_⟩
    intro _
    refine ⟨by rw [hr]; simp [Processor.updateMailStatus, h0], ?_⟩
    intro hf r hid
    rw [hr]
    simp [Processor.updateMailStatus, MailLog.after, h0, hf, hid, MailLog.patch]
  · rw [hnone] at hs
    simp at hs

theorem select_first_active_else_fail_witness :
    ({ smtpConfigs := [{ exampleRelay with Active := false }] } : Processor).selectSMTPServer =
      none ∧
    sendAttempts (({ smtpConfigs := [{ exampleRelay with Active := false }] } :
      Processor).processMessage exampleMessage exampleWorkerAnswers).2 = 0 ∧
    ∃ e, (({ smtpConfigs := [{ exampleRelay with Active := false }] } :
      Processor).processMessage exampleMessage exampleWorkerAnswers).1 = .error e :=
  ⟨by decide,
   ((select_first_active_else_fail
      { smtpConfigs := [{ exampleRelay with Active := false }] }).2.2 (by decide)
      exampleMessage exampleWorkerAnswers).1,
   ((select_first_active_else_fail
      { smtpConfigs := [{ exampleRelay with Active := false }] }).2.2 (by decide)
      exampleMessage exampleWorkerAnswers).2.1⟩

/-- Claim C13 at a failing input. The relay refuses the recipient with `550 mailbox not
found` at every attempt; `isTemporaryError` classifies the error of `sendMail` as permanent,
yet `processMessage` calls `sendMail` three times and writes status `failed` with
attempts 3, not 1, before it returns the error. -/
theorem permanent_error_is_retried :
    Processor.isTemporaryError "设置收件人失败 (b@x): 550 mailbox not found" = false ∧
    (exampleWorker.processMessage exampleMessage refusingAnswers).1 =
      .error "设置收件人失败 (b@x): 550 mailbox not found" ∧
    sendAttempts (exampleWorker.processMessage exampleMessage refusingAnswers).2 = 3 ∧
    (updateCalls (exampleWorker.processMessage exampleMessage refusingAnswers).2).map
        (fun w => (w.2.status, w.2.attempts, w.2.error_message)) =
      [("sending", 0, none), ("sending", 1, none), ("sending", 2, none), ("sending", 3, none),
       ("failed", 3, some "设置收件人失败 (b@x): 550 mailbox not found")] := by
  decide

/-- Claim C14, as stated, fails: with an active relay in the pool and a store that refuses
the first write, `processMessage` returns the store's error after that one call and never
calls `sendMail`. -/
theorem refused_first_write_means_no_send :
    exampleRelay ∈ exampleWorker.smtpConfigs ∧ exampleRelay.Active = true ∧
    exampleWorker.processMessage exampleMessage storeDownAnswers =
      (.error "store down",
       [.updateOne exampleMessage.MailLogID
          { status := "sending", attempts := 0, last_attempt := 1000,
            error_message := none, completed_at := none } (some "store down")]) ∧
    sendAttempts (exampleWorker.processMessage exampleMessage storeDownAnswers).2 = 0 := by
  decide

/-- Claim C14, amended. With an active relay in the pool, one invocation of `processMessage`
ends (the loop ends within four tests of its condition, whatever the fuel beyond that, and
nothing panics) after at most 3 calls of `sendMail`, and after at least one when the first
status write is answered; when the store refuses that write, `processMessage` returns the
store's error without any send. When all three attempts fail, the last call is the write of
status `failed` with attempts 3 and the text of the last error, and that error is
returned. -/
theorem send_attempts_between_one_and_three (p : Processor) (message : MailMessage)
    (env : WorkerAnswers) (hactive : ∃ c ∈ p.smtpConfigs, c.Active = true) :
    ∃ config, p.selectSMTPServer = some config ∧ config.Active = true ∧
      (∀ n, (Processor.sendLoop env config message 4 0 none).isSome = true ∧
        Processor.sendLoop env config message (n + 4) 0 none =
          Processor.sendLoop env config message 4 0 none) ∧
      (∀ m, (p.processMessage message env).1 ≠ .panicked m) ∧
      sendAttempts (p.processMessage message env).2 ≤ 3 ∧
      (env.update "sending" 0 = none → 1 ≤ sendAttempts (p.processMessage message env).2) ∧
      (∀ e, env.update "sending" 0 = some e →
        (p.processMessage message env).1 = .error e ∧
        sendAttempts (p.processMessage message env).2 = 0) ∧
      (env.update "sending" 0 = none → ∀ e1 e2 e3,
        (Processor.sendMail config message (env.upstream 1)).1 = .error e1 →
        (Processor.sendMail config message (env.upstream 2)).1 = .error e2 →
        (Processor.sendMail config message (env.upstream 3)).1 = .error e3 →
        (p.processMessage message env).1 = .error e3 ∧
        sendAttempts (p.processMessage message env).2 = 3 ∧
        ∃ pre, (p.processMessage message env).2 = pre ++
          [.updateOne message.MailLogID
            { status := "failed", attempts := 3, last_attempt := env.lastAttempt "failed" 3,
              error_message := some e3, completed_at := none } (env.update "failed" 3)]) := by
  have hsome : ∃ config, p.selectSMTPServer = some config := by
    cases hs : p.selectSMTPServer with
    | some c => exact ⟨c, rfl⟩
    | none =>
      obtain ⟨c, hc, hact⟩ := hactive
      have := (firstActive_none p.smtpConfigs).mp hs c hc
      rw [hact] at this
      simp at this
  obtain ⟨config, hsel⟩ := hsome
  obtain ⟨-, -, -, hact, -⟩ := firstActive_some p.smtpConfigs config hsel
  refine ⟨config, hsel, hact, fun n => sendLoop_fuel env config message n, ?_⟩
  cases h0 : env.update "sending" 0 with
  | some e =>
    have hr : p.processMessage message env =
        (.error e, (Processor.updateMailStatus env message.MailLogID "sending" "" 0).2) := by
      simp [Processor.processMessage, Processor.updateMailStatus, h0]
    rw [hr]
    simp [sendAttempts_updateMailStatus]
  | none =>
    rcases processMessage_loop_cases p message env config h0 hsel with ⟨a1, hr⟩ |
      ⟨f1, a1, a2, hr⟩ | ⟨f1, f2, a1, a2, a3, hr⟩ | ⟨f1, f2, f3, a1, a2, a3, hr⟩
    · rw [hr]
      simp [sendAttempts_append, sendAttempts_attemptCalls, sendAttempts_updateMailStatus,
        sendAttempts_updateMailStatusWithCompletion, a1]
    · rw [hr]
      simp [sendAttempts_append, sendAttempts_attemptCalls, sendAttempts_updateMailStatus,
        sendAttempts_updateMailStatusWithCompletion, sendAttempts_pauseAfter, a1, a2]
    · rw [hr]
      simp [sendAttempts_append, sendAttempts_attemptCalls, sendAttempts_updateMailStatus,
        sendAttempts_updateMailStatusWithCompletion, sendAttempts_pauseAfter, a1, a2, a3]
    · rw [hr]
      have hne := sendMail_error_ne_empty config message (env.upstream 3) f3 a3
      simp only [sendAttempts_append, sendAttempts_attemptCalls, sendAttempts_updateMailStatus,
        sendAttempts_pauseAfter, a1, a2, a3]
      refine ⟨by simp, by simp, by simp, by simp, ?_⟩
      intro _ e1 e2 e3 h1 h2 h3
      simp only [Outcome.error.injEq] at h3
      subst h3
      refine ⟨rfl, by simp, ?_⟩
      refine ⟨(Processor.updateMailStatus env message.MailLogID "sending" "" 0).2 ++
        (attemptCalls env config message 1 ++ pauseAfter f1 1 ++
        (attemptCalls env config message 2 ++ pauseAfter f2 2 ++
        (attemptCalls env config message 3 ++ pauseAfter f3 3))), ?_⟩
      simp [Processor.updateMailStatus, hne]

theorem send_attempts_between_one_and_three_witness :
    (∃ c ∈ exampleWorker.smtpConfigs, c.Active = true) ∧
    ∃ config, exampleWorker.selectSMTPServer = some config ∧
      sendAttempts (exampleWorker.processMessage exampleMessage refusingAnswers).2 ≤ 3 ∧
      1 ≤ sendAttempts (exampleWorker.processMessage exampleMessage refusingAnswers).2 := by
  obtain ⟨config, h1, -, -, -, h5, h6, -⟩ :=
    send_attempts_between_one_and_three exampleWorker exampleMessage refusingAnswers
      ⟨exampleRelay, by decide, by decide⟩
  exact ⟨⟨exampleRelay, by decide, by decide⟩, config, h1, h5, h6 rfl⟩

/-- Every write of status `sent` by `processMessage` carries a number of attempts that is at
least 1 and a completion time. -/
theorem sent_write_has_attempt_and_completion (p : Processor) (message : MailMessage)
    (env : WorkerAnswers) :
    ∀ w ∈ updateCalls (p.processMessage message env).2, w.2.status = "sent" →
      1 ≤ w.2.attempts ∧ w.2.completed_at = some env.completedAt := by
  rcases processMessage_shape p message env with ⟨e, he, hr⟩ | ⟨h0, -, hr⟩ |
    ⟨h0, config, outcome, more, hs, -, -⟩
  · rw [hr]
    simp [updateCalls_updateMailStatus]
  · rw [hr]
    simp [updateCalls_append, updateCalls_updateMailStatus]
  · rcases processMessage_loop_cases p message env config h0 hs with ⟨a1, hr⟩ |
      ⟨f1, a1, a2, hr⟩ | ⟨f1, f2, a1, a2, a3, hr⟩ | ⟨f1, f2, f3, a1, a2, a3, hr⟩
    all_goals
      rw [hr]
      simp [updateCalls_append, updateCalls_updateMailStatus, updateCalls_attemptCalls,
        updateCalls_updateMailStatusWithCompletion, updateCalls_pauseAfter]

/-- Claim C15. If the store answers every write, attempts `1 .. k-1` fail and attempt `k`
(`1 ≤ k ≤ 3`) succeeds, then `processMessage` returns nil after `k` calls of `sendMail`, its
last call is the write of status `sent` with attempts `k` and the completion time, and the
record holds these afterwards. Hence every write of status `sent`, by any invocation, has
attempts at least 1 and a completion time. -/
theorem first_success_writes_sent (p : Processor) (message : MailMessage) (env : WorkerAnswers)
    (config : SMTPConfig) (k : Int)
    (hsel : p.selectSMTPServer = some config)
    (hstore : ∀ status attempts, env.update status attempts = none)
    (hk1 : 1 ≤ k) (hk3 : k ≤ 3)
    (hfail : ∀ j, 1 ≤ j → j < k →
      ∃ e, (Processor.sendMail config message (env.upstream j)).1 = .error e)
    (hok : (Processor.sendMail config message (env.upstream k)).1 = .ok) :
    (p.processMessage message env).1 = .ok ∧
    (∃ pre, (p.processMessage message env).2 = pre ++
      [.updateOne message.MailLogID
        { status := "sent", attempts := k, last_attempt := env.lastAttempt "sent" k,
          error_message := none, completed_at := some env.completedAt } none]) ∧
    (sendAttempts (p.processMessage message env).2 : Int) = k ∧
    (∀ r : MailLog, r.ID = message.MailLogID →
      (r.after (p.processMessage message env).2).Status = "sent" ∧
      (r.after (p.processMessage message env).2).Attempts = k ∧
      (r.after (p.processMessage message env).2).CompletedAt = some env.completedAt) ∧
    (∀ (q : Processor) (other : MailMessage) (answers : WorkerAnswers),
      ∀ w ∈ updateCalls (q.processMessage other answers).2, w.2.status = "sent" →
        1 ≤ w.2.attempts ∧ w.2.completed_at = some answers.completedAt) := by
  have hcases : k = 1 ∨ k = 2 ∨ k = 3 := by omega
  have key : ∃ pre, p.processMessage message env =
      (.ok, pre ++ [.updateOne message.MailLogID
        { status := "sent", attempts := k, last_attempt := env.lastAttempt "sent" k,
          error_message := none, completed_at := some env.completedAt } none]) ∧
      (sendAttempts pre : Int) = k := by
    rcases processMessage_loop_cases p message env config (hstore _ _) hsel with ⟨a1, hr⟩ |
      ⟨f1, a1, a2, hr⟩ | ⟨f1, f2, a1, a2, a3, hr⟩ | ⟨f1, f2, f3, a1, a2, a3, hr⟩
    · rcases hcases with rfl | rfl | rfl
      · refine ⟨(Processor.updateMailStatus env message.MailLogID "sending" "" 0).2 ++
          attemptCalls env config message 1, ?_, ?_⟩
        · rw [hr]; simp [Processor.updateMailStatusWithCompletion, hstore]
        · simp [sendAttempts_append, sendAttempts_attemptCalls, sendAttempts_updateMailStatus]
      · obtain ⟨e, he⟩ := hfail 1 (by norm_num) (by norm_num)
        rw [a1] at he; simp at he
      · obtain ⟨e, he⟩ := hfail 1 (by norm_num) (by norm_num)
        rw [a1] at he; simp at he
    · rcases hcases with rfl | rfl | rfl
      · rw [a1] at hok; simp at hok
      · refine ⟨(Processor.updateMailStatus env message.MailLogID "sending" "" 0).2 ++
          (attemptCalls env config message 1 ++ pauseAfter f1 1 ++
            attemptCalls env config message 2), ?_, ?_⟩
        · rw [hr]; simp [Processor.updateMailStatusWithCompletion, hstore]
        · simp [sendAttempts_append, sendAttempts_attemptCalls, sendAttempts_updateMailStatus,
            sendAttempts_pauseAfter]
      · obtain ⟨e, he⟩ := hfail 2 (by norm_num) (by norm_num)
        rw [a2] at he; simp at he
    · rcases hcases with rfl | rfl | rfl
      · rw [a1] at hok; simp at hok
      · rw [a2] at hok; simp at hok
      · refine ⟨(Processor.updateMailStatus env message.MailLogID "sending" "" 0).2 ++
          (attemptCalls env config message 1 ++ pauseAfter f1 1 ++
            (attemptCalls env config message 2 ++ pauseAfter f2 2 ++
              attemptCalls env config message 3)), ?_, ?_⟩
        · rw [hr]; simp [Processor.updateMailStatusWithCompletion, hstore]
        · simp [sendAttempts_append, sendAttempts_attemptCalls, sendAttempts_updateMailStatus,
            sendAttempts_pauseAfter]
    · rcases hcases with rfl | rfl | rfl
      · rw [a1] at hok; simp at hok
      · rw [a2] at hok; simp at hok
      · rw [a3] at hok; simp at hok
  obtain ⟨pre, hr, hcount⟩ := key
  refine ⟨by rw [hr], ⟨pre, by rw [hr]⟩, ?_, ?_,
    fun q other answers => sent_write_has_attempt_and_completion q other answers⟩
  · rw [hr]
    simp [sendAttempts_append, sendAttempts, hcount]
  · intro r hid
    have hid2 : (r.after pre).ID = message.MailLogID := by rw [after_ID, hid]
    rw [hr]
    simp [after_append, MailLog.after, hid2, MailLog.patch]

theorem first_success_writes_sent_witness :
    (exampleWorker.selectSMTPServer = some exampleRelay ∧
      (Processor.sendMail exampleRelay exampleMessage (secondAttemptAnswers.upstream 1)).1 =
        .error "连接SMTP服务器失败: connection refused" ∧
      (Processor.sendMail exampleRelay exampleMessage (secondAttemptAnswers.upstream 2)).1 =
        .ok) ∧
    (exampleWorker.processMessage exampleMessage secondAttemptAnswers).1 = .ok ∧
    (queuedRecord.after
      (exampleWorker.processMessage exampleMessage secondAttemptAnswers).2).Status = "sent" ∧
    (queuedRecord.after
      (exampleWorker.processMessage exampleMessage secondAttemptAnswers).2).Attempts = 2 ∧
    (queuedRecord.after
      (exampleWorker.processMessage exampleMessage secondAttemptAnswers).2).CompletedAt =
        some 2000 := by
  have h := first_success_writes_sent exampleWorker exampleMessage secondAttemptAnswers
    exampleRelay 2 (by decide) (fun _ _ => rfl) (by decide) (by decide)
    (fun j h1 h2 => by
      have hj : j = 1 := by omega
      subst hj
      exact ⟨"连接SMTP服务器失败: connection refused", by decide⟩)
    (by decide)
  exact ⟨⟨by decide, by decide, by decide⟩, h.1, (h.2.2.2.1 queuedRecord rfl).1,
    (h.2.2.2.1 queuedRecord rfl).2.1, (h.2.2.2.1 queuedRecord rfl).2.2⟩

/-! ## Worker: the mail-log across an invocation -/

/-- Claim C16, as stated, fails: for a record that holds attempts 3 from an earlier
delivery, the first write of `processMessage` (the transition to `sending`) sets attempts
to 0. -/
theorem redelivery_resets_attempts :
    failedRecord.ID = exampleMessage.MailLogID ∧ failedRecord.Attempts = 3 ∧
    (failedRecord.after
      ((exampleWorker.processMessage exampleMessage exampleWorkerAnswers).2.take 1)).Attempts =
      0 ∧
    (failedRecord.after
      ((exampleWorker.processMessage exampleMessage exampleWorkerAnswers).2.take 1)).Status =
      "sending" := by
  decide

/-- Claim C16, amended. For a record whose attempts value is 0 when `processMessage`
starts (as ingress inserts it), no call of the invocation lowers the attempts of the record,
and the first write (the transition to `sending`) leaves it unchanged. For any record, the
attempts values written in one invocation are non-decreasing in call order and start at 0:
the first write, once answered, sets attempts to 0 whatever the record held. -/
theorem attempts_never_decrease_from_zero (p : Processor) (message : MailMessage)
    (env : WorkerAnswers) (r : MailLog) (hid : r.ID = message.MailLogID)
    (hzero : r.Attempts = 0) :
    (∀ pre e post, (p.processMessage message env).2 = pre ++ e :: post →
      (r.after pre).Attempts ≤ (r.after (pre ++ [e])).Attempts) ∧
    (r.after ((p.processMessage message env).2.take 1)).Attempts = r.Attempts ∧
    List.Pairwise (· ≤ ·)
      ((updateCalls (p.processMessage message env).2).map (fun w => w.2.attempts)) ∧
    (∀ other : MailLog, other.ID = message.MailLogID → env.update "sending" 0 = none →
      (other.after ((p.processMessage message env).2.take 1)).Attempts = 0) := by
  obtain ⟨hp, hb, rest, hrest⟩ := writes_of_invocation p message env
  refine ⟨?_, ?_, hp, ?_⟩
  · intro pre e post ht
    exact after_attempts_mono pre _ r e post ht hp (fun w hw => by rw [hzero]; exact (hb w hw).1)
  · rw [hrest]
    cases h : env.update "sending" 0 <;> simp [MailLog.after, hid, MailLog.patch, hzero]
  · intro other hid2 h0
    rw [hrest, h0]
    simp [MailLog.after, hid2, MailLog.patch]

theorem attempts_never_decrease_from_zero_witness :
    (queuedRecord.ID = exampleMessage.MailLogID ∧ queuedRecord.Attempts = 0) ∧
    (queuedRecord.after
      ((exampleWorker.processMessage exampleMessage secondAttemptAnswers).2.take 1)).Attempts =
      queuedRecord.Attempts ∧
    List.Pairwise (· ≤ ·)
      ((updateCalls (exampleWorker.processMessage exampleMessage secondAttemptAnswers).2).map
        (fun w => w.2.attempts)) :=
  ⟨⟨rfl, rfl⟩,
   (attempts_never_decrease_from_zero exampleWorker exampleMessage secondAttemptAnswers
      queuedRecord rfl rfl).2.1,
   (attempts_never_decrease_from_zero exampleWorker exampleMessage secondAttemptAnswers
      queuedRecord rfl rfl).2.2.1⟩

/-- Claim C17, as stated, fails: for a record already `sent`, a further invocation for the
same id sets the status to `sending`, sends again (three times here, the relay refusing) and
leaves the record `failed`. -/
theorem redelivery_overwrites_sent :
    sentRecord.ID = exampleMessage.MailLogID ∧ sentRecord.Status = "sent" ∧
    (sentRecord.after
      ((exampleWorker.processMessage exampleMessage refusingAnswers).2.take 1)).Status =
      "sending" ∧
    (sentRecord.after (exampleWorker.processMessage exampleMessage refusingAnswers).2).Status =
      "failed" ∧
    sendAttempts (exampleWorker.processMessage exampleMessage refusingAnswers).2 = 3 := by
  decide

/-- Claim C17, amended. For a mail-log in any status, terminal or not, an invocation of
`processMessage` for its id whose store writes succeed first sets the status to `sending`
and leaves it terminal: `sent` if and only if `processMessage` returns nil (a send attempt of
this invocation succeeded), `failed` if and only if it returns an error. The status the
record held before is not read. -/
theorem redelivery_ends_terminal_again (p : Processor) (message : MailMessage)
    (env : WorkerAnswers) (r : MailLog) (hid : r.ID = message.MailLogID)
    (hstore : ∀ status attempts, env.update status attempts = none) :
    (r.after ((p.processMessage message env).2.take 1)).Status = "sending" ∧
    ((r.after (p.processMessage message env).2).Status = "sent" ∨
      (r.after (p.processMessage message env).2).Status = "failed") ∧
    ((r.after (p.processMessage message env).2).Status = "sent" ↔
      (p.processMessage message env).1 = .ok) ∧
    ((r.after (p.processMessage message env).2).Status = "failed" ↔
      ∃ e, (p.processMessage message env).1 = .error e) := by
  obtain ⟨pre, sendings, final, ht, -, -, -, hfinal⟩ :=
    invocation_ends_with_terminal_write p message env (hstore _ _)
  obtain ⟨-, -, rest, hrest⟩ := writes_of_invocation p message env
  have hid2 : (r.after pre).ID = message.MailLogID := by rw [after_ID, hid]
  have hstatus : (r.after (p.processMessage message env).2).Status = final.status := by
    rw [ht]
    simp [after_append, MailLog.after, hstore, hid2, MailLog.patch]
  refine ⟨?_, ?_, ?_, ?_⟩
  · rw [hrest]
    simp [MailLog.after, hstore, hid, MailLog.patch]
  · rw [hstatus]
    rcases hfinal with ⟨h, -⟩ | ⟨h, -⟩
    · exact Or.inl h
    · exact Or.inr h
  · rw [hstatus]
    rcases hfinal with ⟨h, -, -, -, -, -, hok, -⟩ | ⟨h, -, e, he⟩
    · simp [h, hok]
    · simp [h, he]
  · rw [hstatus]
    rcases hfinal with ⟨h, -, -, -, -, -, hok, -⟩ | ⟨h, -, e, he⟩
    · simp [h, hok]
    · simp [h, he]

theorem redelivery_ends_terminal_again_witness :
    (failedRecord.ID = exampleMessage.MailLogID ∧ failedRecord.Status = "failed" ∧
      (exampleWorker.processMessage exampleMessage exampleWorkerAnswers).1 = .ok) ∧
    (failedRecord.after
      (exampleWorker.processMessage exampleMessage exampleWorkerAnswers).2).Status = "sent" :=
  ⟨⟨rfl, rfl, by decide⟩,
   (redelivery_ends_terminal_again exampleWorker exampleMessage exampleWorkerAnswers
      failedRecord rfl (fun _ _ => rfl)).2.2.1.mpr (by decide)⟩

/-- Claim C18. For a mail-log as ingress inserts it (status `queued`, attempts 0, no
completion time) and one invocation of `processMessage` whose store writes succeed, the
writes are one or more writes of status `sending`, none with a completion time, followed by
exactly one last write of status `sent` or `failed`; that last write sets a completion time
if and only if its status is `sent`, and the record afterwards holds the last status and has
a completion time if and only if that status is `sent`. -/
theorem status_sequence_of_invocation (p : Processor) (message : MailMessage)
    (env : WorkerAnswers) (r : MailLog) (hid : r.ID = message.MailLogID)
    (hnew : r.Status = "queued" ∧ r.Attempts = 0 ∧ r.CompletedAt = none)
    (hstore : ∀ status attempts, env.update status attempts = none) :
    ∃ (sendings : List MailLogPatch) (final : MailLogPatch),
      updateCalls (p.processMessage message env).2 =
        (sendings ++ [final]).map (fun w => (message.MailLogID, w)) ∧
      1 ≤ sendings.length ∧
      (∀ w ∈ sendings, w.status = "sending" ∧ w.completed_at = none) ∧
      (final.status = "sent" ∨ final.status = "failed") ∧
      (final.completed_at.isSome = true ↔ final.status = "sent") ∧
      (r.after (p.processMessage message env).2).Status = final.status ∧
      ((r.after (p.processMessage message env).2).CompletedAt.isSome = true ↔
        final.status = "sent") := by
  obtain ⟨pre, sendings, final, ht, hpre, hlen, hall, hfinal⟩ :=
    invocation_ends_with_terminal_write p message env (hstore _ _)
  have hid2 : (r.after pre).ID = message.MailLogID := by rw [after_ID, hid]
  have hcomp : (r.after pre).CompletedAt = none := by
    rw [after_CompletedAt pre r, hnew.2.2]
    intro w hw
    rw [hpre] at hw
    obtain ⟨x, hx, rfl⟩ := List.mem_map.mp hw
    exact (hall x hx).2
  refine ⟨sendings, final, ?_, hlen, hall, ?_, ?_, ?_, ?_⟩
  · rw [ht]
    simp [updateCalls_append, updateCalls, hpre]
  · rcases hfinal with ⟨h, -⟩ | ⟨h, -⟩
    · exact Or.inl h
    · exact Or.inr h
  · rcases hfinal with ⟨h, hc, -⟩ | ⟨h, hc, -⟩ <;> simp [h, hc]
  · rw [ht]
    simp [after_append, MailLog.after, hstore, hid2, MailLog.patch]
  · rw [ht]
    rcases hfinal with ⟨h, hc, -⟩ | ⟨h, hc, -⟩ <;>
      simp [after_append, MailLog.after, hstore, hid2, MailLog.patch, h, hc, hcomp]

theorem status_sequence_of_invocation_witness :
    (queuedRecord.ID = exampleMessage.MailLogID ∧ queuedRecord.Status = "queued" ∧
      queuedRecord.Attempts = 0 ∧ queuedRecord.CompletedAt = none) ∧
    (updateCalls (exampleWorker.processMessage exampleMessage secondAttemptAnswers).2).map
        (fun w => (w.2.status, w.2.completed_at)) =
      [("sending", none), ("sending", none), ("sending", none), ("sent", some 2000)] ∧
    ∃ (sendings : List MailLogPatch) (final : MailLogPatch),
      updateCalls (exampleWorker.processMessage exampleMessage secondAttemptAnswers).2 =
        (sendings ++ [final]).map (fun w => (exampleMessage.MailLogID, w)) ∧
      1 ≤ sendings.length := by
  obtain ⟨sendings, final, h1, h2, -⟩ :=
    status_sequence_of_invocation exampleWorker exampleMessage secondAttemptAnswers queuedRecord
      rfl ⟨rfl, rfl, rfl⟩ (fun _ _ => rfl)
  exact ⟨⟨rfl, rfl, rfl, rfl⟩, by decide, sendings, final, h1, h2⟩

/-! ## Worker and queue adapter: when a delivery is acked -/

/-- Claim C19, as stated, fails: the relay accepts the mail and the store refuses the write
of status `sent`; the consume step acks the delivery all the same, and the record is still
`sending`. -/
theorem acked_although_sent_not_persisted :
    (exampleQueue.consume (fun message => exampleWorker.processMessage message sentWriteRefused)
      exampleFirstDelivery none 0).calls.getLast? = some (.ack false) ∧
    Effect.ack false ∈
      (exampleQueue.consume (fun message => exampleWorker.processMessage message sentWriteRefused)
        exampleFirstDelivery none 0).calls ∧
    Effect.updateOne exampleMessage.MailLogID
        { status := "sent", attempts := 1, last_attempt := 1001, error_message := none,
          completed_at := some 2000 } (some "store down") ∈
      (exampleQueue.consume (fun message => exampleWorker.processMessage message sentWriteRefused)
        exampleFirstDelivery none 0).calls ∧
    (queuedRecord.after
      (exampleQueue.consume (fun message => exampleWorker.processMessage message sentWriteRefused)
        exampleFirstDelivery none 0).calls).Status = "sending" := by
  decide

/-- Claim C19, amended. If the consume step acks a delivery handled by `processMessage`,
then `processMessage` returned nil, a send attempt `k` (`1 ≤ k ≤ 3`) to the selected relay
succeeded, and the call right before the ack is the write of status `sent` with attempts `k`
and the completion time; the record is `sent` at the ack when the store answered that
write. The ack does not depend on the store's answer to it. -/
theorem ack_only_after_send_and_sent_write (s : Service) (p : Processor) (env : WorkerAnswers)
    (d : Delivery) (j : MessageJSON) (m : MailMessage) (publishAnswer : Option String)
    (now : Time) (hbody : d.Body = some j) (hdec : Unmarshal j = .ok m)
    (hack : .ack false ∈
      (s.consume (fun message => p.processMessage message env) d publishAnswer now).calls) :
    (p.processMessage m env).1 = .ok ∧
    ∃ (k : Int) (config : SMTPConfig) (pre : List Effect),
      1 ≤ k ∧ k ≤ 3 ∧ p.selectSMTPServer = some config ∧
      (Processor.sendMail config m (env.upstream k)).1 = .ok ∧
      (s.consume (fun message => p.processMessage message env) d publishAnswer now).calls =
        pre ++ [.updateOne m.MailLogID
                  { status := "sent", attempts := k, last_attempt := env.lastAttempt "sent" k,
                    error_message := none, completed_at := some env.completedAt }
                  (env.update "sent" k),
                .ack false] ∧
      (env.update "sent" k = none → ∀ r : MailLog, r.ID = m.MailLogID →
        (r.after
          (s.consume (fun message => p.processMessage message env) d publishAnswer
            now).calls).Status = "sent") := by
  have hcount := ackCalls_pos_of_mem false _ hack
  have hno := ackCalls_processMessage p m env
  have hok : (p.processMessage m env).1 = .ok := by
    rcases hres : p.processMessage m env with ⟨o, done⟩
    rw [hres] at hno
    simp only at hno
    cases o with
    | ok => rfl
    | panicked msg =>
      exact absurd (by rw [hres]) (processMessage_not_panicked p m env msg)
    | error e =>
      exfalso
      simp only [Service.consume, hbody, hdec, hres] at hcount
      split_ifs at hcount
      · split at hcount
        · simp [hno] at hcount
        · simp [ackCalls_append, hno, ackCalls, Service.requeueWithDelay] at hcount
          cases publishAnswer <;> simp [ackCalls] at hcount
      · simp [ackCalls_append, hno, ackCalls] at hcount
  have hcalls : (s.consume (fun message => p.processMessage message env) d publishAnswer
      now).calls = (p.processMessage m env).2 ++ [.ack false] := by
    rcases hres : p.processMessage m env with ⟨o, done⟩
    rw [hres] at hok
    simp only at hok
    subst hok
    simp [Service.consume, hbody, hdec, hres]
  have h0 : env.update "sending" 0 = none := by
    rcases processMessage_shape p m env with ⟨e, he, hr⟩ | ⟨h0, -, -⟩ | ⟨h0, -⟩
    · rw [hr] at hok
      simp at hok
    · exact h0
    · exact h0
  obtain ⟨pre, sendings, final, ht, -, -, -, hfinal⟩ :=
    invocation_ends_with_terminal_write p m env h0
  rcases hfinal with ⟨hst, hc, hem, hla, hk1, hk3, -, config, hsel, hsend⟩ | ⟨-, -, e, he⟩
  · obtain ⟨status, attempts, last, errorMessage, completedAt⟩ := final
    simp only at hst hc hem hla hk1 hk3 hsend ht
    subst hst hc hem hla
    refine ⟨hok, attempts, config, pre, hk1, hk3, hsel, hsend, ?_, ?_⟩
    · rw [hcalls, ht]
      simp
    · intro hw r hid
      have hid2 : (r.after pre).ID = m.MailLogID := by rw [after_ID, hid]
      rw [hcalls, ht]
      simp [after_append, MailLog.after, hw, hid2, MailLog.patch]
  · rw [hok] at he
    simp at he

theorem ack_only_after_send_and_sent_write_witness :
    (exampleFirstDelivery.Body = some (Marshal exampleMessage) ∧
      Effect.ack false ∈
        (exampleQueue.consume
          (fun message => exampleWorker.processMessage message exampleWorkerAnswers)
          exampleFirstDelivery none 0).calls) ∧
    (exampleWorker.processMessage exampleMessage exampleWorkerAnswers).1 = .ok :=
  ⟨⟨rfl, by decide⟩,
   (ack_only_after_send_and_sent_write exampleQueue exampleWorker exampleWorkerAnswers
      exampleFirstDelivery (Marshal exampleMessage) exampleMessage none 0 rfl
      exampleMessage_round_trip (by decide)).1⟩

/-! ## Ingress: message id and subject -/

/-- Claim C21, as stated, fails: the header region of this payload (the lines before the
first empty line) has no subject line, its body has one, and `extractSubject` returns the
text of that body line instead of the empty string. -/
theorem subject_line_in_body_is_extracted :
    headerRegion bodySubjectPayload = ["From: a@ex.com\r"] ∧
    (∀ line ∈ headerRegion bodySubjectPayload, HasPrefix (ToLower line) "subject:" = false) ∧
    Session.extractSubject bodySubjectPayload = "not a header" := by
  decide

theorem find_first_match (f : String → Bool) (pre : List String) (line : String)
    (post : List String) (hpre : ∀ x ∈ pre, f x = false) (hline : f line = true) :
    (pre ++ line :: post).find? f = some line := by
  induction pre with
  | nil => simp [List.find?, hline]
  | cons a rest ih =>
    have ha : f a = false := hpre a (by simp)
    simp only [List.cons_append, List.find?, ha]
    exact ih (fun x hx => hpre x (by simp [hx]))

theorem find_none_of_all_false (f : String → Bool) (l : List String)
    (h : ∀ x ∈ l, f x = false) : l.find? f = none := by
  rw [List.find?_eq_none]
  intro x hx
  simp [h x hx]

theorem utf8Size_one (b0 : Nat) (rest : List Nat) (h : utf8Size (b0 :: rest) = 1) :
    b0 < 128 := by
  by_contra hb
  rw [utf8Size_cons, if_neg hb] at h
  split_ifs at h <;> omega

theorem utf8Size_wide (b0 : Nat) (rest : List Nat) (n : Nat)
    (h : utf8Size (b0 :: rest) = n + 2) : ¬ b0 < 128 := by
  intro hb
  rw [utf8Size_cons, if_pos hb] at h
  omega

theorem lowerFrom_ascii : ∀ l : List Char, (∀ c ∈ l, c.toNat < 128) →
    lowerFrom 0 l = l.map Char.toLower := by
  intro l
  induction l with
  | nil => intro _; rfl
  | cons c cs ih =>
    intro h
    have hc : c.toNat < 128 := h c (List.mem_cons_self _ _)
    have hs : utf8Size (c.toNat :: cs.map Char.toNat) = 1 := by
      rw [utf8Size_cons, if_pos hc]
    simp only [lowerFrom, List.map_cons]
    rw [hs]
    simp only
    rw [ih (fun x hx => h x (List.mem_cons_of_mem _ hx))]

/-- An ASCII character other than `i` and `k` at the head of a lowered text is the lowering
of an ASCII character at the head of the text. -/
theorem lowerFrom_head (p : Char) (ps : List Char) (l : List Char) (hp : p.toNat < 128)
    (hi : p ≠ 'i') (hk : p ≠ 'k') (h : (p :: ps) <+: lowerFrom 0 l) :
    ∃ c cs, l = c :: cs ∧ c.toNat < 128 ∧ c.toLower = p ∧ ps <+: lowerFrom 0 cs := by
  cases l with
  | nil => simp [lowerFrom] at h
  | cons c cs =>
    rcases hs : utf8Size (c.toNat :: cs.map Char.toNat) with _ | _ | n
    · simp only [lowerFrom, List.map_cons] at h
      rw [hs] at h
      simp only [replacementChar, List.cons_append, List.cons_prefix_cons] at h
      have h239 : p.toNat = 239 := by rw [h.1]; decide
      omega
    · simp only [lowerFrom, List.map_cons] at h
      rw [hs] at h
      simp only [List.cons_prefix_cons] at h
      exact ⟨c, cs, rfl, utf8Size_one _ _ hs, h.1.symm, h.2⟩
    · have hw := utf8Size_wide _ _ n hs
      simp only [lowerFrom, List.map_cons] at h
      rw [hs] at h
      simp only at h
      split_ifs at h
      · simp only [List.cons_prefix_cons] at h
        exact absurd h.1 hi
      · simp only [List.cons_prefix_cons] at h
        exact absurd h.1 hk
      · simp only [List.take_succ_cons, List.cons_append, List.cons_prefix_cons] at h
        rw [h.1] at hp
        omega

/-- An ASCII text without `i` and `k` that begins a lowered text is the lowering of as many
ASCII characters at the head of the text. -/
theorem lowerFrom_prefix : ∀ (pat l : List Char),
    (∀ p ∈ pat, p.toNat < 128 ∧ p ≠ 'i' ∧ p ≠ 'k') → pat <+: lowerFrom 0 l →
    (l.take pat.length).length = pat.length ∧ (∀ c ∈ l.take pat.length, c.toNat < 128) ∧
      (l.take pat.length).map Char.toLower = pat := by
  intro pat
  induction pat with
  | nil => intro l _ _; simp
  | cons p ps ih =>
    intro l hpat h
    obtain ⟨hp, hi, hk⟩ := hpat p (List.mem_cons_self _ _)
    obtain ⟨c, cs, hl, hc, hcp, hrest⟩ := lowerFrom_head p ps l hp hi hk h
    obtain ⟨h1, h2, h3⟩ := ih cs (fun x hx => hpat x (List.mem_cons_of_mem _ hx)) hrest
    subst hl
    refine ⟨by simp [h1], ?_, by simp [hcp, h3]⟩
    intro x hx
    simp only [List.length_cons, List.take_succ_cons, List.mem_cons] at hx
    rcases hx with hx | hx
    · rw [hx]; exact hc
    · exact h2 x hx

/-- A line whose lowercased text begins with `subject:` is eight ASCII characters that
lowercase to `subject:` followed by the rest of the line. -/
theorem subject_line_split (line : String)
    (h : HasPrefix (ToLower line) "subject:" = true) :
    (line.data.take 8 ++ line.data.drop 8 = line.data) ∧ (line.data.take 8).length = 8 ∧
    ToLower (String.mk (line.data.take 8)) = "subject:" := by
  refine ⟨List.take_append_drop 8 line.data, ?_⟩
  unfold HasPrefix ToLower at h
  simp only at h
  have hpre := List.isPrefixOf_iff_prefix.mp h
  obtain ⟨h1, h2, h3⟩ := lowerFrom_prefix "subject:".data line.data (by decide) hpre
  have h8 : "subject:".data.length = 8 := by decide
  rw [h8] at h1 h2 h3
  refine ⟨h1, ?_⟩
  unfold ToLower
  simp only
  rw [lowerFrom_ascii _ h2]
  apply String.ext
  exact h3

/-- Claim C21, amended. `extractSubject` looks at every line of the payload (the pieces
between line feeds), header region or not: for the first line whose lowercased text begins
with `subject:` it returns the text after those eight bytes, trimmed of white space at both
ends, and it returns the empty string when the payload has no such line. The eight bytes are
ASCII letters of either case and the colon; white space is what Go `unicode.IsSpace` holds
for, read from the UTF-8 of the line, so a no-break space and an ideographic space around
the subject are trimmed like blanks. `Subject: hi\r\n\r\nbody\r\n` gives `hi`. -/
theorem extractSubject_first_line_of_payload (data : String) :
    (∀ pre line post, Split data '\n' = pre ++ line :: post →
      (∀ x ∈ pre, HasPrefix (ToLower x) "subject:" = false) →
      HasPrefix (ToLower line) "subject:" = true →
      ∃ head rest, line.data = head ++ rest ∧ head.length = 8 ∧
        ToLower (String.mk head) = "subject:" ∧
        Session.extractSubject data = TrimSpace (String.mk rest)) ∧
    ((∀ x ∈ Split data '\n', HasPrefix (ToLower x) "subject:" = false) →
      Session.extractSubject data = "") ∧
    Session.extractSubject "Subject: hi\r\n\r\nbody\r\n" = "hi" ∧
    Session.extractSubject "From: a@ex.com\r\nSUBJECT:  Hi there \r\n\r\nbody\r\n" =
      "Hi there" ∧
    Session.extractSubject paddedSubjectPayload = "hi" := by
  refine ⟨?_, ?_, by decide, by decide, by decide⟩
  · intro pre line post hs hpre hline
    obtain ⟨h1, h2, h3⟩ := subject_line_split line hline
    refine ⟨line.data.take 8, line.data.drop 8, h1.symm, h2, h3, ?_⟩
    unfold Session.extractSubject
    rw [hs, find_first_match _ pre line post hpre hline]
  · intro h
    unfold Session.extractSubject
    rw [find_none_of_all_false _ _ h]

theorem extractSubject_first_line_of_payload_witness :
    (Split bodySubjectPayload '\n' =
        ["From: a@ex.com\r", "\r"] ++ "Subject: not a header\r" :: [""] ∧
      HasPrefix (ToLower "Subject: not a header\r") "subject:" = true) ∧
    ∃ head rest, "Subject: not a header\r".data = head ++ rest ∧ head.length = 8 ∧
      ToLower (String.mk head) = "subject:" ∧
      Session.extractSubject bodySubjectPayload = TrimSpace (String.mk rest) :=
  ⟨⟨by decide, by decide⟩,
   (extractSubject_first_line_of_payload bodySubjectPayload).1
     ["From: a@ex.com\r", "\r"] "Subject: not a header\r" [""] (by decide) (by decide)
     (by decide)⟩

/-- Claim C22, as stated, fails: two instants of the same second, for the same user and
domain, give the same message id, which has nothing between the user id and the `@`. -/
theorem same_second_same_message_id :
    (63840000000000000000 : Time) ≠ 63840000000999999999 ∧
    Session.generateMessageID exampleUser exampleConfig 63840000000000000000 =
      Session.generateMessageID exampleUser exampleConfig 63840000000999999999 ∧
    Session.generateMessageID exampleUser exampleConfig 63840000000000000000 =
      "1704403200-65f000000000000000000002@relay.test" := by
  decide

/-- Claim C22, amended. `generateMessageID` returns `<unix_ts>-<user_id>@<domain>`, with no
random component: for the same user and domain, two instants of the same Unix second give
the same message id. -/
theorem message_id_is_second_user_domain (user : User) (config : Config) (t1 t2 : Time)
    (h : t1.Unix = t2.Unix) :
    Session.generateMessageID user config t1 =
      toString t1.Unix ++ "-" ++ user.ID.Hex ++ "@" ++ config.Domain ∧
    Session.generateMessageID user config t1 = Session.generateMessageID user config t2 := by
  refine ⟨rfl, ?_⟩
  unfold Session.generateMessageID
  rw [h]

theorem message_id_is_second_user_domain_witness :
    Time.Unix 63840000000000000000 = Time.Unix 63840000000999999999 ∧
    Session.generateMessageID exampleUser exampleConfig 63840000000000000000 =
      Session.generateMessageID exampleUser exampleConfig 63840000000999999999 :=
  ⟨by decide,
   (message_id_is_second_user_domain exampleUser exampleConfig 63840000000000000000
      63840000000999999999 (by decide)).2⟩

/-! ## Queue adapter and worker: a body without the mail-log id -/

/-- The consume step adds broker calls only to the calls of the handler. -/
theorem consume_calls_after_handler (s : Service)
    (handler : MailMessage → Outcome × List Effect) (d : Delivery) (j : MessageJSON)
    (m : MailMessage) (publishAnswer : Option String) (now : Time)
    (hbody : d.Body = some j) (hdec : Unmarshal j = .ok m) :
    ∃ tail, (s.consume handler d publishAnswer now).calls = (handler m).2 ++ tail ∧
      updateCalls tail = [] ∧ sendAttempts tail = 0 := by
  rcases hres : handler m with ⟨o, done⟩
  cases o with
  | ok =>
    exact ⟨[.ack false], by simp [Service.consume, hbody, hdec, hres], rfl, rfl⟩
  | panicked msg =>
    exact ⟨[], by simp [Service.consume, hbody, hdec, hres], rfl, rfl⟩
  | error e =>
    simp only [Service.consume, hbody, hdec, hres]
    split_ifs
    · split
      · exact ⟨[], by simp, rfl, rfl⟩
      · refine ⟨_, by rw [List.append_assoc], ?_, ?_⟩ <;>
          cases publishAnswer <;>
          simp [Service.requeueWithDelay, updateCalls, sendAttempts]
    · exact ⟨[.nack false false], rfl, rfl, rfl⟩

/-- A record is left as it is by a trace whose writes all address other ids. -/
theorem after_of_other_ids (t : List Effect) :
    ∀ r : MailLog, (∀ w ∈ updateCalls t, w.1 ≠ r.ID) → r.after t = r := by
  induction t with
  | nil => intro r _; rfl
  | cons e rest ih =>
    intro r h
    cases e with
    | updateOne id set answer =>
      have hid : ¬ r.ID = id := fun heq => h (id, set) (by simp [updateCalls]) heq.symm
      have hrest : ∀ w ∈ updateCalls rest, w.1 ≠ r.ID :=
        fun w hw => h w (by simp [updateCalls, hw])
      cases answer with
      | none => simp only [MailLog.after, hid, if_false]; exact ih r hrest
      | some x => simp only [MailLog.after]; exact ih r hrest
    | _ =>
      simp only [MailLog.after]
      exact ih r (by simpa [updateCalls] using h)

/-- With the first write answered and a relay selected, `processMessage` calls `sendMail`
at least once and at most three times. -/
theorem sendAttempts_processMessage (p : Processor) (message : MailMessage)
    (env : WorkerAnswers) (config : SMTPConfig) (h0 : env.update "sending" 0 = none)
    (hsel : p.selectSMTPServer = some config) :
    1 ≤ sendAttempts (p.processMessage message env).2 ∧
      sendAttempts (p.processMessage message env).2 ≤ 3 := by
  rcases processMessage_loop_cases p message env config h0 hsel with ⟨a1, hr⟩ |
    ⟨f1, a1, a2, hr⟩ | ⟨f1, f2, a1, a2, a3, hr⟩ | ⟨f1, f2, f3, a1, a2, a3, hr⟩
  all_goals
    rw [hr]
    simp [sendAttempts_append, sendAttempts_attemptCalls, sendAttempts_updateMailStatus,
      sendAttempts_updateMailStatusWithCompletion, sendAttempts_pauseAfter]

/-- Which JSON objects `json.Unmarshal` refuses: those whose `mail_log_id` the driver
refuses and those whose `body` is not base64. -/
theorem Unmarshal_error_iff (j : MessageJSON) :
    (∃ e, Unmarshal j = .error e) ↔
      (j.mail_log_id = .refused ∨
        ∃ text, j.body = some text ∧ base64Decode (coerceUTF8 text).data = none) := by
  unfold Unmarshal
  cases hid : j.mail_log_id <;> cases hb : j.body with
  | none => simp [IdValue.decode]
  | some text =>
    cases hdec : base64Decode (coerceUTF8 text).data <;> simp [IdValue.decode, hdec]

/-- A JSON object without the `mail_log_id` key decodes, if at all, with the zero id. -/
theorem Unmarshal_absent_id (j : MessageJSON) (m : MailMessage)
    (hid : j.mail_log_id = .absent) (hdec : Unmarshal j = .ok m) :
    m.MailLogID = NilObjectID := by
  unfold Unmarshal at hdec
  rw [hid] at hdec
  simp only [IdValue.decode] at hdec
  split at hdec
  · simp at hdec
  · simp only [Except.ok.injEq] at hdec
    rw [← hdec]

/-- Claim C23, as stated, fails: a delivery whose JSON body has no `mail_log_id` key is
decoded with the zero id and handled like any message: the worker writes statuses for the
zero id, sends the mail to the relay, and the delivery is acked, not nacked. -/
theorem delivery_without_id_is_sent_and_acked :
    poisonDelivery.Body.map (fun j => j.mail_log_id) = some .absent ∧
    Effect.ack false ∈
      (exampleQueue.consume (fun message => exampleWorker.processMessage message
        exampleWorkerAnswers) poisonDelivery none 0).calls ∧
    Effect.nack false false ∉
      (exampleQueue.consume (fun message => exampleWorker.processMessage message
        exampleWorkerAnswers) poisonDelivery none 0).calls ∧
    sendAttempts
      (exampleQueue.consume (fun message => exampleWorker.processMessage message
        exampleWorkerAnswers) poisonDelivery none 0).calls = 1 ∧
    (updateCalls
      (exampleQueue.consume (fun message => exampleWorker.processMessage message
        exampleWorkerAnswers) poisonDelivery none 0).calls).map
        (fun w => (w.1, w.2.status)) =
      [(NilObjectID, "sending"), (NilObjectID, "sending"), (NilObjectID, "sent")] := by
  decide

/-- Claim C23, amended. A delivery whose body does not decode is nacked without requeue and
nothing else happens, whatever the handler; the JSON objects that do not decode are those
whose `mail_log_id` the driver refuses and those whose `body` is not base64. A body that is
JSON without the `mail_log_id` key and decodes gives a message with the zero id, and the
handler runs on it like on any message. `processMessage` returns nil or an error. When it
returns nil the consume step made the calls of `processMessage` and then one ack. When it
returns an error and the retry count of the delivery is `n ≥ 0`, the step made the calls of
`processMessage`, then for `n < 3` one publish to the delay queue (the message with
`retry-count = n + 1` and the backoff delay for `n`), then one nack without requeue. Every
store write addresses the zero id, so no record with another id is changed, and with the
first write answered and an active relay in the pool the mail is sent at least once. -/
theorem only_undecodable_body_is_poison (s : Service) (d : Delivery)
    (publishAnswer : Option String) (now : Time) :
    (∀ handler : MailMessage → Outcome × List Effect,
      (d.Body = none ∨ ∃ j e, d.Body = some j ∧ Unmarshal j = .error e) →
      s.consume handler d publishAnswer now = { calls := [.nack false false], panic := none }) ∧
    (∀ j : MessageJSON, (∃ e, Unmarshal j = .error e) ↔
      (j.mail_log_id = .refused ∨
        ∃ text, j.body = some text ∧ base64Decode (coerceUTF8 text).data = none)) ∧
    (∀ (j : MessageJSON) (m : MailMessage) (p : Processor) (env : WorkerAnswers),
      d.Body = some j → j.mail_log_id = .absent → Unmarshal j = .ok m →
      m.MailLogID = NilObjectID ∧
      ((p.processMessage m env).1 = .ok ∨ ∃ e, (p.processMessage m env).1 = .error e) ∧
      ((p.processMessage m env).1 = .ok →
        s.consume (fun message => p.processMessage message env) d publishAnswer now =
          { calls := (p.processMessage m env).2 ++ [.ack false], panic := none }) ∧
      (∀ (e : String) (n : Nat), (p.processMessage m env).1 = .error e →
        Service.getRetryCount d.Headers = (n : Int) → n < 3 →
        ∃ delay copy, delays[n]? = some delay ∧
          copy.Expiration = toString delay.Milliseconds ∧
          copy.Headers = some [("retry-count", .int32 ((n : Int) + 1))] ∧
          copy.Body = Marshal m ∧
          s.consume (fun message => p.processMessage message env) d publishAnswer now =
            { calls := (p.processMessage m env).2 ++
                [.publish "" (s.queueName ++ ".delay") copy publishAnswer, .nack false false],
              panic := none }) ∧
      (∀ (e : String) (n : Nat), (p.processMessage m env).1 = .error e →
        Service.getRetryCount d.Headers = (n : Int) → 3 ≤ n →
        s.consume (fun message => p.processMessage message env) d publishAnswer now =
          { calls := (p.processMessage m env).2 ++ [.nack false false], panic := none }) ∧
      (∀ w ∈ updateCalls
          (s.consume (fun message => p.processMessage message env) d publishAnswer now).calls,
        w.1 = NilObjectID) ∧
      (∀ r : MailLog, r.ID ≠ NilObjectID →
        r.after
          (s.consume (fun message => p.processMessage message env) d publishAnswer
            now).calls = r) ∧
      (env.update "sending" 0 = none → (∃ c ∈ p.smtpConfigs, c.Active = true) →
        1 ≤ sendAttempts
          (s.consume (fun message => p.processMessage message env) d publishAnswer
            now).calls)) := by
  refine ⟨?_, Unmarshal_error_iff, ?_⟩
  · intro handler h
    rcases h with h | ⟨j, e, hj, he⟩
    · simp [Service.consume, h]
    · simp [Service.consume, hj, he]
  · intro j m p env hbody hid hdec
    have hm : m.MailLogID = NilObjectID := Unmarshal_absent_id j m hid hdec
    obtain ⟨tail, ht, hu, hs⟩ := consume_calls_after_handler s
      (fun message => p.processMessage message env) d j m publishAnswer now hbody hdec
    obtain ⟨-, hw, -⟩ := writes_of_invocation p m env
    have hids : ∀ w ∈ updateCalls
        (s.consume (fun message => p.processMessage message env) d publishAnswer now).calls,
        w.1 = NilObjectID := by
      intro w hmem
      rw [ht, updateCalls_append, hu, List.append_nil] at hmem
      rw [(hw w hmem).2, hm]
    have hpair : ∀ o, (p.processMessage m env).1 = o →
        (fun message => p.processMessage message env) m = (o, (p.processMessage m env).2) := by
      intro o ho
      rw [← ho]
    refine ⟨hm, ?_, ?_, ?_, ?_, hids, ?_, ?_⟩
    · have hnp := processMessage_not_panicked p m env
      cases ho : (p.processMessage m env).1 with
      | ok => exact Or.inl rfl
      | error e => exact Or.inr ⟨e, rfl⟩
      | panicked msg => exact absurd ho (hnp msg)
    · intro hok
      rcases hres : p.processMessage m env with ⟨o, done⟩
      rw [hres] at hok
      simp only at hok
      subst hok
      simp [Service.consume, hbody, hdec, hres]
    · intro e n herr hn h3
      obtain ⟨delay, hd1, -, hc⟩ :=
        consume_failure_lt s (fun message => p.processMessage message env) d j m publishAnswer
          now n e (p.processMessage m env).2 hbody hdec hn (hpair _ herr) h3
      exact ⟨delay, delayPublishing m delay n now, hd1, rfl, rfl, rfl, hc⟩
    · intro e n herr hn h3
      have hge : ¬ ((n : Int) < 3) := by omega
      rcases hres : p.processMessage m env with ⟨o, done⟩
      rw [hres] at herr
      simp only at herr
      subst herr
      simp [Service.consume, hbody, hdec, hres, hn, hge]
    · intro r hr
      apply after_of_other_ids
      intro w hmem heq
      exact hr (by rw [← heq, hids w hmem])
    · intro h0 hact
      have hsome : ∃ config, p.selectSMTPServer = some config := by
        cases hsel : p.selectSMTPServer with
        | some c => exact ⟨c, rfl⟩
        | none =>
          obtain ⟨c, hc, hactive⟩ := hact
          have := (firstActive_none p.smtpConfigs).mp hsel c hc
          rw [hactive] at this
          simp at this
      obtain ⟨config, hsel⟩ := hsome
      rw [ht, sendAttempts_append, hs]
      exact (sendAttempts_processMessage p m env config h0 hsel).1

theorem only_undecodable_body_is_poison_witness :
    (poisonDelivery.Body = some { Marshal exampleMessage with mail_log_id := .absent } ∧
      ({ Marshal exampleMessage with mail_log_id := .absent } : MessageJSON).mail_log_id =
        .absent ∧
      Unmarshal { Marshal exampleMessage with mail_log_id := .absent } =
        .ok { exampleMessage with MailLogID := NilObjectID } ∧
      (exampleWorker.processMessage { exampleMessage with MailLogID := NilObjectID }
        exampleWorkerAnswers).1 = .ok) ∧
    exampleQueue.consume (fun message => exampleWorker.processMessage message
        exampleWorkerAnswers) poisonDelivery none 0 =
      { calls := (exampleWorker.processMessage { exampleMessage with MailLogID := NilObjectID }
          exampleWorkerAnswers).2 ++ [.ack false], panic := none } :=
  ⟨⟨rfl, rfl, by decide, by decide⟩,
   ((only_undecodable_body_is_poison exampleQueue poisonDelivery none 0).2.2
      { Marshal exampleMessage with mail_log_id := .absent }
      { exampleMessage with MailLogID := NilObjectID } exampleWorker exampleWorkerAnswers
      rfl rfl (by decide)).2.2.1 (by decide)⟩

/-! ## Ingress: the two quota checks -/

/-- For positive caps the counter-based check and the count-based check decide alike. -/
theorem quota_checks_agree_on_positive_caps (c : SMTPCredential) (dailyCount hourlyCount : Int)
    (now : Time) (hd : c.Settings.DailyQuota > 0) (hh : c.Settings.HourlyQuota > 0) :
    (counterCheck c dailyCount hourlyCount now).1 = .ok ↔
      Session.checkCredentialQuota c (.ok dailyCount) (.ok hourlyCount) = .ok := by
  have hreset : ¬ (now.Truncate Hour < now.Truncate Hour) := lt_irrefl _
  by_cases h1 : hourlyCount ≥ c.Settings.HourlyQuota
  · by_cases h2 : dailyCount ≥ c.Settings.DailyQuota
    · simp [counterCheck, Auth.Service.CheckCredentialQuota, quotaRecord,
        Session.checkCredentialQuota, hd, hh, h1, h2]
    · simp [counterCheck, Auth.Service.CheckCredentialQuota, quotaRecord,
        Session.checkCredentialQuota, hd, hh, h1, h2]
  · by_cases h2 : dailyCount ≥ c.Settings.DailyQuota
    · simp [counterCheck, Auth.Service.CheckCredentialQuota, quotaRecord,
        Session.checkCredentialQuota, hd, hh, h1, h2]
    · simp [counterCheck, Auth.Service.CheckCredentialQuota, quotaRecord,
        Session.checkCredentialQuota, hd, hh, h1, h2]

/-- Claim C24 at a failing input. For a credential whose caps are 0 and usage counts 0, the
count-based check accepts and the counter-based check, on the quota record holding these
counts and limits, rejects (hourly cap exhausted); with daily cap 0 and hourly cap 5 the
counter-based check rejects as well (daily cap exhausted) and the count-based one
accepts. -/
theorem zero_cap_splits_the_quota_checks :
    zeroCapCredential.Settings.DailyQuota = 0 ∧ zeroCapCredential.Settings.HourlyQuota = 0 ∧
    Session.checkCredentialQuota zeroCapCredential (.ok 0) (.ok 0) = .ok ∧
    counterCheck zeroCapCredential 0 0 63840000000000000000 =
      (.error "小时发送配额已用完", []) ∧
    counterCheck
        { zeroCapCredential with
          Settings := { zeroCapCredential.Settings with HourlyQuota := 5 } }
        0 0 63840000000000000000 =
      (.error "日发送配额已用完", []) ∧
    Session.checkCredentialQuota
        { zeroCapCredential with
          Settings := { zeroCapCredential.Settings with HourlyQuota := 5 } }
        (.ok 0) (.ok 0) = .ok := by
  decide

/-! ## Ingress: the session across calls -/

/-- What one call does to a session: nothing, a new envelope on an authenticated session,
a new user and credential, or a reset. -/
theorem call_effect (s : Session) (c : SessionCall) :
    (s.call c).2 = s ∨
    ((s.user.isSome = true ∧ s.credential.isSome = true) ∧
      ∃ sender rcpts, (s.call c).2 = { s with sender := sender, rcpts := rcpts }) ∨
    (∃ user credential,
      (s.call c).2 = { s with user := some user, credential := some credential }) ∨
    (s.call c).2 = s.Reset := by
  cases c with
  | authPlain lookup userLookup =>
    cases lookup with
    | error e => exact Or.inl rfl
    | ok credential =>
      cases hu : userLookup credential with
      | none => exact Or.inl (by simp [Session.call, Session.AuthPlain, hu])
      | some user =>
        exact Or.inr (Or.inr (Or.inl ⟨user, credential,
          by simp [Session.call, Session.AuthPlain, hu]⟩))
  | mail sender =>
    by_cases hb : (s.user.isNone || s.credential.isNone) = true
    · exact Or.inl (by simp [Session.call, Session.Mail, hb])
    · have hboth : s.user.isSome = true ∧ s.credential.isSome = true := by
        cases hu : s.user <;> cases hc : s.credential <;> simp [hu, hc] at hb ⊢
      rcases hv : s.isValidSender sender with b | m
      · cases b
        · exact Or.inl (by simp [Session.call, Session.Mail, hb, hv])
        · exact Or.inr (Or.inl ⟨hboth, sender, s.rcpts,
            by simp [Session.call, Session.Mail, hb, hv]⟩)
      · exact Or.inl (by simp [Session.call, Session.Mail, hb, hv])
  | rcpt rcpt =>
    by_cases hb : (s.user.isNone || s.credential.isNone) = true
    · exact Or.inl (by simp [Session.call, Session.Rcpt, hb])
    · have hboth : s.user.isSome = true ∧ s.credential.isSome = true := by
        cases hu : s.user <;> cases hc : s.credential <;> simp [hu, hc] at hb ⊢
      have hu : ¬ s.user = none := by
        intro h
        rw [h] at hboth
        simp at hboth
      cases hc : s.credential with
      | none => exact Or.inl (by simp [Session.call, Session.Rcpt, hb, hc])
      | some credential =>
        by_cases hfull : (s.rcpts.length : Int) ≥ maxRecipientsOf credential
        · exact Or.inl (by simp [Session.call, Session.Rcpt, hc, hfull, hu])
        · refine Or.inr (Or.inl ⟨by rw [← hc]; exact hboth, s.sender, s.rcpts ++ [rcpt], ?_⟩)
          simp [Session.call, Session.Rcpt, hc, hfull, hu]
  | reset => exact Or.inr (Or.inr (Or.inr rfl))

theorem call_preserves_consistent (s : Session) (c : SessionCall) (h : s.Consistent) :
    (s.call c).2.Consistent := by
  obtain ⟨h1, h2⟩ := h
  rcases call_effect s c with he | ⟨hboth, sender, rcpts, he⟩ | ⟨user, credential, he⟩ | he
  · rw [he]; exact ⟨h1, h2⟩
  · rw [he]; exact ⟨h1, fun _ => hboth⟩
  · rw [he]; exact ⟨by simp, fun _ => by simp⟩
  · rw [he]; exact ⟨h1, fun h => by simp [Session.Reset] at h⟩

theorem run_preserves_consistent (calls : List SessionCall) :
    ∀ s : Session, s.Consistent → (s.run calls).Consistent := by
  induction calls with
  | nil => intro s h; exact h
  | cons c rest ih =>
    intro s h
    exact ih _ (call_preserves_consistent s c h)

/-- Claim C28. In the session reached from a fresh one by any sequence of `AuthPlain`,
`Mail`, `Rcpt` and `Reset` calls: the user is set if and only if the credential is set; a
non-empty envelope sender or recipient list implies that both are set; `Reset` clears the
envelope sender and the recipients and keeps user and credential; an `AuthPlain` that fails
leaves the session, so user and credential, as it was. -/
theorem reachable_session_is_consistent (calls : List SessionCall) :
    ((NewSession.run calls).user.isSome = true ↔
      (NewSession.run calls).credential.isSome = true) ∧
    (((NewSession.run calls).sender ≠ "" ∨ (NewSession.run calls).rcpts ≠ []) →
      (NewSession.run calls).user.isSome = true ∧
      (NewSession.run calls).credential.isSome = true) ∧
    ((NewSession.run calls).Reset.sender = "" ∧ (NewSession.run calls).Reset.rcpts = [] ∧
      (NewSession.run calls).Reset.user = (NewSession.run calls).user ∧
      (NewSession.run calls).Reset.credential = (NewSession.run calls).credential) ∧
    (∀ (lookup : Except String SMTPCredential) (userLookup : SMTPCredential → Option User),
      ((NewSession.run calls).AuthPlain lookup userLookup).1 ≠ .ok →
      ((NewSession.run calls).AuthPlain lookup userLookup).2 = NewSession.run calls) := by
  have hinv := run_preserves_consistent calls NewSession (by simp [Session.Consistent, NewSession])
  refine ⟨hinv.1, hinv.2, ⟨rfl, rfl, rfl, rfl⟩, ?_⟩
  intro lookup userLookup hfail
  cases lookup with
  | error e => rfl
  | ok credential =>
    cases hu : userLookup credential with
    | none => simp [Session.AuthPlain, hu]
    | some user => simp [Session.AuthPlain, hu] at hfail

theorem reachable_session_is_consistent_witness :
    ((NewSession.run
        [.mail "a@ex.com", .authPlain (.ok exampleCredential) (fun _ => some exampleUser),
         .mail "a@ex.com", .rcpt "b@x"]).sender ≠ "" ∨
      (NewSession.run
        [.mail "a@ex.com", .authPlain (.ok exampleCredential) (fun _ => some exampleUser),
         .mail "a@ex.com", .rcpt "b@x"]).rcpts ≠ []) ∧
    ((NewSession.run
        [.mail "a@ex.com", .authPlain (.ok exampleCredential) (fun _ => some exampleUser),
         .mail "a@ex.com", .rcpt "b@x"]).user.isSome = true ∧
      (NewSession.run
        [.mail "a@ex.com", .authPlain (.ok exampleCredential) (fun _ => some exampleUser),
         .mail "a@ex.com", .rcpt "b@x"]).credential.isSome = true) :=
  ⟨by decide,
   (reachable_session_is_consistent
      [.mail "a@ex.com", .authPlain (.ok exampleCredential) (fun _ => some exampleUser),
       .mail "a@ex.com", .rcpt "b@x"]).2.1 (by decide)⟩

/-! ## Safety of indexing and of the last error -/

/-- Claim C25 at a failing input. The text `450 mailbox busy` begins with a reply code of
the 4xx range and a space, and `isTemporaryError` returns false for it, wrapped by `sendMail`
or not; `421 try again later` is classified temporary only by its phrase, and
`451 4.3.0 mailbox busy` by the `4.` of its enhanced code. -/
theorem reply_code_450_is_not_temporary :
    HasPrefix "450 mailbox busy" "450 " = true ∧
    Processor.isTemporaryError "450 mailbox busy" = false ∧
    Processor.isTemporaryError "设置发件人失败: 450 mailbox busy" = false ∧
    Processor.isTemporaryError "421 try again later" = true ∧
    Processor.isTemporaryError "451 4.3.0 mailbox busy" = true := by
  decide

/-- Claim C26 at a failing input. With allowed domains `[ex.com]` and the empty sender (the
null reverse-path), the split of the sender has one element and `isValidSender` indexes it at
position 1: a runtime panic, in `Mail` too. The same for `postmaster`. -/
theorem sender_without_at_sign_panics :
    exampleSession.credential = some exampleCredential ∧
    exampleCredential.Settings.AllowedDomains = ["ex.com"] ∧
    Split "" '@' = [""] ∧
    exampleSession.isValidSender "" = .panic "index out of range [1]" ∧
    (exampleSession.Mail "").1 = .panicked "index out of range [1]" ∧
    exampleSession.isValidSender "postmaster" = .panic "index out of range [1]" := by
  decide

/-- A sender without `@` always runs past the split result when domains are listed. -/
theorem isValidSender_without_at (s : Session) (c : SMTPCredential) (sender : String)
    (hc : s.credential = some c) (hd : c.Settings.AllowedDomains ≠ [])
    (hat : '@' ∉ sender.data) :
    s.isValidSender sender = .panic "index out of range [1]" := by
  have hpos : c.Settings.AllowedDomains.length > 0 := List.length_pos.mpr hd
  have hsplit : Split sender '@' = [sender] := by
    simp [Split, splitChars_of_not_mem _ _ hat]
  simp [Session.isValidSender, hc, hpos, hsplit]

/-- Claim C27 at a failing input. For a header table with `retry-count` the int32 value -1,
`getRetryCount` returns -1, which is below 3, and `calculateRetryDelay` indexes the backoff
table at -1: a runtime panic, which ends the consume step before any nack. -/
theorem negative_retry_count_panics :
    Service.getRetryCount negativeRetryDelivery.Headers = -1 ∧
    Service.calculateRetryDelay (-1) = .panic "index out of range" ∧
    exampleQueue.consume exampleHandler negativeRetryDelivery none 0 =
      { calls := [], panic := some "index out of range" } := by
  decide

/-- The delay is computed without a panic exactly for the counts that are not negative. -/
theorem calculateRetryDelay_panics_iff (n : Int) :
    (∃ m, Service.calculateRetryDelay n = .panic m) ↔ n < 0 := by
  by_cases hneg : n < 0
  · have h3 : n < 3 := by omega
    simp [Service.calculateRetryDelay, delays, hneg, h3]
  · by_cases h3 : n < 3
    · have hcases : n = 0 ∨ n = 1 ∨ n = 2 := by omega
      rcases hcases with h | h | h <;> subst h <;>
        simp [Service.calculateRetryDelay, delays]
    · simp [Service.calculateRetryDelay, delays, hneg, h3]

/-- Claim C30. For every mail-log, `calculatePriority` returns a value between 3 and 7: it
is the sum `5 + a + b` itself, so no clamping branch changes it, and none of the priorities
0, 1, 2, 8, 9 is ever returned. -/
theorem priority_between_three_and_seven (mailLog : MailLog) :
    3 ≤ Service.calculatePriority mailLog ∧ Service.calculatePriority mailLog ≤ 7 ∧
    Service.calculatePriority mailLog =
      5 + (if mailLog.Size < 1024 * 1024 then 1
           else if mailLog.Size > 10 * 1024 * 1024 then -1 else 0) +
          (if mailLog.To.length = 1 then 1 else if mailLog.To.length > 10 then -1 else 0) ∧
    Service.calculatePriority mailLog ∉ ([0, 1, 2, 8, 9] : List Int) := by
  have h : Service.calculatePriority mailLog =
      5 + (if mailLog.Size < 1024 * 1024 then 1
           else if mailLog.Size > 10 * 1024 * 1024 then -1 else 0) +
          (if mailLog.To.length = 1 then 1 else if mailLog.To.length > 10 then -1 else 0) := by
    unfold Service.calculatePriority
    simp only
    split_ifs <;> omega
  have hr : 3 ≤ Service.calculatePriority mailLog ∧ Service.calculatePriority mailLog ≤ 7 := by
    rw [h]
    split_ifs <;> omega
  refine ⟨hr.1, hr.2, h, ?_⟩
  simp only [List.mem_cons, List.mem_singleton, List.not_mem_nil, or_false]
  omega

/-- From a state of the loop in which the last error is set whenever three attempts were
made, the loop never ends in the nil dereference of its final branch. -/
theorem sendLoop_not_panicked (env : WorkerAnswers) (config : SMTPConfig)
    (message : MailMessage) (fuel : Nat) :
    ∀ (a : Int) (last : Option String) (r : Outcome × List Effect),
      (3 ≤ a → last ≠ none) →
      Processor.sendLoop env config message fuel a last = some r →
      ∀ m, r.1 ≠ .panicked m := by
  induction fuel with
  | zero =>
    intro a last r _ h
    simp [Processor.sendLoop] at h
  | succ fuel ih =>
    intro a last r hinv h m
    by_cases ha : a < 3
    · rcases sendMail_outcome config message (env.upstream (a + 1)) with hok | ⟨e, herr⟩
      · rw [sendLoop_ok env config message fuel a (a + 1) last ha rfl hok] at h
        simp only [Option.some.injEq] at h
        rw [← h]
        simp
      · rw [sendLoop_error env config message fuel a (a + 1) last e ha rfl herr] at h
        rcases hrec : Processor.sendLoop env config message fuel (a + 1) (some e) with
          _ | r2
        · rw [hrec] at h
          simp at h
        · rw [hrec] at h
          simp only [Option.map_some', Option.some.injEq] at h
          rw [← h]
          exact ih (a + 1) (some e) r2 (fun _ => by simp) hrec m
    · have h3 : 3 ≤ a := by omega
      cases last with
      | none => exact absurd rfl (hinv h3)
      | some e =>
        simp only [Processor.sendLoop, ha, if_false, Option.some.injEq] at h
        rw [← h]
        simp

/-- Claim C29. `processMessage` never panics; the loop started with no attempt made and a
nil last error never ends in the nil dereference of its final branch, whatever the fuel; and
when the final branch is reached (all three attempts failed), the text read from the last
error is the non-empty text of the third error, which is written with status `failed` and
returned. -/
theorem final_branch_has_last_error (p : Processor) (message : MailMessage)
    (env : WorkerAnswers) :
    (∀ m, (p.processMessage message env).1 ≠ .panicked m) ∧
    (∀ (config : SMTPConfig) (fuel : Nat) (r : Outcome × List Effect),
      Processor.sendLoop env config message fuel 0 none = some r →
      ∀ m, r.1 ≠ .panicked m) ∧
    (∀ (config : SMTPConfig) (e1 e2 e3 : String),
      env.update "sending" 0 = none → p.selectSMTPServer = some config →
      (Processor.sendMail config message (env.upstream 1)).1 = .error e1 →
      (Processor.sendMail config message (env.upstream 2)).1 = .error e2 →
      (Processor.sendMail config message (env.upstream 3)).1 = .error e3 →
      e3 ≠ "" ∧ (p.processMessage message env).1 = .error e3 ∧
      (updateCalls (p.processMessage message env).2).getLast? =
        some (message.MailLogID,
          { status := "failed", attempts := 3, last_attempt := env.lastAttempt "failed" 3,
            error_message := some e3, completed_at := none })) := by
  refine ⟨fun m => processMessage_not_panicked p message env m, ?_, ?_⟩
  · intro config fuel r h m
    exact sendLoop_not_panicked env config message fuel 0 none r (by norm_num) h m
  · intro config e1 e2 e3 h0 hsel h1 h2 h3
    have hne := sendMail_error_ne_empty config message (env.upstream 3) e3 h3
    rcases processMessage_loop_cases p message env config h0 hsel with ⟨a1, hr⟩ |
      ⟨f1, a1, a2, hr⟩ | ⟨f1, f2, a1, a2, a3, hr⟩ | ⟨f1, f2, f3, a1, a2, a3, hr⟩
    · rw [a1] at h1; simp at h1
    · rw [a2] at h2; simp at h2
    · rw [a3] at h3; simp at h3
    · rw [a3] at h3
      simp only [Outcome.error.injEq] at h3
      subst h3
      refine ⟨hne, by rw [hr], ?_⟩
      rw [hr]
      simp [updateCalls_append, updateCalls_updateMailStatus, updateCalls_attemptCalls,
        updateCalls_pauseAfter, hne]

theorem final_branch_has_last_error_witness :
    (refusingAnswers.update "sending" 0 = none ∧
      exampleWorker.selectSMTPServer = some exampleRelay ∧
      (Processor.sendMail exampleRelay exampleMessage (refusingAnswers.upstream 3)).1 =
        .error "设置收件人失败 (b@x): 550 mailbox not found") ∧
    (exampleWorker.processMessage exampleMessage refusingAnswers).1 =
      .error "设置收件人失败 (b@x): 550 mailbox not found" :=
  ⟨⟨rfl, by decide, by decide⟩,
   ((final_branch_has_last_error exampleWorker exampleMessage refusingAnswers).2.2
      exampleRelay "设置收件人失败 (b@x): 550 mailbox not found"
      "设置收件人失败 (b@x): 550 mailbox not found"
      "设置收件人失败 (b@x): 550 mailbox not found" rfl (by decide) (by decide) (by decide)
      (by decide)).2.1⟩

end SmtpRelay
